import Mathlib

set_option autoImplicit false

/-!
# Win32 console map editor: embedding of `MapEditor/main.cpp`

The program keeps all of its data in global variables.  The embedding collects
them in one record, `State`, and turns every function of the program into a
function on that record.

* C arrays are indexed containers whose every access is bounds checked: an
  access outside the declared dimensions is undefined behaviour in C and is
  `Fault.outOfBounds` here, so a result `Except.ok` certifies that the run made
  no access outside an array.
* `char` is the signed 8 bit type of the Win32 compilers.  A `char` is stored
  as its bit pattern `0..255`; conversion of a `char` to the unsigned 16 bit
  `WORD` sign-extends (`charToWORD`), conversion of an `int` to `char` keeps the
  low 8 bits (`intToChar`).
* `for (int i = 0; i < n; ++i)` is `forLoop n`.
* The console (title, window size, `ReadConsoleOutput` into an unused local,
  `WriteConsoleOutput`, `MessageBox`) is outside the embedding; the file
  `test.map` is the field `mapFile` of the state.
-/

namespace MapEditor

/-! ## Constants -/

/-- The two editor modes, `enum EditorMode { tiles, walkability }`. -/
inductive EditorMode where
  | tiles
  | walkability
  deriving DecidableEq, Repr

/-- How a run leaves the defined behaviour of the program. -/
inductive Fault where
  /-- An array is accessed outside its bounds. -/
  | outOfBounds
  /-- The length handed to `new char[length]` is negative (the file is absent and
  `tellg` gave `-1`): the allocation throws and nothing catches it. -/
  | badArrayLength
  deriving DecidableEq, Repr

abbrev mapPanelWidth : Nat := 80
abbrev mapPanelHeight : Nat := 25
abbrev palettePanelWidth : Nat := 80
abbrev palettePanelHeight : Nat := 7

/-- Width of the whole screen as the source computes it from two panel widths:
`a > b ? a : b`. -/
def screenWidthOf (mapWidth paletteWidth : Nat) : Nat :=
  if mapWidth > paletteWidth then mapWidth else paletteWidth

abbrev screenWidth : Nat := screenWidthOf mapPanelWidth palettePanelWidth
abbrev screenHeight : Nat := mapPanelHeight + palettePanelHeight

/-- Console attribute bits of the Windows SDK header `wincon.h`. -/
abbrev FOREGROUND_BLUE : Nat := 0x0001
abbrev FOREGROUND_GREEN : Nat := 0x0002
abbrev FOREGROUND_RED : Nat := 0x0004
abbrev BACKGROUND_BLUE : Nat := 0x0010
abbrev BACKGROUND_GREEN : Nat := 0x0020
abbrev BACKGROUND_RED : Nat := 0x0040
abbrev BACKGROUND_INTENSITY : Nat := 0x0080

/-- Mouse button masks of `wincon.h`. -/
abbrev FROM_LEFT_1ST_BUTTON_PRESSED : Nat := 0x0001
abbrev RIGHTMOST_BUTTON_PRESSED : Nat := 0x0002

/-- Virtual key codes of `winuser.h`; the code of a letter key is its upper case
ASCII code. -/
abbrev VK_TAB : Nat := 0x09
abbrev VK_S : Nat := 0x53

/-- The colour of the glyph swatches: white on blue. -/
def defaultPaletteAttributes : Nat :=
  BACKGROUND_BLUE ||| FOREGROUND_RED ||| FOREGROUND_GREEN ||| FOREGROUND_BLUE

/-! ## Machine integers -/

/-- Conversion of an `int` to `char`: the low 8 bits, as a bit pattern. -/
def intToChar (n : Nat) : Nat := n % 256

/-- Conversion of a (signed) `char`, given by its bit pattern, to the unsigned
16 bit `WORD`: the value is sign-extended, so the patterns `128..255` become
`0xFF80..0xFFFF`. -/
def charToWORD (c : Nat) : Nat :=
  if c % 256 < 128 then c % 256 else c % 256 + 0xFF00

/-! ## Data -/

/-- A screen cell, `CHAR_INFO`.  `AsciiChar` is the bit pattern of the `char`
member of the union `Char`; `Attributes` is the `WORD` of colour bits. -/
structure CHAR_INFO where
  AsciiChar : Nat
  Attributes : Nat
  deriving DecidableEq, Repr

/-- The zero value of a cell, which static storage starts with. -/
instance : Inhabited CHAR_INFO := ⟨⟨0, 0⟩⟩

/-- Assignment of `v` to element `i` of a list whose missing elements read as
`d`: a list too short for `i` is filled up with `d` first. -/
def setPad {β : Type} (d : β) : List β → Nat → β → List β
  | [], 0, v => [v]
  | [], i + 1, v => d :: setPad d [] i v
  | _ :: t, 0, v => v :: t
  | h :: t, i + 1, v => h :: setPad d t i v

/-- A two dimensional C array `T a[rows][cols]`, kept as the list of its rows.
`rows` and `cols` are the declared dimensions, against which every access is
checked. -/
structure Array2D (α : Type) (rows cols : Nat) where
  data : List (List α)

namespace Array2D

variable {α : Type} {rows cols : Nat}

/-- The element `a[y][x]`; an element the lists do not hold reads as the zero
value. -/
def cell [Inhabited α] (a : Array2D α rows cols) (y x : Nat) : α :=
  (a.data.getD y []).getD x default

/-- The array whose every element is `v`. -/
def fill (v : α) : Array2D α rows cols := ⟨List.replicate rows (List.replicate cols v)⟩

/-- Read of `a[y][x]`. -/
def read [Inhabited α] (a : Array2D α rows cols) (y x : Nat) : Except Fault α :=
  if y < rows ∧ x < cols then .ok (a.cell y x) else .error .outOfBounds

/-- Update of `a[y][x]` in place by `f` (an assignment to the element or to one of
its members). -/
def modify [Inhabited α] (a : Array2D α rows cols) (y x : Nat) (f : α → α) :
    Except Fault (Array2D α rows cols) :=
  if y < rows ∧ x < cols then
    .ok ⟨setPad [] a.data y (setPad default (a.data.getD y []) x (f (a.cell y x)))⟩
  else .error .outOfBounds

/-- Assignment `a[y][x] = v`. -/
def write [Inhabited α] (a : Array2D α rows cols) (y x : Nat) (v : α) :
    Except Fault (Array2D α rows cols) :=
  a.modify y x (fun _ => v)

/-- Read with signed indices, as the `short` cursor coordinates are. -/
def readAt [Inhabited α] (a : Array2D α rows cols) (y x : Int) : Except Fault α :=
  if 0 ≤ y ∧ 0 ≤ x then a.read y.toNat x.toNat else .error .outOfBounds

/-- Assignment with signed indices. -/
def writeAt [Inhabited α] (a : Array2D α rows cols) (y x : Int) (v : α) :
    Except Fault (Array2D α rows cols) :=
  if 0 ≤ y ∧ 0 ≤ x then a.write y.toNat x.toNat v else .error .outOfBounds

end Array2D

/-- Read of element `i` of a `char` buffer. -/
def bufRead (buf : List Nat) (i : Nat) : Except Fault Nat :=
  match buf[i]? with
  | some b => .ok b
  | none => .error .outOfBounds

/-- Assignment to element `i` of a `char` buffer. -/
def bufWrite (buf : List Nat) (i : Nat) (v : Nat) : Except Fault (List Nat) :=
  if i < buf.length then .ok (buf.set i v) else .error .outOfBounds

/-- The loop `for (int i = 0; i < n; ++i) body(i)`. -/
def forLoop {σ : Type} (n : Nat) (body : Nat → σ → Except Fault σ) (s : σ) :
    Except Fault σ :=
  match n with
  | 0 => .ok s
  | k + 1 => forLoop k body s >>= body k

/-- The global variables of the program, and the map file on disk. -/
structure State where
  editorMode : EditorMode
  hasSelection : Bool
  selection : CHAR_INFO
  mouseX : Int
  mouseY : Int
  walkabilityGrid : Array2D Bool mapPanelHeight mapPanelWidth
  mapBuffer : Array2D CHAR_INFO mapPanelHeight mapPanelWidth
  screenBuffer : Array2D CHAR_INFO screenHeight screenWidth
  /-- Bytes of the file `test.map`, `none` while the file does not exist. -/
  mapFile : Option (List Nat)

/-- A console coordinate, two `SHORT`s. -/
structure COORD where
  X : Int
  Y : Int
  deriving DecidableEq, Repr

/-- An input record, by event type.  `other` stands for the event types the
program does not look at (focus, menu and buffer size events). -/
inductive INPUT_RECORD where
  | KEY_EVENT (bKeyDown : Bool) (wVirtualKeyCode : Nat)
  | MOUSE_EVENT (dwMousePosition : COORD) (dwButtonState : Nat)
  | other
  deriving DecidableEq, Repr

/-! ## Initialisation -/

/-- The state the static initialisers give: mode `tiles`, no selection, cursor
at the origin, every array zeroed; `file` is what is on disk. -/
def initialState (file : Option (List Nat)) : State where
  editorMode := .tiles
  hasSelection := false
  selection := ⟨0, 0⟩
  mouseX := 0
  mouseY := 0
  walkabilityGrid := Array2D.fill false
  mapBuffer := Array2D.fill ⟨0, 0⟩
  screenBuffer := Array2D.fill ⟨0, 0⟩
  mapFile := file

/-- Source `InitWalkabilityGrid`: every flag becomes `true`. -/
def InitWalkabilityGrid (s : State) : Except Fault State :=
  forLoop mapPanelHeight (fun y s =>
    forLoop mapPanelWidth (fun x s => do
      let wg ← s.walkabilityGrid.write y x true
      pure { s with walkabilityGrid := wg }) s) s

/-- Body of the inner loop of `InitPalette` for the palette cell `(x, y)`. -/
def initPaletteCell (y x : Nat) (s : State) : Except Fault State :=
  let index := x + y * palettePanelWidth
  if index < 256 then do
    let sb ← s.screenBuffer.modify (mapPanelHeight + y) x
      (fun c => { c with AsciiChar := intToChar index })
    let sb ← sb.modify (mapPanelHeight + y) x
      (fun c => { c with Attributes := defaultPaletteAttributes })
    pure { s with screenBuffer := sb }
  else if index < 512 then do
    let sb ← s.screenBuffer.modify (mapPanelHeight + y) x
      (fun c => { c with AsciiChar := 36 })
    let sb ← sb.modify (mapPanelHeight + y) x
      (fun c => { c with Attributes := charToWORD (intToChar (index % 256)) })
    pure { s with screenBuffer := sb }
  else pure s

/-- Source `InitPalette`: the brush colour becomes the default, the first 256
palette cells show the 256 glyphs, the next 256 show `'$'` (code 36) in the
256 colours. -/
def InitPalette (s : State) : Except Fault State :=
  let s := { s with selection := { s.selection with Attributes := defaultPaletteAttributes } }
  forLoop palettePanelHeight (fun y s =>
    forLoop palettePanelWidth (fun x s => initPaletteCell y x s) s) s

/-- Source `SetPaletteAttributes`: the attributes of the palette cells
`0..255` become `attributes`. -/
def SetPaletteAttributes (attributes : Nat) (s : State) : Except Fault State :=
  forLoop 256 (fun i s => do
    let sb ← s.screenBuffer.modify (mapPanelHeight + i / palettePanelWidth)
      (i % palettePanelWidth) (fun c => { c with Attributes := attributes })
    pure { s with screenBuffer := sb }) s

/-! ## Map file -/

/-- Body of the inner loop of `Load` for the cell `(x, y)`, for a map of `H`
rows and `W` columns and record stride `SW`. -/
def loadCell {H W : Nat} (SW : Nat) (currentMapData : List Nat) (y x : Nat)
    (g : Array2D CHAR_INFO H W × Array2D Bool H W) :
    Except Fault (Array2D CHAR_INFO H W × Array2D Bool H W) := do
  let c0 ← bufRead currentMapData ((x + y * SW) * 3)
  let mb ← g.1.modify y x (fun c => { c with AsciiChar := c0 })
  let c1 ← bufRead currentMapData ((x + y * SW) * 3 + 1)
  let mb ← mb.modify y x (fun c => { c with Attributes := charToWORD c1 })
  let c2 ← bufRead currentMapData ((x + y * SW) * 3 + 2)
  let wg ← g.2.write y x (if c2 = 0 then false else true)
  pure (mb, wg)

/-- The two loops of `Load` over a buffer holding the bytes of the file. -/
def loadCells {H W : Nat} (SW : Nat) (currentMapData : List Nat)
    (g : Array2D CHAR_INFO H W × Array2D Bool H W) :
    Except Fault (Array2D CHAR_INFO H W × Array2D Bool H W) :=
  forLoop H (fun y g => forLoop W (fun x g => loadCell SW currentMapData y x g) g) g

/-- Source `Load`: the whole file is read into a buffer of exactly its length
and the map and the walkability grid are decoded from the buffer. -/
def Load (s : State) : Except Fault State :=
  match s.mapFile with
  | none => .error .badArrayLength
  | some currentMapData => do
    let g ← loadCells screenWidth currentMapData (s.mapBuffer, s.walkabilityGrid)
    pure { s with mapBuffer := g.1, walkabilityGrid := g.2 }

/-- Body of the inner loop of `Save` for the cell `(x, y)`. -/
def saveCell (s : State) (y x : Nat) (buffer : List Nat) : Except Fault (List Nat) := do
  let c ← s.mapBuffer.read y x
  let buffer ← bufWrite buffer ((x + y * mapPanelWidth) * 3) c.AsciiChar
  let c ← s.mapBuffer.read y x
  let buffer ← bufWrite buffer ((x + y * mapPanelWidth) * 3 + 1) (intToChar (c.Attributes % 256))
  let w ← s.walkabilityGrid.read y x
  bufWrite buffer ((x + y * mapPanelWidth) * 3 + 2) (intToChar (if w then 1 else 0))

/-- The two loops of `Save`, filling the local array `buffer`. -/
def saveCells (s : State) (buffer : List Nat) : Except Fault (List Nat) :=
  forLoop mapPanelHeight (fun y b => forLoop mapPanelWidth (fun x b => saveCell s y x b) b)
    buffer

/-- Source `Save`: the local array of `25 * 80 * 3` chars is filled and written
to the file as a whole, which is taken to be writable.  The array is not
initialised in the source; it starts as zeros here, and `saveCells` assigns every
element before the write. -/
def Save (s : State) : Except Fault State := do
  let buffer ← saveCells s (List.replicate (mapPanelHeight * mapPanelWidth * 3) 0)
  pure { s with mapFile := some (buffer.take (mapPanelHeight * mapPanelWidth * 3)) }

/-! ## Input -/

/-- Source `selectFromPalette`. -/
def selectFromPalette (s : State) : Except Fault State :=
  let s := { s with hasSelection := true }
  if (s.mouseY = 28 ∧ s.mouseX ≥ 16) ∨ s.mouseY > 28 then do
    let c ← s.screenBuffer.readAt s.mouseY s.mouseX
    let s := { s with selection := { s.selection with Attributes := c.Attributes } }
    SetPaletteAttributes s.selection.Attributes s
  else do
    let c ← s.screenBuffer.readAt s.mouseY s.mouseX
    pure { s with selection := { s.selection with AsciiChar := c.AsciiChar } }

/-- Source `HandleInputTileMode`. -/
def HandleInputTileMode (inputRecord : INPUT_RECORD) (s : State) : Except Fault State :=
  match inputRecord with
  | .KEY_EVENT bKeyDown wVirtualKeyCode =>
    if bKeyDown then
      if wVirtualKeyCode = VK_TAB then pure { s with editorMode := .walkability }
      else if wVirtualKeyCode = VK_S then Save s
      else pure s
    else pure s
  | .MOUSE_EVENT _ dwButtonState =>
    if dwButtonState = FROM_LEFT_1ST_BUTTON_PRESSED then
      if s.mouseY ≥ mapPanelHeight then selectFromPalette s
      else if s.hasSelection then do
        let mb ← s.mapBuffer.writeAt s.mouseY s.mouseX s.selection
        pure { s with mapBuffer := mb }
      else pure s
    else if dwButtonState = RIGHTMOST_BUTTON_PRESSED then
      SetPaletteAttributes defaultPaletteAttributes { s with hasSelection := false }
    else pure s
  | .other => pure s

/-- Source `HandleInputWalkabilityMode`. -/
def HandleInputWalkabilityMode (inputRecord : INPUT_RECORD) (s : State) :
    Except Fault State :=
  match inputRecord with
  | .KEY_EVENT bKeyDown wVirtualKeyCode =>
    if bKeyDown then
      if wVirtualKeyCode = VK_TAB then pure { s with editorMode := .tiles }
      else if wVirtualKeyCode = VK_S then Save s
      else pure s
    else pure s
  | .MOUSE_EVENT _ dwButtonState =>
    if s.mouseY < mapPanelHeight then
      if dwButtonState = FROM_LEFT_1ST_BUTTON_PRESSED then do
        let wg ← s.walkabilityGrid.writeAt s.mouseY s.mouseX false
        pure { s with walkabilityGrid := wg }
      else if dwButtonState = RIGHTMOST_BUTTON_PRESSED then do
        let wg ← s.walkabilityGrid.writeAt s.mouseY s.mouseX true
        pure { s with walkabilityGrid := wg }
      else pure s
    else pure s
  | .other => pure s

/-- Source `HandleInput`; `pending` is the next record of the console input
queue, `none` when the queue is empty. -/
def HandleInput (pending : Option INPUT_RECORD) (s : State) : Except Fault State :=
  match pending with
  | none => pure s
  | some inputRecord =>
    let s :=
      match inputRecord with
      | .MOUSE_EVENT mousePosition _ => { s with mouseX := mousePosition.X, mouseY := mousePosition.Y }
      | _ => s
    match s.editorMode with
    | .tiles => HandleInputTileMode inputRecord s
    | .walkability => HandleInputWalkabilityMode inputRecord s

/-! ## Rendering -/

/-- Source `DrawTileMode`. -/
def DrawTileMode (s : State) : Except Fault State := do
  let s ← forLoop mapPanelHeight (fun y s =>
    forLoop mapPanelWidth (fun x s => do
      let c ← s.mapBuffer.read y x
      let sb ← s.screenBuffer.write y x c
      pure { s with screenBuffer := sb }) s) s
  if s.hasSelection ∧ s.mouseY < mapPanelHeight then do
    let sb ← s.screenBuffer.writeAt s.mouseY s.mouseX s.selection
    pure { s with screenBuffer := sb }
  else pure s

/-- Source `DrawWalkabilityMode`. -/
def DrawWalkabilityMode (s : State) : Except Fault State :=
  forLoop mapPanelHeight (fun y s =>
    forLoop mapPanelWidth (fun x s => do
      let c ← s.mapBuffer.read y x
      let sb ← s.screenBuffer.modify y x (fun d => { d with AsciiChar := c.AsciiChar })
      let w ← s.walkabilityGrid.read y x
      let sb ← sb.modify y x (fun d =>
        { d with Attributes := BACKGROUND_INTENSITY ||| (if w then BACKGROUND_GREEN else BACKGROUND_RED) })
      pure { s with screenBuffer := sb }) s) s

/-- Source `Draw`. -/
def Draw (s : State) : Except Fault State :=
  match s.editorMode with
  | .tiles => DrawTileMode s
  | .walkability => DrawWalkabilityMode s

/-! ## Main loop -/

/-- The start of `main`, up to the loop. -/
def startup (file : Option (List Nat)) : Except Fault State :=
  InitWalkabilityGrid (initialState file) >>= InitPalette >>= Load

/-- One turn of the loop of `main`: `HandleInput(); Draw();`. -/
def frame (s : State) (pending : Option INPUT_RECORD) : Except Fault State :=
  HandleInput pending s >>= Draw

/-- The loop of `main` run over the successive heads of the input queue. -/
def run (s : State) (queue : List (Option INPUT_RECORD)) : Except Fault State :=
  queue.foldlM frame s


/-! ## Predicates of the statements -/

/-- Record of the cell `(x, y)` in a buffer. -/
def recordOK (s : State) (b : List Nat) (y x : Nat) : Prop :=
  b[(x + y * 80) * 3]? = some (s.mapBuffer.cell y x).AsciiChar ∧
  b[(x + y * 80) * 3 + 1]? = some ((s.mapBuffer.cell y x).Attributes % 256) ∧
  b[(x + y * 80) * 3 + 2]? = some (if s.walkabilityGrid.cell y x then 1 else 0)

instance (s : State) (b : List Nat) (y x : Nat) : Decidable (recordOK s b y x) := by
  unfold recordOK
  infer_instance

/-- Cell `(x, y)` of the grids `g` is what the record of `(x, y)` in `data` encodes. -/
def decodedOK (data : List Nat)
    (g : Array2D CHAR_INFO mapPanelHeight mapPanelWidth × Array2D Bool mapPanelHeight mapPanelWidth)
    (y x : Nat) : Prop :=
  g.1.cell y x = ⟨data.getD ((x + y * 80) * 3) 0, charToWORD (data.getD ((x + y * 80) * 3 + 1) 0)⟩ ∧
  g.2.cell y x = (if data.getD ((x + y * 80) * 3 + 2) 0 = 0 then false else true)

instance (data : List Nat)
    (g : Array2D CHAR_INFO mapPanelHeight mapPanelWidth × Array2D Bool mapPanelHeight mapPanelWidth)
    (y x : Nat) : Decidable (decodedOK data g y x) := by
  unfold decodedOK
  infer_instance

/-- The stored cursor lies on the screen of 80 columns and 32 rows. -/
def cursorInScreen (s : State) : Prop :=
  0 ≤ s.mouseX ∧ s.mouseX < (screenWidth : Nat) ∧ 0 ≤ s.mouseY ∧ s.mouseY < (screenHeight : Nat)

instance (s : State) : Decidable (cursorInScreen s) := by
  unfold cursorInScreen
  infer_instance

/-- The head of the input queue carries no position outside the screen: it is no
mouse event, or a mouse event whose position lies on the screen. -/
def inScreen : Option INPUT_RECORD → Prop
  | some (.MOUSE_EVENT p _) =>
    0 ≤ p.X ∧ p.X < (screenWidth : Nat) ∧ 0 ≤ p.Y ∧ p.Y < (screenHeight : Nat)
  | _ => True

instance (pending : Option INPUT_RECORD) : Decidable (inScreen pending) := by
  unfold inScreen
  split <;> infer_instance

/-- The head of the input queue is a key-down record of the Tab key. -/
def isModeSwitch : Option INPUT_RECORD → Bool
  | some (.KEY_EVENT true wVirtualKeyCode) => wVirtualKeyCode == VK_TAB
  | _ => false

/-- The other one of the two modes. -/
def EditorMode.flip : EditorMode → EditorMode
  | .tiles => .walkability
  | .walkability => .tiles

/-- The head of the input queue is a mouse record whose button state is exactly the
left button. -/
def isLeftPress : Option INPUT_RECORD → Bool
  | some (.MOUSE_EVENT _ dwButtonState) => dwButtonState == FROM_LEFT_1ST_BUTTON_PRESSED
  | _ => false

/-- An attributes word that is the sign extension of its own low byte: a value
`Save` followed by `Load` gives back. -/
def wordOK (a : Nat) : Prop := a < 128 ∨ (65408 ≤ a ∧ a < 65536)

instance (a : Nat) : Decidable (wordOK a) := by
  unfold wordOK
  infer_instance

/-- What `HandleInput` can have done to the state `s` when it returned `s'`: which of
the map, the walkable flags, the brush and the screen it left alone, and where a
changed value came from. -/
def InputEffect (pending : Option INPUT_RECORD) (s s' : State) : Prop :=
  (s.editorMode = .tiles → s'.walkabilityGrid = s.walkabilityGrid) ∧
  (s.editorMode = .walkability → s'.mapBuffer = s.mapBuffer) ∧
  (isLeftPress pending = false → s'.mapBuffer = s.mapBuffer) ∧
  (∀ r c, s'.mapBuffer.cell r c = s.mapBuffer.cell r c ∨
    s'.mapBuffer.cell r c = s.selection) ∧
  (s'.selection = s.selection ∨
    ∃ r c, 25 ≤ r ∧ r < 32 ∧ c < 80 ∧
      (s'.selection = ⟨(s.screenBuffer.cell r c).AsciiChar, s.selection.Attributes⟩ ∨
        s'.selection = ⟨s.selection.AsciiChar, (s.screenBuffer.cell r c).Attributes⟩)) ∧
  (∀ r c, (s'.screenBuffer.cell r c).AsciiChar = (s.screenBuffer.cell r c).AsciiChar ∧
    ((s'.screenBuffer.cell r c).Attributes = (s.screenBuffer.cell r c).Attributes ∨
      (25 ≤ r ∧ c < 80 ∧ c + 80 * (r - 25) < 256 ∧
        ((s'.screenBuffer.cell r c).Attributes = s'.selection.Attributes ∨
          (s'.screenBuffer.cell r c).Attributes = defaultPaletteAttributes))))

/-- What `InitPalette` makes of the palette cell of index `index` that held `old`. -/
def paletteCell (old : CHAR_INFO) (index : Nat) : CHAR_INFO :=
  if index < 256 then ⟨intToChar index, defaultPaletteAttributes⟩
  else if index < 512 then ⟨36, charToWORD (intToChar (index % 256))⟩
  else old

/-- The palette rows of the screen still show what `InitPalette` put there on the
zeroed screen, but for the attributes of the cells of index below 256. -/
def paletteStable (s : State) : Prop :=
  ∀ r c, 25 ≤ r → r < 32 → c < 80 →
    (s.screenBuffer.cell r c).AsciiChar = (paletteCell ⟨0, 0⟩ (c + 80 * (r - 25))).AsciiChar ∧
    (256 ≤ c + 80 * (r - 25) →
      (s.screenBuffer.cell r c).Attributes =
        (paletteCell ⟨0, 0⟩ (c + 80 * (r - 25))).Attributes)

/-- Every attributes word a map cell can get is the sign extension of its low byte:
those of the map cells, of the brush and of the palette rows of the screen. -/
def attributesOK (s : State) : Prop :=
  (∀ r c, r < 25 → c < 80 → wordOK (s.mapBuffer.cell r c).Attributes) ∧
  wordOK s.selection.Attributes ∧
  ∀ r c, 25 ≤ r → r < 32 → c < 80 → wordOK (s.screenBuffer.cell r c).Attributes

/-- A queue without a left-button press: the mouse moves to the map cell `(3, 4)`,
the right button is pressed at `(5, 5)`, Tab goes down, a poll finds nothing. -/
def hoverQueue : List (Option INPUT_RECORD) :=
  [some (.MOUSE_EVENT ⟨3, 4⟩ 0), some (.MOUSE_EVENT ⟨5, 5⟩ RIGHTMOST_BUTTON_PRESSED),
    some (.KEY_EVENT true VK_TAB), none]

/-- The state `s0` is one the loop of `main` can start in on the disk content
`file`: the zeroed globals after `InitWalkabilityGrid` and `InitPalette`, or after
these and `Load`, as in `main`. -/
def started (file : Option (List Nat)) (s0 : State) : Prop :=
  (InitWalkabilityGrid (initialState file) >>= InitPalette) = .ok s0 ∨ startup file = .ok s0

/-- A queue that picks the colour swatch of index 384 at `(64, 29)` and presses the
left button on the map cell `(3, 4)`. -/
def paintQueue : List (Option INPUT_RECORD) :=
  [some (.MOUSE_EVENT ⟨64, 29⟩ FROM_LEFT_1ST_BUTTON_PRESSED),
    some (.MOUSE_EVENT ⟨3, 4⟩ FROM_LEFT_1ST_BUTTON_PRESSED)]

/-! ## Sample inputs -/

/-- A map whose every cell is `'A'` (65) with the attributes word `0x0100`. -/
def gridAttr256 : State :=
  { initialState none with mapBuffer := Array2D.fill ⟨65, 256⟩ }

/-- A map file of 6000 bytes whose first record is glyph 65, attributes byte 200,
walkable. -/
def fileAttr200 : List Nat := 65 :: 200 :: 1 :: List.replicate 5997 0

/-- A map file one byte short: 5999 zero bytes. -/
def fileShort : List Nat := List.replicate 5999 0

/-- The 2×2 map file of the scaled-down scenario. -/
def file2x2 : List Nat := [65, 1, 1, 66, 2, 0, 67, 3, 1, 68, 4, 0]

/-- The blank editor in walkability mode. -/
def walkabilityState : State :=
  { initialState none with editorMode := .walkability }

/-- The blank editor with a screen whose every cell is `'$'` with attributes 7. -/
def dollarState : State :=
  { initialState none with screenBuffer := Array2D.fill ⟨36, 7⟩ }

/-- The blank editor holding the brush `'A'` with attributes 7. -/
def brushState : State :=
  { initialState none with hasSelection := true, selection := ⟨65, 7⟩ }

/-- A sample input queue: Tab down, an empty poll, Tab down, a left press on the
map cell `(3, 4)`. -/
def sampleQueue : List (Option INPUT_RECORD) :=
  [some (.KEY_EVENT true VK_TAB), none, some (.KEY_EVENT true VK_TAB),
    some (.MOUSE_EVENT ⟨3, 4⟩ FROM_LEFT_1ST_BUTTON_PRESSED)]

/-! # Theorems -/

/-! ## Loops and arrays -/

theorem forLoop_inv {σ : Type} (P : Nat → σ → Prop) (n : Nat)
    (body : Nat → σ → Except Fault σ) (s : σ) (h0 : P 0 s)
    (hstep : ∀ i acc, i < n → P i acc → ∃ acc', body i acc = .ok acc' ∧ P (i + 1) acc') :
    ∃ s', forLoop n body s = .ok s' ∧ P n s' := by
  induction n with
  | zero => exact ⟨s, rfl, h0⟩
  | succ k ih =>
    obtain ⟨t, ht, hP⟩ := ih (fun i acc hi h => hstep i acc (Nat.lt_succ_of_lt hi) h)
    obtain ⟨u, hu, hQ⟩ := hstep k t (Nat.lt_succ_self k) hP
    refine ⟨u, ?_, hQ⟩
    show (forLoop k body s >>= body k) = .ok u
    rw [ht]
    exact hu

theorem getD_setPad {β : Type} (d : β) (l : List β) (i : Nat) (v : β) (j : Nat) :
    (setPad d l i v).getD j d = if j = i then v else l.getD j d := by
  induction l generalizing i j with
  | nil =>
    induction i generalizing j with
    | zero => cases j <;> simp [setPad]
    | succ k ih => cases j <;> simp_all [setPad]
  | cons h t ih =>
    cases i with
    | zero => cases j <;> simp [setPad]
    | succ k => cases j <;> simp_all [setPad]

theorem Array2D.read_ok {α : Type} [Inhabited α] {rows cols : Nat} (a : Array2D α rows cols)
    (y x : Nat) (hy : y < rows) (hx : x < cols) : a.read y x = .ok (a.cell y x) := by
  simp [Array2D.read, hy, hx]

theorem Array2D.modify_ok {α : Type} [Inhabited α] {rows cols : Nat} (a : Array2D α rows cols)
    (y x : Nat) (f : α → α) (hy : y < rows) (hx : x < cols) :
    ∃ a', a.modify y x f = .ok a' ∧
      ∀ r c, a'.cell r c = if r = y ∧ c = x then f (a.cell r c) else a.cell r c := by
  refine ⟨_, by simp only [Array2D.modify, hy, hx, and_self, if_true]; rfl, ?_⟩
  intro r c
  simp only [Array2D.cell, getD_setPad]
  by_cases hr : r = y
  · subst hr
    simp only [if_true, getD_setPad, true_and]
    by_cases hc : c = x
    · subst hc; simp
    · simp [hc]
  · simp [hr]

theorem Array2D.write_ok {α : Type} [Inhabited α] {rows cols : Nat} (a : Array2D α rows cols)
    (y x : Nat) (v : α) (hy : y < rows) (hx : x < cols) :
    ∃ a', a.write y x v = .ok a' ∧
      ∀ r c, a'.cell r c = if r = y ∧ c = x then v else a.cell r c :=
  Array2D.modify_ok a y x (fun _ => v) hy hx

theorem Array2D.cell_fill {α : Type} [Inhabited α] {rows cols : Nat} (v : α) (y x : Nat)
    (hy : y < rows) (hx : x < cols) : (Array2D.fill v : Array2D α rows cols).cell y x = v := by
  simp [Array2D.cell, Array2D.fill, List.getD_eq_getElem?_getD, List.getElem?_replicate, hy, hx]

theorem bufWrite_ok (buf : List Nat) (i v : Nat) (h : i < buf.length) :
    bufWrite buf i v = .ok (buf.set i v) := by
  simp [bufWrite, h]

theorem bufRead_ok (buf : List Nat) (i : Nat) (h : i < buf.length) :
    bufRead buf i = .ok (buf.getD i 0) := by
  simp [bufRead, List.getElem?_eq_getElem h, List.getD_eq_getElem?_getD]

theorem saveCell_spec (s : State) (y x : Nat) (b : List Nat) (hy : y < 25) (hx : x < 80)
    (hb : b.length = 6000) :
    ∃ b', saveCell s y x b = .ok b' ∧ b'.length = 6000 ∧ recordOK s b' y x ∧
      ∀ y' x', x' < 80 → (y', x') ≠ (y, x) → recordOK s b y' x' → recordOK s b' y' x' := by
  have h0 : (x + y * 80) * 3 + 2 < 6000 := by omega
  refine ⟨((b.set ((x + y * 80) * 3) (s.mapBuffer.cell y x).AsciiChar).set
      ((x + y * 80) * 3 + 1) (intToChar ((s.mapBuffer.cell y x).Attributes % 256))).set
      ((x + y * 80) * 3 + 2) (intToChar (if s.walkabilityGrid.cell y x then 1 else 0)), ?_, ?_, ?_, ?_⟩
  · simp only [saveCell, mapPanelWidth]
    rw [Array2D.read_ok _ _ _ hy hx, Array2D.read_ok _ _ _ hy hx]
    simp only [bind, Except.bind]
    rw [bufWrite_ok _ _ _ (by omega)]
    simp only []
    rw [bufWrite_ok _ _ _ (by simp; omega)]
    simp only []
    rw [bufWrite_ok _ _ _ (by simp; omega)]
  · simp [hb]
  · simp only [recordOK, intToChar]
    refine ⟨?_, ?_, ?_⟩
    · rw [List.getElem?_set_ne (by omega), List.getElem?_set_ne (by omega),
        List.getElem?_set_self (by omega)]
    · rw [List.getElem?_set_ne (by omega), List.getElem?_set_self (by simp; omega)]
      simp
    · rw [List.getElem?_set_self (by simp; omega)]
      cases s.walkabilityGrid.cell y x <;> simp
  · intro y' x' hx' hne h
    have hne' : x' + y' * 80 ≠ x + y * 80 := by
      intro e
      apply hne
      have : y' = y := by omega
      subst this
      have : x' = x := by omega
      subst this
      rfl
    simp only [recordOK] at h ⊢
    obtain ⟨h1, h2, h3⟩ := h
    refine ⟨?_, ?_, ?_⟩
    · rw [List.getElem?_set_ne (by omega), List.getElem?_set_ne (by omega),
        List.getElem?_set_ne (by omega)]; exact h1
    · rw [List.getElem?_set_ne (by omega), List.getElem?_set_ne (by omega),
        List.getElem?_set_ne (by omega)]; exact h2
    · rw [List.getElem?_set_ne (by omega), List.getElem?_set_ne (by omega),
        List.getElem?_set_ne (by omega)]; exact h3

theorem saveCells_spec (s : State) (b : List Nat) (hb : b.length = 6000) :
    ∃ b', saveCells s b = .ok b' ∧ b'.length = 6000 ∧
      ∀ y x, y < 25 → x < 80 → recordOK s b' y x := by
  obtain ⟨b', h, hl, hr⟩ := forLoop_inv
    (fun n (b : List Nat) => b.length = 6000 ∧ ∀ y x, y < n → x < 80 → recordOK s b y x)
    mapPanelHeight
    (fun y b => forLoop mapPanelWidth (fun x b => saveCell s y x b) b) b
    ⟨hb, fun y x hy _ => absurd hy (Nat.not_lt_zero y)⟩
    (by
      intro y acc hy ⟨hl, hacc⟩
      obtain ⟨b', h, hl', hrows, hrow⟩ := forLoop_inv
        (fun n (b : List Nat) => b.length = 6000 ∧
          (∀ y' x, y' < y → x < 80 → recordOK s b y' x) ∧ ∀ x, x < n → recordOK s b y x)
        mapPanelWidth (fun x b => saveCell s y x b) acc
        ⟨hl, hacc, fun x hx => absurd hx (Nat.not_lt_zero x)⟩
        (by
          intro x acc' hx ⟨hl', hrows, hrow⟩
          have hx : x < 80 := hx
          obtain ⟨b'', h, hl'', hnew, hold⟩ := saveCell_spec s y x acc' hy hx hl'
          refine ⟨b'', h, hl'', ?_, ?_⟩
          · intro y' x' hy' hx'
            exact hold y' x' hx' (by simp; omega) (hrows y' x' hy' hx')
          · intro x' hx'
            rcases Nat.lt_succ_iff_lt_or_eq.mp hx' with hlt | heq
            · exact hold y x' (by omega) (by simp; omega) (hrow x' hlt)
            · subst heq; exact hnew)
      refine ⟨b', h, hl', ?_⟩
      intro y' x hy' hx
      rcases Nat.lt_succ_iff_lt_or_eq.mp hy' with hlt | heq
      · exact hrows y' x hlt hx
      · subst heq; exact hrow x hx)
  exact ⟨b', h, hl, hr⟩


theorem Save_spec (s : State) :
    ∃ b, Save s = .ok { s with mapFile := some b } ∧ b.length = 6000 ∧
      ∀ y x, y < 25 → x < 80 → recordOK s b y x := by
  obtain ⟨b, h, hl, hr⟩ := saveCells_spec s (List.replicate (mapPanelHeight * mapPanelWidth * 3) 0)
    (List.length_replicate _ _)
  refine ⟨b, ?_, hl, hr⟩
  have ht : b.take (mapPanelHeight * mapPanelWidth * 3) = b :=
    List.take_of_length_le (le_of_eq hl)
  unfold Save
  rw [h]
  exact congrArg (fun l => Except.ok { s with mapFile := some l }) ht

theorem loadCell_spec (data : List Nat) (hd : 6000 ≤ data.length) (y x : Nat) (hy : y < 25)
    (hx : x < 80)
    (g : Array2D CHAR_INFO mapPanelHeight mapPanelWidth × Array2D Bool mapPanelHeight mapPanelWidth) :
    ∃ g', loadCell 80 data y x g = .ok g' ∧ decodedOK data g' y x ∧
      ∀ y' x', (y', x') ≠ (y, x) → g'.1.cell y' x' = g.1.cell y' x' ∧
        g'.2.cell y' x' = g.2.cell y' x' := by
  obtain ⟨m1, h1, c1⟩ := Array2D.modify_ok g.1 y x
    (fun c => { c with AsciiChar := data.getD ((x + y * 80) * 3) 0 }) hy hx
  obtain ⟨m2, h2, c2⟩ := Array2D.modify_ok m1 y x
    (fun c => { c with Attributes := charToWORD (data.getD ((x + y * 80) * 3 + 1) 0) }) hy hx
  obtain ⟨w1, h3, c3⟩ := Array2D.write_ok g.2 y x
    (if data.getD ((x + y * 80) * 3 + 2) 0 = 0 then false else true) hy hx
  refine ⟨(m2, w1), ?_, ?_, ?_⟩
  · simp only [loadCell]
    rw [bufRead_ok _ _ (by omega), bufRead_ok _ _ (by omega), bufRead_ok _ _ (by omega)]
    simp only [bind, Except.bind, h1, h2, h3]
    rfl
  · simp [decodedOK, c1, c2, c3]
  · intro y' x' hne
    have : ¬ (y' = y ∧ x' = x) := by
      rintro ⟨rfl, rfl⟩; exact hne rfl
    simp [c1, c2, c3, this]

theorem loadCells_spec (data : List Nat) (hd : 6000 ≤ data.length)
    (g : Array2D CHAR_INFO mapPanelHeight mapPanelWidth × Array2D Bool mapPanelHeight mapPanelWidth) :
    ∃ g', loadCells 80 data g = .ok g' ∧ ∀ y x, y < 25 → x < 80 → decodedOK data g' y x := by
  apply forLoop_inv (fun n g' => ∀ y x, y < n → x < 80 → decodedOK data g' y x)
  · intro y x hy; exact absurd hy (Nat.not_lt_zero y)
  · intro y acc hy hacc
    obtain ⟨g', h, hrows, hrow⟩ := forLoop_inv
      (fun n g' => (∀ y' x, y' < y → x < 80 → decodedOK data g' y' x) ∧
        ∀ x, x < n → decodedOK data g' y x)
      mapPanelWidth (fun x g => loadCell 80 data y x g) acc
      ⟨hacc, fun x hx => absurd hx (Nat.not_lt_zero x)⟩
      (by
        intro x acc' hx ⟨hrows, hrow⟩
        obtain ⟨g'', h, hnew, hold⟩ := loadCell_spec data hd y x hy hx acc'
        refine ⟨g'', h, ?_, ?_⟩
        · intro y' x' hy' hx'
          have := hold y' x' (by simp; omega)
          have h0 := hrows y' x' hy' hx'
          simp only [decodedOK] at h0 ⊢
          rw [this.1, this.2]; exact h0
        · intro x' hx'
          rcases Nat.lt_succ_iff_lt_or_eq.mp hx' with hlt | heq
          · have := hold y x' (by simp; omega)
            have h0 := hrow x' hlt
            simp only [decodedOK] at h0 ⊢
            rw [this.1, this.2]; exact h0
          · subst heq; exact hnew)
    refine ⟨g', h, ?_⟩
    intro y' x hy' hx
    rcases Nat.lt_succ_iff_lt_or_eq.mp hy' with hlt | heq
    · exact hrows y' x hlt hx
    · subst heq; exact hrow x hx

theorem screenWidth_eq : screenWidth = 80 := by decide

theorem Load_spec (s : State) (data : List Nat) (hf : s.mapFile = some data)
    (hd : 6000 ≤ data.length) :
    ∃ g, Load s = .ok { s with mapBuffer := g.1, walkabilityGrid := g.2 } ∧
      ∀ y x, y < 25 → x < 80 → decodedOK data g y x := by
  obtain ⟨g, h, hg⟩ := loadCells_spec data hd (s.mapBuffer, s.walkabilityGrid)
  refine ⟨g, ?_, hg⟩
  simp only [Load, hf, screenWidth_eq, h, bind, Except.bind, pure, Except.pure]


theorem forLoop_error_eq {σ : Type} (n : Nat) (body : Nat → σ → Except Fault σ) (s : σ)
    (e : Fault) (hall : ∀ j acc e', body j acc = .error e' → e' = e) (e' : Fault)
    (h : forLoop n body s = .error e') : e' = e := by
  induction n with
  | zero => cases h
  | succ k ih =>
    change (forLoop k body s >>= body k) = .error e' at h
    cases hk : forLoop k body s with
    | error e'' =>
      rw [hk] at h
      cases h
      exact ih hk
    | ok t =>
      rw [hk] at h
      exact hall k t e' h

theorem forLoop_error {σ : Type} (n : Nat) (body : Nat → σ → Except Fault σ) (s : σ)
    (e : Fault) (i : Nat) (hi : i < n) (hfail : ∀ acc, body i acc = .error e)
    (hall : ∀ j acc e', body j acc = .error e' → e' = e) :
    forLoop n body s = .error e := by
  induction n with
  | zero => exact absurd hi (Nat.not_lt_zero i)
  | succ k ih =>
    change (forLoop k body s >>= body k) = .error e
    cases hk : forLoop k body s with
    | error e'' =>
      rw [forLoop_error_eq k body s e hall e'' hk]
      rfl
    | ok t =>
      rcases Nat.lt_succ_iff_lt_or_eq.mp hi with hlt | heq
      · rw [ih hlt] at hk
        cases hk
      · subst heq
        exact hfail t

theorem Array2D.modify_error {α : Type} [Inhabited α] {rows cols : Nat}
    (a : Array2D α rows cols) (y x : Nat) (f : α → α) (e : Fault)
    (h : a.modify y x f = .error e) : e = .outOfBounds := by
  unfold Array2D.modify at h
  split at h
  · cases h
  · cases h; rfl

theorem bufRead_error (buf : List Nat) (i : Nat) (e : Fault) (h : bufRead buf i = .error e) :
    e = .outOfBounds := by
  unfold bufRead at h
  split at h
  · cases h
  · cases h; rfl

theorem bufRead_past (buf : List Nat) (i : Nat) (h : buf.length ≤ i) :
    bufRead buf i = .error .outOfBounds := by
  simp [bufRead, List.getElem?_eq_none h]

theorem loadCell_error {H W : Nat} (SW : Nat) (data : List Nat) (y x : Nat)
    (g : Array2D CHAR_INFO H W × Array2D Bool H W) (e : Fault)
    (h : loadCell SW data y x g = .error e) : e = .outOfBounds := by
  simp only [loadCell, bind, Except.bind] at h
  repeat' split at h
  all_goals first
    | (cases h; done)
    | (rename_i h'; first
        | exact (bufRead_error _ _ _ h') ▸ (by cases h; rfl)
        | exact (Array2D.modify_error _ _ _ _ _ h') ▸ (by cases h; rfl))


theorem loadCell_past {H W : Nat} (SW : Nat) (data : List Nat) (y x : Nat)
    (g : Array2D CHAR_INFO H W × Array2D Bool H W)
    (h : data.length ≤ (x + y * SW) * 3 + 2) :
    loadCell SW data y x g = .error .outOfBounds := by
  cases hr : loadCell SW data y x g with
  | error e => rw [loadCell_error SW data y x g e hr]
  | ok g' =>
    exfalso
    simp only [loadCell, bind, Except.bind, bufRead_past data _ h] at hr
    repeat' split at hr
    all_goals cases hr

theorem Load_short (s : State) (data : List Nat) (hf : s.mapFile = some data)
    (hd : data.length < 6000) : Load s = .error .outOfBounds := by
  have hrow : ∀ (y : Nat)
      (g : Array2D CHAR_INFO mapPanelHeight mapPanelWidth × Array2D Bool mapPanelHeight mapPanelWidth)
      (e' : Fault), forLoop mapPanelWidth (fun x g => loadCell 80 data y x g) g = .error e' →
      e' = .outOfBounds := fun y g e' h =>
    forLoop_error_eq _ _ g .outOfBounds (fun j acc e'' h' => loadCell_error 80 data y j acc e'' h')
      e' h
  have h : loadCells 80 data (s.mapBuffer, s.walkabilityGrid) = .error .outOfBounds := by
    apply forLoop_error mapPanelHeight _ _ .outOfBounds (data.length / 3 / 80)
      (by show data.length / 3 / 80 < 25; omega)
    · intro acc
      apply forLoop_error mapPanelWidth _ _ .outOfBounds (data.length / 3 % 80)
        (by show data.length / 3 % 80 < 80; omega)
      · intro acc'
        exact loadCell_past 80 data _ _ acc' (by omega)
      · intro j acc' e' h'
        exact loadCell_error 80 data _ j acc' e' h'
    · exact fun j acc e' h' => hrow j acc e' h'
  simp only [Load, hf, screenWidth_eq, h, bind, Except.bind]

/-! ## The map file -/

theorem charToWORD_fix (a : Nat) :
    charToWORD (a % 256) = a ↔ a < 128 ∨ (65408 ≤ a ∧ a < 65536) := by
  unfold charToWORD
  split <;> omega

theorem roundTrip_cell (s t : State) (x y : Nat) (hx : x < 80) (hy : y < 25) :
    ∃ bytes t', Save s = .ok { s with mapFile := some bytes } ∧
      Load { t with mapFile := some bytes } = .ok t' ∧
      t'.mapBuffer.cell y x = ⟨(s.mapBuffer.cell y x).AsciiChar,
        charToWORD ((s.mapBuffer.cell y x).Attributes % 256)⟩ ∧
      t'.walkabilityGrid.cell y x = s.walkabilityGrid.cell y x := by
  obtain ⟨bytes, hs, hl, hr⟩ := Save_spec s
  obtain ⟨g, hg, hd⟩ := Load_spec { t with mapFile := some bytes } bytes rfl (by omega)
  refine ⟨bytes, _, hs, hg, ?_, ?_⟩
  · have h1 := (hd y x hy hx).1
    obtain ⟨r1, r2, _⟩ := hr y x hy hx
    show g.1.cell y x = _
    rw [h1, List.getD_eq_getElem?_getD, List.getD_eq_getElem?_getD, r1, r2]
    rfl
  · have h2 := (hd y x hy hx).2
    obtain ⟨_, _, r3⟩ := hr y x hy hx
    show g.2.cell y x = _
    rw [h2, List.getD_eq_getElem?_getD, r3]
    cases s.walkabilityGrid.cell y x <;> simp


/-- C1 (as amended): for every map `s`, every state `t` the file is loaded into and
every cell `(x, y)`, `Save` succeeds, `Load` of the bytes it wrote succeeds, and the
loaded cell has the glyph and the walkable flag of `s`; its attributes equal those
of `s` exactly when that value is the sign extension of its low byte, that is
below 128 or in `65408..65535`. -/
theorem C1_round_trip_cell (s t : State) (x y : Nat) (hx : x < mapPanelWidth)
    (hy : y < mapPanelHeight) :
    ∃ s' t', Save s = .ok s' ∧ Load { t with mapFile := s'.mapFile } = .ok t' ∧
      (t'.mapBuffer.cell y x).AsciiChar = (s.mapBuffer.cell y x).AsciiChar ∧
      t'.walkabilityGrid.cell y x = s.walkabilityGrid.cell y x ∧
      ((t'.mapBuffer.cell y x).Attributes = (s.mapBuffer.cell y x).Attributes ↔
        (s.mapBuffer.cell y x).Attributes < 128 ∨
          (65408 ≤ (s.mapBuffer.cell y x).Attributes ∧
            (s.mapBuffer.cell y x).Attributes < 65536)) := by
  obtain ⟨bytes, t', hs, hl, hc, hw⟩ := roundTrip_cell s t x y hx hy
  refine ⟨_, t', hs, hl, ?_, hw, ?_⟩
  · rw [hc]
  · rw [hc]
    exact charToWORD_fix _

/-- Witness of C1 (as amended) on the blank map, at the cell `(3, 4)`. -/
theorem C1_round_trip_cell_witness :
    (3 < mapPanelWidth ∧ 4 < mapPanelHeight) ∧
    ∃ s' t', Save (initialState none) = .ok s' ∧
      Load { initialState none with mapFile := s'.mapFile } = .ok t' ∧
      (t'.mapBuffer.cell 4 3).AsciiChar = ((initialState none).mapBuffer.cell 4 3).AsciiChar ∧
      t'.walkabilityGrid.cell 4 3 = (initialState none).walkabilityGrid.cell 4 3 ∧
      ((t'.mapBuffer.cell 4 3).Attributes = ((initialState none).mapBuffer.cell 4 3).Attributes ↔
        ((initialState none).mapBuffer.cell 4 3).Attributes < 128 ∨
          (65408 ≤ ((initialState none).mapBuffer.cell 4 3).Attributes ∧
            ((initialState none).mapBuffer.cell 4 3).Attributes < 65536)) :=
  ⟨⟨by decide, by decide⟩,
    C1_round_trip_cell (initialState none) (initialState none) 3 4 (by decide) (by decide)⟩

/-- C1 fails as stated: the cell `(0, 0)` of `gridAttr256` has attributes 256, and
after `Save` and `Load` it has attributes 0. -/
theorem C1_attributes_256_lost :
    (gridAttr256.mapBuffer.cell 0 0).Attributes = 256 ∧
    Except.map (fun t => (t.mapBuffer.cell 0 0).Attributes) (Save gridAttr256 >>= Load)
      = .ok 0 := by
  refine ⟨by decide, ?_⟩
  obtain ⟨bytes, t', hs, hl, hc, _⟩ := roundTrip_cell gridAttr256 gridAttr256 0 0
    (by decide) (by decide)
  rw [hs]
  simp only [bind, Except.bind]
  rw [hl]
  simp only [Except.map]
  rw [hc]
  have h0 : gridAttr256.mapBuffer.cell 0 0 = ⟨65, 256⟩ :=
    Array2D.cell_fill _ 0 0 (by decide) (by decide)
  rw [h0]
  rfl

/-- C2: `Save` succeeds on every state, changes nothing but the file, and the file
it writes has `80 * 25 * 3` bytes, of which byte `3i`, `3i + 1`, `3i + 2` for
`i = x + 80 * y` are the glyph of cell `(x, y)`, its attributes modulo 256, and 1 or
0 as the cell is walkable or not. -/
theorem C2_save_layout (s : State) (x y : Nat) (hx : x < mapPanelWidth)
    (hy : y < mapPanelHeight) :
    ∃ s' bytes, Save s = .ok s' ∧ s'.mapFile = some bytes ∧
      bytes.length = mapPanelWidth * mapPanelHeight * 3 ∧
      bytes[3 * (x + mapPanelWidth * y)]? = some (s.mapBuffer.cell y x).AsciiChar ∧
      bytes[3 * (x + mapPanelWidth * y) + 1]? = some ((s.mapBuffer.cell y x).Attributes % 256) ∧
      bytes[3 * (x + mapPanelWidth * y) + 2]? =
        some (if s.walkabilityGrid.cell y x then 1 else 0) ∧
      s'.mapBuffer = s.mapBuffer ∧ s'.walkabilityGrid = s.walkabilityGrid ∧
      s'.screenBuffer = s.screenBuffer ∧ s'.selection = s.selection ∧
      s'.hasSelection = s.hasSelection ∧ s'.editorMode = s.editorMode ∧
      s'.mouseX = s.mouseX ∧ s'.mouseY = s.mouseY := by
  obtain ⟨bytes, hs, hl, hr⟩ := Save_spec s
  obtain ⟨r1, r2, r3⟩ := hr y x hy hx
  have e : 3 * (x + mapPanelWidth * y) = (x + y * 80) * 3 := by
    show 3 * (x + 80 * y) = (x + y * 80) * 3
    omega
  refine ⟨_, bytes, hs, rfl, hl, ?_, ?_, ?_, rfl, rfl, rfl, rfl, rfl, rfl, rfl, rfl⟩
  · rw [e]; exact r1
  · rw [e]; exact r2
  · rw [e]; exact r3

/-- Witness of C2 on the blank map, at the cell `(3, 4)`. -/
theorem C2_save_layout_witness :
    (3 < mapPanelWidth ∧ 4 < mapPanelHeight) ∧
    ∃ s' bytes, Save (initialState none) = .ok s' ∧ s'.mapFile = some bytes ∧
      bytes.length = mapPanelWidth * mapPanelHeight * 3 ∧
      bytes[3 * (3 + mapPanelWidth * 4)]? =
        some ((initialState none).mapBuffer.cell 4 3).AsciiChar ∧
      bytes[3 * (3 + mapPanelWidth * 4) + 1]? =
        some (((initialState none).mapBuffer.cell 4 3).Attributes % 256) ∧
      bytes[3 * (3 + mapPanelWidth * 4) + 2]? =
        some (if (initialState none).walkabilityGrid.cell 4 3 then 1 else 0) ∧
      s'.mapBuffer = (initialState none).mapBuffer ∧
      s'.walkabilityGrid = (initialState none).walkabilityGrid ∧
      s'.screenBuffer = (initialState none).screenBuffer ∧
      s'.selection = (initialState none).selection ∧
      s'.hasSelection = (initialState none).hasSelection ∧
      s'.editorMode = (initialState none).editorMode ∧
      s'.mouseX = (initialState none).mouseX ∧ s'.mouseY = (initialState none).mouseY :=
  ⟨⟨by decide, by decide⟩, C2_save_layout (initialState none) 3 4 (by decide) (by decide)⟩


/-- C3 (as amended): for every file of at least `80 * 25 * 3` bytes `Load` succeeds
and, for every cell `(x, y)` and `i = x + 80 * y`, sets the glyph to byte `3i`, the
attributes to the sign extension of byte `3i + 1` to 16 bits (the byte itself when
it is below 128, the byte plus `0xFF00` otherwise), and the walkable flag to whether
byte `3i + 2` is not 0; the file cut to its first 6000 bytes gives the same cell.
The 2×2 scenario (map and palette both 2 wide) decodes as the claim lists. -/
theorem C3_load_decoding (s : State) (data : List Nat) (x y : Nat)
    (hf : s.mapFile = some data) (hd : mapPanelWidth * mapPanelHeight * 3 ≤ data.length)
    (hx : x < mapPanelWidth) (hy : y < mapPanelHeight) :
    (∃ s' s'', Load s = .ok s' ∧
      some (s'.mapBuffer.cell y x).AsciiChar = data[3 * (x + mapPanelWidth * y)]? ∧
      some (s'.mapBuffer.cell y x).Attributes =
        (data[3 * (x + mapPanelWidth * y) + 1]?).map charToWORD ∧
      some (s'.walkabilityGrid.cell y x) =
        (data[3 * (x + mapPanelWidth * y) + 2]?).map (fun b => decide (b ≠ 0)) ∧
      Load { s with mapFile := some (data.take (mapPanelWidth * mapPanelHeight * 3)) }
        = .ok s'' ∧
      s''.mapBuffer.cell y x = s'.mapBuffer.cell y x ∧
      s''.walkabilityGrid.cell y x = s'.walkabilityGrid.cell y x) ∧
    Except.map (fun g => [(g.1.cell 0 0, g.2.cell 0 0), (g.1.cell 0 1, g.2.cell 0 1),
        (g.1.cell 1 0, g.2.cell 1 0), (g.1.cell 1 1, g.2.cell 1 1)])
      (loadCells (screenWidthOf 2 2) file2x2
        ((Array2D.fill ⟨0, 0⟩ : Array2D CHAR_INFO 2 2), (Array2D.fill false : Array2D Bool 2 2)))
      = .ok [(⟨65, 1⟩, true), (⟨66, 2⟩, false), (⟨67, 3⟩, true), (⟨68, 4⟩, false)] := by
  have hd' : 6000 ≤ data.length := hd
  have hx' : x < 80 := hx
  have hy' : y < 25 := hy
  have e : 3 * (x + mapPanelWidth * y) = (x + y * 80) * 3 := by
    show 3 * (x + 80 * y) = (x + y * 80) * 3
    omega
  have hk : (mapPanelWidth * mapPanelHeight * 3 : Nat) = 6000 := rfl
  obtain ⟨g, hg, hc⟩ := Load_spec s data hf hd'
  obtain ⟨g2, hg2, hc2⟩ := Load_spec { s with mapFile := some (data.take 6000) } (data.take 6000)
    rfl (by rw [List.length_take]; omega)
  obtain ⟨c1, c2⟩ := hc y x hy' hx'
  obtain ⟨d1, d2⟩ := hc2 y x hy' hx'
  have t0 : ∀ k, k < 6000 → (data.take 6000).getD k 0 = data.getD k 0 := by
    intro k hk
    rw [List.getD_eq_getElem?_getD, List.getD_eq_getElem?_getD, List.getElem?_take_of_lt hk]
  have g0 : ∀ k, k < 6000 → data[k]? = some (data.getD k 0) := by
    intro k hk
    rw [List.getD_eq_getElem?_getD, List.getElem?_eq_getElem (by omega)]
    rfl
  have a1 : some (g.1.cell y x).AsciiChar = data[3 * (x + mapPanelWidth * y)]? := by
    rw [e, c1, g0 _ (by omega)]
  have a2 : some (g.1.cell y x).Attributes =
      (data[3 * (x + mapPanelWidth * y) + 1]?).map charToWORD := by
    rw [e, c1, g0 _ (by omega)]
    rfl
  have a3 : some (g.2.cell y x) =
      (data[3 * (x + mapPanelWidth * y) + 2]?).map (fun b => decide (b ≠ 0)) := by
    rw [e, c2, g0 _ (by omega)]
    by_cases h0 : data.getD ((x + y * 80) * 3 + 2) 0 = 0 <;> simp [h0]
  have a4 : g2.1.cell y x = g.1.cell y x := by
    rw [c1, d1, t0 _ (by omega), t0 _ (by omega)]
  have a5 : g2.2.cell y x = g.2.cell y x := by
    rw [c2, d2, t0 _ (by omega)]
  exact ⟨⟨_, _, hg, a1, a2, a3, hg2, a4, a5⟩, rfl⟩

theorem fileAttr200_length : fileAttr200.length = 6000 := by
  show (List.replicate 5997 0).length + 1 + 1 + 1 = 6000
  rw [List.length_replicate]

/-- Witness of C3 (as amended) on the file `fileAttr200`, at the cell `(0, 0)`. -/
theorem C3_load_decoding_witness :
    ((initialState (some fileAttr200)).mapFile = some fileAttr200 ∧
      mapPanelWidth * mapPanelHeight * 3 ≤ fileAttr200.length ∧
      0 < mapPanelWidth ∧ 0 < mapPanelHeight) ∧
    ((∃ s' s'', Load (initialState (some fileAttr200)) = .ok s' ∧
      some (s'.mapBuffer.cell 0 0).AsciiChar = fileAttr200[3 * (0 + mapPanelWidth * 0)]? ∧
      some (s'.mapBuffer.cell 0 0).Attributes =
        (fileAttr200[3 * (0 + mapPanelWidth * 0) + 1]?).map charToWORD ∧
      some (s'.walkabilityGrid.cell 0 0) =
        (fileAttr200[3 * (0 + mapPanelWidth * 0) + 2]?).map (fun b => decide (b ≠ 0)) ∧
      Load { initialState (some fileAttr200) with
          mapFile := some (fileAttr200.take (mapPanelWidth * mapPanelHeight * 3)) }
        = .ok s'' ∧
      s''.mapBuffer.cell 0 0 = s'.mapBuffer.cell 0 0 ∧
      s''.walkabilityGrid.cell 0 0 = s'.walkabilityGrid.cell 0 0) ∧
    Except.map (fun g => [(g.1.cell 0 0, g.2.cell 0 0), (g.1.cell 0 1, g.2.cell 0 1),
        (g.1.cell 1 0, g.2.cell 1 0), (g.1.cell 1 1, g.2.cell 1 1)])
      (loadCells (screenWidthOf 2 2) file2x2
        ((Array2D.fill ⟨0, 0⟩ : Array2D CHAR_INFO 2 2), (Array2D.fill false : Array2D Bool 2 2)))
      = .ok [(⟨65, 1⟩, true), (⟨66, 2⟩, false), (⟨67, 3⟩, true), (⟨68, 4⟩, false)]) :=
  ⟨⟨rfl, le_of_eq fileAttr200_length.symm, by decide, by decide⟩,
    C3_load_decoding (initialState (some fileAttr200)) fileAttr200 0 0 rfl
      (le_of_eq fileAttr200_length.symm) (by decide) (by decide)⟩

/-- C3 fails as stated: `fileAttr200` has 6000 bytes, its byte 1 is 200, and `Load`
sets the attributes of the cell `(0, 0)` to 65480, not to 200. -/
theorem C3_attributes_sign_extended :
    fileAttr200.length = 6000 ∧ fileAttr200[1]? = some 200 ∧
    Except.map (fun s' => (s'.mapBuffer.cell 0 0).Attributes)
      (Load (initialState (some fileAttr200))) = .ok 65480 := by
  refine ⟨fileAttr200_length, List.getElem?_cons_succ.trans List.getElem?_cons_zero, ?_⟩
  obtain ⟨g, hg, hc⟩ := Load_spec (initialState (some fileAttr200)) fileAttr200 rfl
    (le_of_eq fileAttr200_length.symm)
  rw [hg]
  simp only [Except.map]
  rw [(hc 0 0 (by decide) (by decide)).1]
  rfl

theorem fileShort_length : fileShort.length = 5999 := List.length_replicate _ _

/-- C4, the code at a failing input: `Load` of the 5999 byte file `fileShort` reads
`currentMapData` outside its bounds. -/
theorem C4_load_truncated_out_of_bounds :
    fileShort.length = mapPanelWidth * mapPanelHeight * 3 - 1 ∧
    Load (initialState (some fileShort)) = .error .outOfBounds :=
  ⟨fileShort_length, Load_short (initialState (some fileShort)) fileShort rfl
    (by rw [fileShort_length]; decide)⟩


/-! ## The palette -/

theorem SetPaletteAttributes_spec (attributes : Nat) (s : State) :
    ∃ sb, SetPaletteAttributes attributes s = .ok { s with screenBuffer := sb } ∧
      ∀ r c, sb.cell r c =
        if 25 ≤ r ∧ c < 80 ∧ c + 80 * (r - 25) < 256 then
          { s.screenBuffer.cell r c with Attributes := attributes }
        else s.screenBuffer.cell r c := by
  obtain ⟨t, ht, sb, hsb, hc⟩ := forLoop_inv
    (fun n (t : State) => ∃ sb, t = { s with screenBuffer := sb } ∧
      ∀ r c, sb.cell r c =
        if 25 ≤ r ∧ c < 80 ∧ c + 80 * (r - 25) < n then
          { s.screenBuffer.cell r c with Attributes := attributes }
        else s.screenBuffer.cell r c)
    256
    (fun i s => do
      let sb ← s.screenBuffer.modify (mapPanelHeight + i / palettePanelWidth)
        (i % palettePanelWidth) (fun c => { c with Attributes := attributes })
      pure { s with screenBuffer := sb }) s
    ⟨s.screenBuffer, rfl, fun r c => by
      have : ¬ (25 ≤ r ∧ c < 80 ∧ c + 80 * (r - 25) < 0) := by omega
      rw [if_neg this]⟩
    (by
      rintro i acc hi ⟨sb, rfl, hc⟩
      obtain ⟨sb', hm, hc'⟩ := Array2D.modify_ok sb (mapPanelHeight + i / palettePanelWidth)
        (i % palettePanelWidth) (fun c => { c with Attributes := attributes })
        (by show 25 + i / 80 < 32; omega) (by show i % 80 < 80; omega)
      refine ⟨{ s with screenBuffer := sb' }, ?_, sb', rfl, ?_⟩
      · show (sb.modify _ _ _ >>= fun sb => pure _) = _
        rw [hm]
        rfl
      · intro r c
        rw [hc' r c, hc r c]
        by_cases h1 : r = mapPanelHeight + i / palettePanelWidth ∧ c = i % palettePanelWidth
        · have h1' : r = 25 + i / 80 ∧ c = i % 80 := h1
          have h2 : 25 ≤ r ∧ c < 80 ∧ c + 80 * (r - 25) < i + 1 := by omega
          rw [if_pos h1, if_pos h2]
          split <;> rfl
        · rw [if_neg h1]
          have h1' : ¬ (r = 25 + i / 80 ∧ c = i % 80) := h1
          by_cases h3 : 25 ≤ r ∧ c < 80 ∧ c + 80 * (r - 25) < i
          · have h2 : 25 ≤ r ∧ c < 80 ∧ c + 80 * (r - 25) < i + 1 := by omega
            rw [if_pos h3, if_pos h2]
          · have h2 : ¬ (25 ≤ r ∧ c < 80 ∧ c + 80 * (r - 25) < i + 1) := by omega
            rw [if_neg h3, if_neg h2])
  subst hsb
  exact ⟨sb, ht, hc⟩


/-! ## Input handling -/

theorem HandleInput_mouse_tiles (s : State) (p : COORD) (b : Nat)
    (hm : s.editorMode = .tiles) :
    HandleInput (some (.MOUSE_EVENT p b)) s =
      HandleInputTileMode (.MOUSE_EVENT p b) { s with mouseX := p.X, mouseY := p.Y } := by
  unfold HandleInput
  simp only []
  rw [hm]

theorem HandleInput_mouse_walkability (s : State) (p : COORD) (b : Nat)
    (hm : s.editorMode = .walkability) :
    HandleInput (some (.MOUSE_EVENT p b)) s =
      HandleInputWalkabilityMode (.MOUSE_EVENT p b) { s with mouseX := p.X, mouseY := p.Y } := by
  unfold HandleInput
  simp only []
  rw [hm]

theorem Array2D.readAt_ok {α : Type} [Inhabited α] {rows cols : Nat} (a : Array2D α rows cols)
    (y x : Nat) (hy : y < rows) (hx : x < cols) :
    a.readAt (y : Int) (x : Int) = .ok (a.cell y x) := by
  simp [Array2D.readAt, Array2D.read, hy, hx]

theorem Array2D.writeAt_ok {α : Type} [Inhabited α] {rows cols : Nat} (a : Array2D α rows cols)
    (y x : Nat) (v : α) (hy : y < rows) (hx : x < cols) :
    ∃ a', a.writeAt (y : Int) (x : Int) v = .ok a' ∧
      ∀ r c, a'.cell r c = if r = y ∧ c = x then v else a.cell r c := by
  obtain ⟨a', h, hc⟩ := Array2D.write_ok a y x v hy hx
  refine ⟨a', ?_, hc⟩
  simp [Array2D.writeAt, h]

theorem selectFromPalette_glyph (s : State) (x y : Nat) (hX : s.mouseX = x) (hY : s.mouseY = y)
    (hx : x < 80) (hy : y < 32) (hi : ¬ ((y = 28 ∧ 16 ≤ x) ∨ 28 < y)) :
    selectFromPalette s = .ok { s with
      hasSelection := true
      selection := { s.selection with AsciiChar := (s.screenBuffer.cell y x).AsciiChar } } := by
  have hc : ¬ ((s.mouseY = 28 ∧ s.mouseX ≥ 16) ∨ s.mouseY > 28) := by
    rw [hX, hY]; omega
  have hread : s.screenBuffer.readAt s.mouseY s.mouseX = .ok (s.screenBuffer.cell y x) := by
    rw [hX, hY]
    exact Array2D.readAt_ok _ y x (by show y < 32; exact hy) (by show x < 80; exact hx)
  unfold selectFromPalette
  simp only [hc, if_false, hread, bind, Except.bind]
  rfl

theorem selectFromPalette_colour (s : State) (x y : Nat) (hX : s.mouseX = x) (hY : s.mouseY = y)
    (hx : x < 80) (hy : y < 32) (hi : (y = 28 ∧ 16 ≤ x) ∨ 28 < y) :
    ∃ sb, selectFromPalette s = .ok { s with
        hasSelection := true
        selection := { s.selection with Attributes := (s.screenBuffer.cell y x).Attributes }
        screenBuffer := sb } ∧
      ∀ r c, sb.cell r c =
        if 25 ≤ r ∧ c < 80 ∧ c + 80 * (r - 25) < 256 then
          { s.screenBuffer.cell r c with Attributes := (s.screenBuffer.cell y x).Attributes }
        else s.screenBuffer.cell r c := by
  have hc : (s.mouseY = 28 ∧ s.mouseX ≥ 16) ∨ s.mouseY > 28 := by
    rw [hX, hY]; omega
  have hread : s.screenBuffer.readAt s.mouseY s.mouseX = .ok (s.screenBuffer.cell y x) := by
    rw [hX, hY]
    exact Array2D.readAt_ok _ y x (by show y < 32; exact hy) (by show x < 80; exact hx)
  obtain ⟨sb, h, hcell⟩ := SetPaletteAttributes_spec (s.screenBuffer.cell y x).Attributes
    { s with
      hasSelection := true
      selection := { s.selection with Attributes := (s.screenBuffer.cell y x).Attributes } }
  refine ⟨sb, ?_, hcell⟩
  unfold selectFromPalette
  simp only [hc, if_true, hread, bind, Except.bind]
  exact h


theorem HandleInputTileMode_left (s : State) (p : COORD) :
    HandleInputTileMode (.MOUSE_EVENT p FROM_LEFT_1ST_BUTTON_PRESSED) s =
      if s.mouseY ≥ mapPanelHeight then selectFromPalette s
      else if s.hasSelection then
        (s.mapBuffer.writeAt s.mouseY s.mouseX s.selection) >>= fun mb =>
          pure { s with mapBuffer := mb }
      else pure s := rfl

/-- C7: in Tile mode a left press on the palette cell `(x, 25 + r)`, of palette index
`i = x + 80 * r`, holds the brush and, when `i < 256`, takes the glyph of that
screen cell and keeps the brush attributes, and when `i ≥ 256` takes the attributes
of that screen cell and keeps the brush glyph; the test of the source on the cursor,
row 28 and column at least 16 or row above 28, holds exactly when `i ≥ 256`; the map
and the walkable flags are unchanged. -/
theorem C7_palette_pick (s : State) (x r : Nat) (hm : s.editorMode = .tiles)
    (hx : x < palettePanelWidth) (hr : r < palettePanelHeight) :
    ∃ s', HandleInput (some (.MOUSE_EVENT ⟨(x : Int), ((mapPanelHeight + r : Nat) : Int)⟩
        FROM_LEFT_1ST_BUTTON_PRESSED)) s = .ok s' ∧
      s'.hasSelection = true ∧
      (if x + palettePanelWidth * r < 256 then
        s'.selection.AsciiChar = (s.screenBuffer.cell (mapPanelHeight + r) x).AsciiChar ∧
          s'.selection.Attributes = s.selection.Attributes
      else
        s'.selection.Attributes = (s.screenBuffer.cell (mapPanelHeight + r) x).Attributes ∧
          s'.selection.AsciiChar = s.selection.AsciiChar) ∧
      (((s'.mouseY = 28 ∧ s'.mouseX ≥ 16) ∨ s'.mouseY > 28) ↔
        256 ≤ x + palettePanelWidth * r) ∧
      s'.mapBuffer = s.mapBuffer ∧ s'.walkabilityGrid = s.walkabilityGrid := by
  have hx' : x < 80 := hx
  have hr' : r < 7 := hr
  rw [HandleInput_mouse_tiles s _ _ hm, HandleInputTileMode_left]
  have hge : ((mapPanelHeight + r : Nat) : Int) ≥ (mapPanelHeight : Nat) := by
    show ((25 + r : Nat) : Int) ≥ (25 : Nat); omega
  simp only [hge, if_true]
  by_cases hi : (25 + r = 28 ∧ 16 ≤ x) ∨ 28 < 25 + r
  · obtain ⟨sb, h, _⟩ := selectFromPalette_colour
      { s with mouseX := (x : Int), mouseY := ((mapPanelHeight + r : Nat) : Int) } x (25 + r) rfl rfl
      hx' (by omega) hi
    have h256 : ¬ (x + palettePanelWidth * r < 256) := by
      show ¬ (x + 80 * r < 256); omega
    refine ⟨_, h, rfl, ?_, ?_, rfl, rfl⟩
    · rw [if_neg h256]
      exact ⟨rfl, rfl⟩
    · show ((((25 + r : Nat) : Int) = 28 ∧ (x : Int) ≥ 16) ∨ ((25 + r : Nat) : Int) > 28) ↔
          256 ≤ x + 80 * r
      omega
  · have h := selectFromPalette_glyph
      { s with mouseX := (x : Int), mouseY := ((mapPanelHeight + r : Nat) : Int) } x (25 + r) rfl rfl
      hx' (by omega) hi
    have h256 : x + palettePanelWidth * r < 256 := by
      show x + 80 * r < 256; omega
    refine ⟨_, h, rfl, ?_, ?_, rfl, rfl⟩
    · rw [if_pos h256]
      exact ⟨rfl, rfl⟩
    · show ((((25 + r : Nat) : Int) = 28 ∧ (x : Int) ≥ 16) ∨ ((25 + r : Nat) : Int) > 28) ↔
          256 ≤ x + 80 * r
      omega

/-- Witness of C7 on the blank editor, at the palette cell `(23, 28)`. -/
theorem C7_palette_pick_witness :
    ((initialState none).editorMode = .tiles ∧ 23 < palettePanelWidth ∧
      3 < palettePanelHeight) ∧
    ∃ s', HandleInput (some (.MOUSE_EVENT ⟨((23 : Nat) : Int), ((mapPanelHeight + 3 : Nat) : Int)⟩
        FROM_LEFT_1ST_BUTTON_PRESSED)) (initialState none) = .ok s' ∧
      s'.hasSelection = true ∧
      (if 23 + palettePanelWidth * 3 < 256 then
        s'.selection.AsciiChar =
            ((initialState none).screenBuffer.cell (mapPanelHeight + 3) 23).AsciiChar ∧
          s'.selection.Attributes = (initialState none).selection.Attributes
      else
        s'.selection.Attributes =
            ((initialState none).screenBuffer.cell (mapPanelHeight + 3) 23).Attributes ∧
          s'.selection.AsciiChar = (initialState none).selection.AsciiChar) ∧
      (((s'.mouseY = 28 ∧ s'.mouseX ≥ 16) ∨ s'.mouseY > 28) ↔
        256 ≤ 23 + palettePanelWidth * 3) ∧
      s'.mapBuffer = (initialState none).mapBuffer ∧
      s'.walkabilityGrid = (initialState none).walkabilityGrid :=
  ⟨⟨rfl, by decide, by decide⟩, C7_palette_pick (initialState none) 23 3 rfl (by decide) (by decide)⟩

/-- C5 (as amended): in Tile mode a left press on a palette cell `(x, y)` of index
`x + 80 * (y - 25) ≥ 256` whose attributes are `a` leaves the glyph of every palette
cell as it was and sets the attributes of the palette cells of index below 256 (the
glyph band) to `a`, while the palette cells of index 256 and above (the colour band)
keep their own attributes. -/
theorem C5_colour_pick_recolours_glyph_band (s : State) (x y a r c : Nat)
    (hm : s.editorMode = .tiles) (hx : x < palettePanelWidth)
    (hy : mapPanelHeight ≤ y) (hy' : y < screenHeight)
    (hi : 256 ≤ x + palettePanelWidth * (y - mapPanelHeight))
    (ha : (s.screenBuffer.cell y x).Attributes = a)
    (hc : c < palettePanelWidth) (hr : mapPanelHeight ≤ r) :
    ∃ s', HandleInput (some (.MOUSE_EVENT ⟨(x : Int), (y : Int)⟩
        FROM_LEFT_1ST_BUTTON_PRESSED)) s = .ok s' ∧
      (s'.screenBuffer.cell r c).AsciiChar = (s.screenBuffer.cell r c).AsciiChar ∧
      (s'.screenBuffer.cell r c).Attributes =
        if c + palettePanelWidth * (r - mapPanelHeight) < 256 then a
        else (s.screenBuffer.cell r c).Attributes := by
  have hx1 : x < 80 := hx
  have hy1 : 25 ≤ y := hy
  have hy2 : y < 32 := hy'
  have hi1 : 256 ≤ x + 80 * (y - 25) := hi
  have hc1 : c < 80 := hc
  have hr1 : 25 ≤ r := hr
  rw [HandleInput_mouse_tiles s _ _ hm, HandleInputTileMode_left]
  have hge : (y : Int) ≥ (mapPanelHeight : Nat) := by
    show (y : Int) ≥ (25 : Nat); omega
  simp only [hge, if_true]
  obtain ⟨sb, h, hcell⟩ := selectFromPalette_colour
    { s with mouseX := (x : Int), mouseY := (y : Int) } x y rfl rfl hx1 hy2 (by omega)
  refine ⟨_, h, ?_, ?_⟩
  · show (sb.cell r c).AsciiChar = _
    rw [hcell r c]
    split <;> rfl
  · show (sb.cell r c).Attributes = _
    rw [hcell r c]
    by_cases h256 : c + 80 * (r - 25) < 256
    · have h1 : 25 ≤ r ∧ c < 80 ∧ c + 80 * (r - 25) < 256 := ⟨hr1, hc1, h256⟩
      have h2 : c + palettePanelWidth * (r - mapPanelHeight) < 256 := h256
      rw [if_pos h1, if_pos h2]
      exact ha
    · have h1 : ¬ (25 ≤ r ∧ c < 80 ∧ c + 80 * (r - 25) < 256) := fun h => h256 h.2.2
      have h2 : ¬ (c + palettePanelWidth * (r - mapPanelHeight) < 256) := h256
      rw [if_neg h1, if_neg h2]

theorem dollarState_cell (y x : Nat) (hy : y < 32) (hx : x < 80) :
    dollarState.screenBuffer.cell y x = ⟨36, 7⟩ :=
  Array2D.cell_fill _ y x hy hx

/-- Witness of C5 (as amended): on `dollarState` a press on the swatch `(23, 28)`,
whose attributes are 7, seen at the palette cell `(16, 28)`. -/
theorem C5_colour_pick_recolours_glyph_band_witness :
    (dollarState.editorMode = .tiles ∧ 23 < palettePanelWidth ∧ mapPanelHeight ≤ 28 ∧
      28 < screenHeight ∧ 256 ≤ 23 + palettePanelWidth * (28 - mapPanelHeight) ∧
      (dollarState.screenBuffer.cell 28 23).Attributes = 7 ∧
      16 < palettePanelWidth ∧ mapPanelHeight ≤ 28) ∧
    ∃ s', HandleInput (some (.MOUSE_EVENT ⟨((23 : Nat) : Int), ((28 : Nat) : Int)⟩
        FROM_LEFT_1ST_BUTTON_PRESSED)) dollarState = .ok s' ∧
      (s'.screenBuffer.cell 28 16).AsciiChar = (dollarState.screenBuffer.cell 28 16).AsciiChar ∧
      (s'.screenBuffer.cell 28 16).Attributes =
        if 16 + palettePanelWidth * (28 - mapPanelHeight) < 256 then 7
        else (dollarState.screenBuffer.cell 28 16).Attributes :=
  have h7 : (dollarState.screenBuffer.cell 28 23).Attributes = 7 := by
    rw [dollarState_cell 28 23 (by decide) (by decide)]
  ⟨⟨rfl, by decide, by decide, by decide, by decide, h7, by decide, by decide⟩,
    C5_colour_pick_recolours_glyph_band dollarState 23 28 7 28 16 rfl (by decide) (by decide)
      (by decide) (by decide) h7 (by decide) (by decide)⟩

set_option maxRecDepth 100000 in
/-- C5 fails as stated: after `InitPalette` the swatch `(23, 28)` (palette index 263)
has attributes 7; after a left press on it in Tile mode the colour band cell
`(16, 28)` (palette index 256) is still `'$'` with attributes 0, not 7, and the
glyph band cell `(0, 25)` has attributes 7. -/
theorem C5_colour_band_keeps_its_colours :
    Except.map (fun s => (s.editorMode, (s.screenBuffer.cell 28 23).Attributes))
      (InitPalette (initialState none)) = .ok (.tiles, 7) ∧
    Except.map (fun s => (s.screenBuffer.cell 28 16, s.screenBuffer.cell 25 0))
      (InitPalette (initialState none) >>= HandleInput (some (.MOUSE_EVENT ⟨23, 28⟩
        FROM_LEFT_1ST_BUTTON_PRESSED))) = .ok (⟨36, 0⟩, ⟨0, 7⟩) :=
  ⟨rfl, rfl⟩


/-- C8: in Tile mode a left press with the cursor on the map cell `(x, y)` succeeds,
leaves every walkable flag unchanged and, when a brush is held, makes the map cell
`(x, y)` equal to the brush and leaves every other map cell unchanged; when no
brush is held the map is unchanged. -/
theorem C8_paint_commit (s : State) (x y : Nat) (hm : s.editorMode = .tiles)
    (hx : x < mapPanelWidth) (hy : y < mapPanelHeight) :
    ∃ s', HandleInput (some (.MOUSE_EVENT ⟨(x : Int), (y : Int)⟩
        FROM_LEFT_1ST_BUTTON_PRESSED)) s = .ok s' ∧
      s'.walkabilityGrid = s.walkabilityGrid ∧
      (if s.hasSelection then
        s'.mapBuffer.cell y x = s.selection ∧
          ∀ r c, (r, c) ≠ (y, x) → s'.mapBuffer.cell r c = s.mapBuffer.cell r c
      else s'.mapBuffer = s.mapBuffer) := by
  rw [HandleInput_mouse_tiles s _ _ hm, HandleInputTileMode_left]
  have hlt : ¬ ((y : Int) ≥ (mapPanelHeight : Nat)) := by
    have : y < 25 := hy
    show ¬ ((y : Int) ≥ (25 : Nat)); omega
  simp only [hlt, if_false]
  by_cases hsel : s.hasSelection = true
  · rw [if_pos hsel]
    obtain ⟨mb, hw, hcell⟩ := Array2D.writeAt_ok s.mapBuffer y x s.selection hy hx
    refine ⟨{ s with mouseX := (x : Int), mouseY := (y : Int), mapBuffer := mb }, ?_, rfl, ?_⟩
    · show (s.mapBuffer.writeAt (y : Int) (x : Int) s.selection >>= _) = _
      rw [hw]
      rfl
    rw [if_pos hsel]
    refine ⟨?_, ?_⟩
    · show mb.cell y x = _
      rw [hcell y x]
      simp
    · intro r c hne
      show mb.cell r c = _
      rw [hcell r c]
      have : ¬ (r = y ∧ c = x) := by
        rintro ⟨rfl, rfl⟩; exact hne rfl
      rw [if_neg this]
  · rw [if_neg hsel]
    refine ⟨_, rfl, rfl, ?_⟩
    rw [if_neg hsel]

/-- Witness of C8 on `brushState`, at the map cell `(3, 4)`. -/
theorem C8_paint_commit_witness :
    (brushState.editorMode = .tiles ∧ 3 < mapPanelWidth ∧ 4 < mapPanelHeight) ∧
    ∃ s', HandleInput (some (.MOUSE_EVENT ⟨((3 : Nat) : Int), ((4 : Nat) : Int)⟩
        FROM_LEFT_1ST_BUTTON_PRESSED)) brushState = .ok s' ∧
      s'.walkabilityGrid = brushState.walkabilityGrid ∧
      (if brushState.hasSelection then
        s'.mapBuffer.cell 4 3 = brushState.selection ∧
          ∀ r c, (r, c) ≠ (4, 3) → s'.mapBuffer.cell r c = brushState.mapBuffer.cell r c
      else s'.mapBuffer = brushState.mapBuffer) :=
  ⟨⟨rfl, by decide, by decide⟩, C8_paint_commit brushState 3 4 rfl (by decide) (by decide)⟩

theorem HandleInputWalkabilityMode_mouse (s : State) (p : COORD) (b : Nat) :
    HandleInputWalkabilityMode (.MOUSE_EVENT p b) s =
      if s.mouseY < mapPanelHeight then
        if b = FROM_LEFT_1ST_BUTTON_PRESSED then
          (s.walkabilityGrid.writeAt s.mouseY s.mouseX false) >>= fun wg =>
            pure { s with walkabilityGrid := wg }
        else if b = RIGHTMOST_BUTTON_PRESSED then
          (s.walkabilityGrid.writeAt s.mouseY s.mouseX true) >>= fun wg =>
            pure { s with walkabilityGrid := wg }
        else pure s
      else pure s := rfl

/-- C10: in Walkability mode, with the cursor on the map cell `(x, y)`, a left press
sets the walkable flag of `(x, y)` to false and a right press sets it to true, every
other flag staying as it was; and a mouse event, whatever its buttons, with the
cursor at a row `my ≥ 25` changes nothing but the stored cursor position. -/
theorem C10_walkability_pointer (s : State) (x y : Nat) (mx my : Int) (b : Nat)
    (hm : s.editorMode = .walkability) (hx : x < mapPanelWidth) (hy : y < mapPanelHeight)
    (hp : (mapPanelHeight : Int) ≤ my) :
    (∃ s', HandleInput (some (.MOUSE_EVENT ⟨(x : Int), (y : Int)⟩
        FROM_LEFT_1ST_BUTTON_PRESSED)) s = .ok s' ∧
      s'.walkabilityGrid.cell y x = false ∧
      ∀ r c, (r, c) ≠ (y, x) → s'.walkabilityGrid.cell r c = s.walkabilityGrid.cell r c) ∧
    (∃ s', HandleInput (some (.MOUSE_EVENT ⟨(x : Int), (y : Int)⟩
        RIGHTMOST_BUTTON_PRESSED)) s = .ok s' ∧
      s'.walkabilityGrid.cell y x = true ∧
      ∀ r c, (r, c) ≠ (y, x) → s'.walkabilityGrid.cell r c = s.walkabilityGrid.cell r c) ∧
    HandleInput (some (.MOUSE_EVENT ⟨mx, my⟩ b)) s = .ok { s with mouseX := mx, mouseY := my } := by
  have hlt : (y : Int) < (mapPanelHeight : Nat) := by
    have : y < 25 := hy
    show (y : Int) < (25 : Nat); omega
  have hge : ¬ (my < (mapPanelHeight : Nat)) := by
    have : (25 : Int) ≤ my := hp
    show ¬ (my < (25 : Nat)); omega
  refine ⟨?_, ?_, ?_⟩
  · rw [HandleInput_mouse_walkability s _ _ hm, HandleInputWalkabilityMode_mouse]
    obtain ⟨wg, hw, hcell⟩ := Array2D.writeAt_ok s.walkabilityGrid y x false hy hx
    refine ⟨{ s with mouseX := (x : Int), mouseY := (y : Int), walkabilityGrid := wg }, ?_, ?_, ?_⟩
    · simp only [hlt, if_true, hw, bind, Except.bind]
      rfl
    · show wg.cell y x = false
      rw [hcell y x]; simp
    · intro r c hne
      show wg.cell r c = _
      rw [hcell r c]
      have : ¬ (r = y ∧ c = x) := by
        rintro ⟨rfl, rfl⟩; exact hne rfl
      rw [if_neg this]
  · rw [HandleInput_mouse_walkability s _ _ hm, HandleInputWalkabilityMode_mouse]
    obtain ⟨wg, hw, hcell⟩ := Array2D.writeAt_ok s.walkabilityGrid y x true hy hx
    refine ⟨{ s with mouseX := (x : Int), mouseY := (y : Int), walkabilityGrid := wg }, ?_, ?_, ?_⟩
    · have h21 : ¬ (RIGHTMOST_BUTTON_PRESSED = FROM_LEFT_1ST_BUTTON_PRESSED) := by decide
      simp only [hlt, if_true, h21, if_false, hw, bind, Except.bind]
      rfl
    · show wg.cell y x = true
      rw [hcell y x]; simp
    · intro r c hne
      show wg.cell r c = _
      rw [hcell r c]
      have : ¬ (r = y ∧ c = x) := by
        rintro ⟨rfl, rfl⟩; exact hne rfl
      rw [if_neg this]
  · rw [HandleInput_mouse_walkability s _ _ hm, HandleInputWalkabilityMode_mouse]
    simp only [hge, if_false]
    rfl

/-- Witness of C10 on `walkabilityState`: the map cell `(3, 4)`, and a left press at
the palette position `(23, 28)`. -/
theorem C10_walkability_pointer_witness :
    (walkabilityState.editorMode = .walkability ∧ 3 < mapPanelWidth ∧ 4 < mapPanelHeight ∧
      (mapPanelHeight : Int) ≤ 28) ∧
    ((∃ s', HandleInput (some (.MOUSE_EVENT ⟨((3 : Nat) : Int), ((4 : Nat) : Int)⟩
        FROM_LEFT_1ST_BUTTON_PRESSED)) walkabilityState = .ok s' ∧
      s'.walkabilityGrid.cell 4 3 = false ∧
      ∀ r c, (r, c) ≠ (4, 3) →
        s'.walkabilityGrid.cell r c = walkabilityState.walkabilityGrid.cell r c) ∧
    (∃ s', HandleInput (some (.MOUSE_EVENT ⟨((3 : Nat) : Int), ((4 : Nat) : Int)⟩
        RIGHTMOST_BUTTON_PRESSED)) walkabilityState = .ok s' ∧
      s'.walkabilityGrid.cell 4 3 = true ∧
      ∀ r c, (r, c) ≠ (4, 3) →
        s'.walkabilityGrid.cell r c = walkabilityState.walkabilityGrid.cell r c) ∧
    HandleInput (some (.MOUSE_EVENT ⟨23, 28⟩ FROM_LEFT_1ST_BUTTON_PRESSED)) walkabilityState
      = .ok { walkabilityState with mouseX := 23, mouseY := 28 }) :=
  ⟨⟨rfl, by decide, by decide, by decide⟩,
    C10_walkability_pointer walkabilityState 3 4 23 28 FROM_LEFT_1ST_BUTTON_PRESSED rfl
      (by decide) (by decide) (by decide)⟩


/-! ## Rendering -/

theorem copyMap_spec (s : State) :
    ∃ sb, forLoop mapPanelHeight (fun y s =>
        forLoop mapPanelWidth (fun x s => do
          let c ← s.mapBuffer.read y x
          let sb ← s.screenBuffer.write y x c
          pure { s with screenBuffer := sb }) s) s = .ok { s with screenBuffer := sb } ∧
      ∀ r c, sb.cell r c =
        if r < 25 ∧ c < 80 then s.mapBuffer.cell r c else s.screenBuffer.cell r c := by
  obtain ⟨t, ht, sb, hsb, hc⟩ := forLoop_inv
    (fun n (t : State) => ∃ sb, t = { s with screenBuffer := sb } ∧
      ∀ r c, sb.cell r c =
        if r < n ∧ c < 80 then s.mapBuffer.cell r c else s.screenBuffer.cell r c)
    mapPanelHeight
    (fun y s =>
        forLoop mapPanelWidth (fun x s => do
          let c ← s.mapBuffer.read y x
          let sb ← s.screenBuffer.write y x c
          pure { s with screenBuffer := sb }) s) s
    ⟨s.screenBuffer, rfl, fun r c => by
      have : ¬ (r < 0 ∧ c < 80) := by omega
      rw [if_neg this]⟩
    (by
      rintro y acc hy ⟨sb, rfl, hc⟩
      have hy' : y < 25 := hy
      obtain ⟨t, ht, sb', hsb', hc'⟩ := forLoop_inv
        (fun n (t : State) => ∃ sb', t = { s with screenBuffer := sb' } ∧
          ∀ r c, sb'.cell r c =
            if (r < y ∧ c < 80) ∨ (r = y ∧ c < n) then s.mapBuffer.cell r c
            else s.screenBuffer.cell r c)
        mapPanelWidth
        (fun x s => do
          let c ← s.mapBuffer.read y x
          let sb ← s.screenBuffer.write y x c
          pure { s with screenBuffer := sb }) { s with screenBuffer := sb }
        ⟨sb, rfl, fun r c => by
          rw [hc r c]
          by_cases h : r < y ∧ c < 80
          · rw [if_pos h, if_pos (Or.inl h)]
          · have : ¬ ((r < y ∧ c < 80) ∨ (r = y ∧ c < 0)) := by omega
            rw [if_neg h, if_neg this]⟩
        (by
          rintro x acc hx ⟨sb1, rfl, hc1⟩
          have hx' : x < 80 := hx
          obtain ⟨sb2, hw, hc2⟩ := Array2D.write_ok sb1 y x (s.mapBuffer.cell y x)
            (by show y < 32; omega) (by show x < 80; omega)
          refine ⟨{ s with screenBuffer := sb2 }, ?_, sb2, rfl, ?_⟩
          · show (s.mapBuffer.read y x >>= fun c => sb1.write y x c >>= fun sb => pure _) = _
            rw [Array2D.read_ok _ y x hy hx]
            show (sb1.write y x (s.mapBuffer.cell y x) >>= fun sb => pure _) = _
            rw [hw]
            rfl
          · intro r c
            rw [hc2 r c, hc1 r c]
            by_cases h1 : r = y ∧ c = x
            · have h2 : (r < y ∧ c < 80) ∨ (r = y ∧ c < x + 1) := by omega
              rw [if_pos h1, if_pos h2, h1.1, h1.2]
            · rw [if_neg h1]
              by_cases h3 : (r < y ∧ c < 80) ∨ (r = y ∧ c < x)
              · have h2 : (r < y ∧ c < 80) ∨ (r = y ∧ c < x + 1) := by omega
                rw [if_pos h3, if_pos h2]
              · have h2 : ¬ ((r < y ∧ c < 80) ∨ (r = y ∧ c < x + 1)) := by omega
                rw [if_neg h3, if_neg h2])
      subst hsb'
      refine ⟨_, ht, sb', rfl, ?_⟩
      intro r c
      rw [hc' r c]
      by_cases h3 : (r < y ∧ c < 80) ∨ (r = y ∧ c < mapPanelWidth)
      · have h3' : (r < y ∧ c < 80) ∨ (r = y ∧ c < 80) := h3
        have h2 : r < y + 1 ∧ c < 80 := by omega
        rw [if_pos h3, if_pos h2]
      · have h3' : ¬ ((r < y ∧ c < 80) ∨ (r = y ∧ c < 80)) := h3
        have h2 : ¬ (r < y + 1 ∧ c < 80) := by omega
        rw [if_neg h3, if_neg h2])
  subst hsb
  exact ⟨sb, ht, hc⟩


theorem DrawTileMode_spec (s : State) (x y : Nat) (hX : s.mouseX = x) (hY : s.mouseY = y)
    (hx : x < 80) :
    ∃ sb, DrawTileMode s = .ok { s with screenBuffer := sb } ∧
      ∀ r c, sb.cell r c =
        if s.hasSelection = true ∧ y < 25 ∧ r = y ∧ c = x then s.selection
        else if r < 25 ∧ c < 80 then s.mapBuffer.cell r c else s.screenBuffer.cell r c := by
  obtain ⟨sb, h, hc⟩ := copyMap_spec s
  unfold DrawTileMode
  rw [h]
  simp only [bind, Except.bind]
  by_cases hov : s.hasSelection = true ∧ s.mouseY < (mapPanelHeight : Nat)
  · have hy : y < 25 := by
      have := hov.2
      rw [hY] at this
      have h' : (y : Int) < (25 : Nat) := this
      omega
    obtain ⟨sb', hw, hc'⟩ := Array2D.writeAt_ok sb y x s.selection
      (by show y < 32; omega) (by show x < 80; exact hx)
    refine ⟨sb', ?_, ?_⟩
    · rw [if_pos hov, hX, hY, hw]
      rfl
    · intro r c
      rw [hc' r c, hc r c]
      by_cases h1 : r = y ∧ c = x
      · have h2 : s.hasSelection = true ∧ y < 25 ∧ r = y ∧ c = x := ⟨hov.1, hy, h1.1, h1.2⟩
        rw [if_pos h1, if_pos h2]
      · have h2 : ¬ (s.hasSelection = true ∧ y < 25 ∧ r = y ∧ c = x) :=
          fun h => h1 ⟨h.2.2.1, h.2.2.2⟩
        rw [if_neg h1, if_neg h2]
  · refine ⟨sb, ?_, ?_⟩
    · rw [if_neg hov]
      rfl
    · intro r c
      have h2 : ¬ (s.hasSelection = true ∧ y < 25 ∧ r = y ∧ c = x) := by
        intro h
        apply hov
        refine ⟨h.1, ?_⟩
        rw [hY]
        show (y : Int) < (25 : Nat)
        have := h.2.1
        omega
      rw [if_neg h2, hc r c]

theorem DrawWalkabilityMode_spec (s : State) :
    ∃ sb, DrawWalkabilityMode s = .ok { s with screenBuffer := sb } ∧
      ∀ r c, sb.cell r c =
        if r < 25 ∧ c < 80 then
          ⟨(s.mapBuffer.cell r c).AsciiChar,
            BACKGROUND_INTENSITY |||
              (if s.walkabilityGrid.cell r c then BACKGROUND_GREEN else BACKGROUND_RED)⟩
        else s.screenBuffer.cell r c := by
  obtain ⟨t, ht, sb, hsb, hc⟩ := forLoop_inv
    (fun n (t : State) => ∃ sb, t = { s with screenBuffer := sb } ∧
      ∀ r c, sb.cell r c =
        if r < n ∧ c < 80 then
          ⟨(s.mapBuffer.cell r c).AsciiChar,
            BACKGROUND_INTENSITY |||
              (if s.walkabilityGrid.cell r c then BACKGROUND_GREEN else BACKGROUND_RED)⟩
        else s.screenBuffer.cell r c)
    mapPanelHeight
    (fun y s =>
        forLoop mapPanelWidth (fun x s => do
          let c ← s.mapBuffer.read y x
          let sb ← s.screenBuffer.modify y x (fun d => { d with AsciiChar := c.AsciiChar })
          let w ← s.walkabilityGrid.read y x
          let sb ← sb.modify y x (fun d =>
            { d with Attributes := BACKGROUND_INTENSITY ||| (if w then BACKGROUND_GREEN else BACKGROUND_RED) })
          pure { s with screenBuffer := sb }) s) s
    ⟨s.screenBuffer, rfl, fun r c => by
      have : ¬ (r < 0 ∧ c < 80) := by omega
      rw [if_neg this]⟩
    (by
      rintro y acc hy ⟨sb, rfl, hc⟩
      have hy' : y < 25 := hy
      obtain ⟨t, ht, sb', hsb', hc'⟩ := forLoop_inv
        (fun n (t : State) => ∃ sb', t = { s with screenBuffer := sb' } ∧
          ∀ r c, sb'.cell r c =
            if (r < y ∧ c < 80) ∨ (r = y ∧ c < n) then
              ⟨(s.mapBuffer.cell r c).AsciiChar,
                BACKGROUND_INTENSITY |||
                  (if s.walkabilityGrid.cell r c then BACKGROUND_GREEN else BACKGROUND_RED)⟩
            else s.screenBuffer.cell r c)
        mapPanelWidth
        (fun x s => do
          let c ← s.mapBuffer.read y x
          let sb ← s.screenBuffer.modify y x (fun d => { d with AsciiChar := c.AsciiChar })
          let w ← s.walkabilityGrid.read y x
          let sb ← sb.modify y x (fun d =>
            { d with Attributes := BACKGROUND_INTENSITY ||| (if w then BACKGROUND_GREEN else BACKGROUND_RED) })
          pure { s with screenBuffer := sb }) { s with screenBuffer := sb }
        ⟨sb, rfl, fun r c => by
          rw [hc r c]
          by_cases h : r < y ∧ c < 80
          · rw [if_pos h, if_pos (Or.inl h)]
          · have : ¬ ((r < y ∧ c < 80) ∨ (r = y ∧ c < 0)) := by omega
            rw [if_neg h, if_neg this]⟩
        (by
          rintro x acc hx ⟨sb1, rfl, hc1⟩
          have hx' : x < 80 := hx
          obtain ⟨sb2, hw2, hc2⟩ := Array2D.modify_ok sb1 y x
            (fun d => { d with AsciiChar := (s.mapBuffer.cell y x).AsciiChar })
            (by show y < 32; omega) (by show x < 80; omega)
          obtain ⟨sb3, hw3, hc3⟩ := Array2D.modify_ok sb2 y x
            (fun d => { d with Attributes := BACKGROUND_INTENSITY |||
              (if s.walkabilityGrid.cell y x then BACKGROUND_GREEN else BACKGROUND_RED) })
            (by show y < 32; omega) (by show x < 80; omega)
          refine ⟨{ s with screenBuffer := sb3 }, ?_, sb3, rfl, ?_⟩
          · show (s.mapBuffer.read y x >>= fun c => sb1.modify y x _ >>= fun sb =>
              s.walkabilityGrid.read y x >>= fun w => sb.modify y x _ >>= fun sb => pure _) = _
            rw [Array2D.read_ok _ y x hy hx]
            show (sb1.modify y x _ >>= fun sb =>
              s.walkabilityGrid.read y x >>= fun w => sb.modify y x _ >>= fun sb => pure _) = _
            rw [hw2]
            show (s.walkabilityGrid.read y x >>= fun w => sb2.modify y x _ >>= fun sb => pure _) = _
            rw [Array2D.read_ok _ y x hy hx]
            show (sb2.modify y x _ >>= fun sb => pure _) = _
            rw [hw3]
            rfl
          · intro r c
            rw [hc3 r c, hc2 r c, hc1 r c]
            by_cases h1 : r = y ∧ c = x
            · have h2 : (r < y ∧ c < 80) ∨ (r = y ∧ c < x + 1) := by omega
              rw [if_pos h1, if_pos h1, if_pos h2, h1.1, h1.2]
            · rw [if_neg h1, if_neg h1]
              by_cases h3 : (r < y ∧ c < 80) ∨ (r = y ∧ c < x)
              · have h2 : (r < y ∧ c < 80) ∨ (r = y ∧ c < x + 1) := by omega
                rw [if_pos h3, if_pos h2]
              · have h2 : ¬ ((r < y ∧ c < 80) ∨ (r = y ∧ c < x + 1)) := by omega
                rw [if_neg h3, if_neg h2])
      subst hsb'
      refine ⟨_, ht, sb', rfl, ?_⟩
      intro r c
      rw [hc' r c]
      by_cases h3 : (r < y ∧ c < 80) ∨ (r = y ∧ c < mapPanelWidth)
      · have h3' : (r < y ∧ c < 80) ∨ (r = y ∧ c < 80) := h3
        have h2 : r < y + 1 ∧ c < 80 := by omega
        rw [if_pos h3, if_pos h2]
      · have h3' : ¬ ((r < y ∧ c < 80) ∨ (r = y ∧ c < 80)) := h3
        have h2 : ¬ (r < y + 1 ∧ c < 80) := by omega
        rw [if_neg h3, if_neg h2])
  subst hsb
  exact ⟨sb, ht, hc⟩


/-! ## Mode and definedness -/

theorem Array2D.writeAt_some {α : Type} [Inhabited α] {rows cols : Nat}
    (a : Array2D α rows cols) (y x : Int) (v : α) (hy : 0 ≤ y) (hy' : y < (rows : Nat))
    (hx : 0 ≤ x) (hx' : x < (cols : Nat)) : ∃ a', a.writeAt y x v = .ok a' := by
  obtain ⟨n, rfl⟩ := Int.eq_ofNat_of_zero_le hy
  obtain ⟨m, rfl⟩ := Int.eq_ofNat_of_zero_le hx
  obtain ⟨a', h, _⟩ := Array2D.writeAt_ok a n m v (by omega) (by omega)
  exact ⟨a', h⟩

theorem selectFromPalette_frame (s s' : State) (h : selectFromPalette s = .ok s') :
    s'.editorMode = s.editorMode ∧ s'.mouseX = s.mouseX ∧ s'.mouseY = s.mouseY := by
  unfold selectFromPalette at h
  simp only [] at h
  cases hr : s.screenBuffer.readAt s.mouseY s.mouseX with
  | error e => simp [hr, bind, Except.bind] at h
  | ok c =>
    simp only [hr, bind, Except.bind] at h
    split at h
    · obtain ⟨sb, hs, _⟩ := SetPaletteAttributes_spec c.Attributes
        { s with hasSelection := true, selection := { s.selection with Attributes := c.Attributes } }
      rw [hs] at h
      cases h
      exact ⟨rfl, rfl, rfl⟩
    · cases h
      exact ⟨rfl, rfl, rfl⟩

theorem selectFromPalette_some (s : State) (hc : cursorInScreen s) :
    ∃ s', selectFromPalette s = .ok s' := by
  obtain ⟨h1, h2, h3, h4⟩ := hc
  obtain ⟨x, hx⟩ := Int.eq_ofNat_of_zero_le h1
  obtain ⟨y, hy⟩ := Int.eq_ofNat_of_zero_le h3
  have hx' : x < 80 := by
    rw [hx] at h2
    have : (x : Int) < (80 : Nat) := h2
    omega
  have hy' : y < 32 := by
    rw [hy] at h4
    have : (y : Int) < (32 : Nat) := h4
    omega
  by_cases hi : (y = 28 ∧ 16 ≤ x) ∨ 28 < y
  · obtain ⟨sb, h, _⟩ := selectFromPalette_colour s x y hx hy hx' hy' hi
    exact ⟨_, h⟩
  · exact ⟨_, selectFromPalette_glyph s x y hx hy hx' hy' hi⟩

theorem HandleInputTileMode_mode (e : INPUT_RECORD) (s s' : State)
    (hm : s.editorMode = .tiles) (h : HandleInputTileMode e s = .ok s') :
    s'.editorMode = (if isModeSwitch (some e) then s.editorMode.flip else s.editorMode) := by
  cases e with
  | KEY_EVENT d k =>
    cases d with
    | false =>
      cases h
      rfl
    | true =>
      by_cases hk : k = VK_TAB
      · subst hk
        cases h
        show EditorMode.walkability = s.editorMode.flip
        rw [hm]
        rfl
      · have hsw : isModeSwitch (some (.KEY_EVENT true k)) = false := by
          simp [isModeSwitch, hk]
        rw [hsw]
        by_cases hS : k = VK_S
        · subst hS
          obtain ⟨b, hb, _⟩ := Save_spec s
          have h' : Save s = .ok s' := h
          rw [hb] at h'
          cases h'
          rfl
        · have h' : (if k = VK_TAB then pure { s with editorMode := .walkability }
              else if k = VK_S then Save s else pure s) = Except.ok s' := h
          rw [if_neg hk, if_neg hS] at h'
          cases h'
          rfl
  | MOUSE_EVENT p b =>
    show s'.editorMode = s.editorMode
    by_cases hb : b = FROM_LEFT_1ST_BUTTON_PRESSED
    · subst hb
      rw [HandleInputTileMode_left] at h
      split at h
      · exact (selectFromPalette_frame s s' h).1
      · split at h
        · cases hw : s.mapBuffer.writeAt s.mouseY s.mouseX s.selection with
          | error e => rw [hw] at h; cases h
          | ok mb => rw [hw] at h; cases h; rfl
        · cases h
          rfl
    · by_cases hb2 : b = RIGHTMOST_BUTTON_PRESSED
      · subst hb2
        obtain ⟨sb, hs, _⟩ := SetPaletteAttributes_spec defaultPaletteAttributes
          { s with hasSelection := false }
        have h' : SetPaletteAttributes defaultPaletteAttributes { s with hasSelection := false }
            = .ok s' := h
        rw [hs] at h'
        cases h'
        rfl
      · have h' : (if b = FROM_LEFT_1ST_BUTTON_PRESSED then
              (if s.mouseY ≥ mapPanelHeight then selectFromPalette s
              else if s.hasSelection then
                (s.mapBuffer.writeAt s.mouseY s.mouseX s.selection) >>= fun mb =>
                  pure { s with mapBuffer := mb }
              else pure s)
            else if b = RIGHTMOST_BUTTON_PRESSED then
              SetPaletteAttributes defaultPaletteAttributes { s with hasSelection := false }
            else pure s) = Except.ok s' := h
        rw [if_neg hb, if_neg hb2] at h'
        cases h'
        rfl
  | other =>
    cases h
    rfl


theorem HandleInputWalkabilityMode_mode (e : INPUT_RECORD) (s s' : State)
    (hm : s.editorMode = .walkability) (h : HandleInputWalkabilityMode e s = .ok s') :
    s'.editorMode = (if isModeSwitch (some e) then s.editorMode.flip else s.editorMode) := by
  cases e with
  | KEY_EVENT d k =>
    cases d with
    | false =>
      cases h
      rfl
    | true =>
      by_cases hk : k = VK_TAB
      · subst hk
        cases h
        show EditorMode.tiles = s.editorMode.flip
        rw [hm]
        rfl
      · have hsw : isModeSwitch (some (.KEY_EVENT true k)) = false := by
          simp [isModeSwitch, hk]
        rw [hsw]
        by_cases hS : k = VK_S
        · subst hS
          obtain ⟨b, hb, _⟩ := Save_spec s
          have h' : Save s = .ok s' := h
          rw [hb] at h'
          cases h'
          rfl
        · have h' : (if k = VK_TAB then pure { s with editorMode := .tiles }
              else if k = VK_S then Save s else pure s) = Except.ok s' := h
          rw [if_neg hk, if_neg hS] at h'
          cases h'
          rfl
  | MOUSE_EVENT p b =>
    show s'.editorMode = s.editorMode
    rw [HandleInputWalkabilityMode_mouse] at h
    split at h
    · split at h
      · cases hw : s.walkabilityGrid.writeAt s.mouseY s.mouseX false with
        | error e => rw [hw] at h; cases h
        | ok wg => rw [hw] at h; cases h; rfl
      · split at h
        · cases hw : s.walkabilityGrid.writeAt s.mouseY s.mouseX true with
          | error e => rw [hw] at h; cases h
          | ok wg => rw [hw] at h; cases h; rfl
        · cases h
          rfl
    · cases h
      rfl
  | other =>
    cases h
    rfl

theorem HandleInput_mode (pending : Option INPUT_RECORD) (s s' : State)
    (h : HandleInput pending s = .ok s') :
    s'.editorMode = (if isModeSwitch pending then s.editorMode.flip else s.editorMode) := by
  cases pending with
  | none =>
    cases h
    rfl
  | some e =>
    cases hm : s.editorMode with
    | tiles =>
      cases e with
      | MOUSE_EVENT p b =>
        rw [HandleInput_mouse_tiles s p b hm] at h
        have := HandleInputTileMode_mode _ { s with mouseX := p.X, mouseY := p.Y } s' hm h
        rw [this]
        show (if _ then s.editorMode.flip else s.editorMode) = _
        rw [hm]
      | KEY_EVENT d k =>
        have h' : HandleInputTileMode (.KEY_EVENT d k) s = .ok s' := by
          unfold HandleInput at h
          simp only [] at h
          rw [hm] at h
          exact h
        have := HandleInputTileMode_mode _ _ s' hm h'
        rw [this, hm]
      | other =>
        have h' : HandleInputTileMode .other s = .ok s' := by
          unfold HandleInput at h
          simp only [] at h
          rw [hm] at h
          exact h
        have := HandleInputTileMode_mode _ _ s' hm h'
        rw [this, hm]
    | walkability =>
      cases e with
      | MOUSE_EVENT p b =>
        rw [HandleInput_mouse_walkability s p b hm] at h
        have := HandleInputWalkabilityMode_mode _ { s with mouseX := p.X, mouseY := p.Y } s' hm h
        rw [this]
        show (if _ then s.editorMode.flip else s.editorMode) = _
        rw [hm]
      | KEY_EVENT d k =>
        have h' : HandleInputWalkabilityMode (.KEY_EVENT d k) s = .ok s' := by
          unfold HandleInput at h
          simp only [] at h
          rw [hm] at h
          exact h
        have := HandleInputWalkabilityMode_mode _ _ s' hm h'
        rw [this, hm]
      | other =>
        have h' : HandleInputWalkabilityMode .other s = .ok s' := by
          unfold HandleInput at h
          simp only [] at h
          rw [hm] at h
          exact h
        have := HandleInputWalkabilityMode_mode _ _ s' hm h'
        rw [this, hm]

theorem Draw_mode (s s' : State) (h : Draw s = .ok s') : s'.editorMode = s.editorMode := by
  unfold Draw at h
  cases hm : s.editorMode with
  | tiles =>
    rw [hm] at h
    simp only [] at h
    unfold DrawTileMode at h
    obtain ⟨sb, hs, _⟩ := copyMap_spec s
    rw [hs] at h
    simp only [bind, Except.bind] at h
    split at h
    · cases hw : sb.writeAt s.mouseY s.mouseX s.selection with
      | error e => rw [hw] at h; cases h
      | ok sb' => rw [hw] at h; cases h; exact hm
    · cases h
      exact hm
  | walkability =>
    rw [hm] at h
    simp only [] at h
    obtain ⟨sb, hs, _⟩ := DrawWalkabilityMode_spec s
    rw [hs] at h
    cases h
    exact hm

theorem frame_mode (pending : Option INPUT_RECORD) (s s' : State)
    (h : frame s pending = .ok s') :
    s'.editorMode = (if isModeSwitch pending then s.editorMode.flip else s.editorMode) := by
  unfold frame at h
  cases h1 : HandleInput pending s with
  | error e => rw [h1] at h; cases h
  | ok t =>
    rw [h1] at h
    rw [Draw_mode t s' h, HandleInput_mode pending s t h1]


theorem HandleInputTileMode_some (e : INPUT_RECORD) (s : State) (hc : cursorInScreen s) :
    ∃ s', HandleInputTileMode e s = .ok s' ∧ cursorInScreen s' := by
  cases e with
  | KEY_EVENT d k =>
    cases d with
    | false => exact ⟨s, rfl, hc⟩
    | true =>
      by_cases hk : k = VK_TAB
      · subst hk
        exact ⟨_, rfl, hc⟩
      · by_cases hS : k = VK_S
        · subst hS
          obtain ⟨b, hb, _⟩ := Save_spec s
          exact ⟨_, hb, hc⟩
        · refine ⟨s, ?_, hc⟩
          show (if k = VK_TAB then pure { s with editorMode := .walkability }
              else if k = VK_S then Save s else pure s) = Except.ok s
          rw [if_neg hk, if_neg hS]
          rfl
  | MOUSE_EVENT p b =>
    by_cases hb : b = FROM_LEFT_1ST_BUTTON_PRESSED
    · subst hb
      rw [HandleInputTileMode_left]
      split
      · obtain ⟨s', h⟩ := selectFromPalette_some s hc
        obtain ⟨_, hx, hy⟩ := selectFromPalette_frame s s' h
        refine ⟨s', h, ?_⟩
        unfold cursorInScreen
        rw [hx, hy]
        exact hc
      · rename_i hlt
        split
        · obtain ⟨mb, hw⟩ := Array2D.writeAt_some s.mapBuffer s.mouseY s.mouseX s.selection
            hc.2.2.1 (by
              have : ¬ (s.mouseY ≥ (25 : Nat)) := hlt
              show s.mouseY < (25 : Nat)
              omega) hc.1 hc.2.1
          refine ⟨{ s with mapBuffer := mb }, ?_, hc⟩
          rw [hw]
          rfl
        · exact ⟨s, rfl, hc⟩
    · by_cases hb2 : b = RIGHTMOST_BUTTON_PRESSED
      · subst hb2
        obtain ⟨sb, hs, _⟩ := SetPaletteAttributes_spec defaultPaletteAttributes
          { s with hasSelection := false }
        exact ⟨_, hs, hc⟩
      · refine ⟨s, ?_, hc⟩
        show (if b = FROM_LEFT_1ST_BUTTON_PRESSED then
              (if s.mouseY ≥ mapPanelHeight then selectFromPalette s
              else if s.hasSelection then
                (s.mapBuffer.writeAt s.mouseY s.mouseX s.selection) >>= fun mb =>
                  pure { s with mapBuffer := mb }
              else pure s)
            else if b = RIGHTMOST_BUTTON_PRESSED then
              SetPaletteAttributes defaultPaletteAttributes { s with hasSelection := false }
            else pure s) = Except.ok s
        rw [if_neg hb, if_neg hb2]
        rfl
  | other => exact ⟨s, rfl, hc⟩

theorem HandleInputWalkabilityMode_some (e : INPUT_RECORD) (s : State)
    (hc : cursorInScreen s) :
    ∃ s', HandleInputWalkabilityMode e s = .ok s' ∧ cursorInScreen s' := by
  cases e with
  | KEY_EVENT d k =>
    cases d with
    | false => exact ⟨s, rfl, hc⟩
    | true =>
      by_cases hk : k = VK_TAB
      · subst hk
        exact ⟨_, rfl, hc⟩
      · by_cases hS : k = VK_S
        · subst hS
          obtain ⟨b, hb, _⟩ := Save_spec s
          exact ⟨_, hb, hc⟩
        · refine ⟨s, ?_, hc⟩
          show (if k = VK_TAB then pure { s with editorMode := .tiles }
              else if k = VK_S then Save s else pure s) = Except.ok s
          rw [if_neg hk, if_neg hS]
          rfl
  | MOUSE_EVENT p b =>
    rw [HandleInputWalkabilityMode_mouse]
    split
    · rename_i hlt
      have hlt' : s.mouseY < (25 : Nat) := hlt
      split
      · obtain ⟨wg, hw⟩ := Array2D.writeAt_some s.walkabilityGrid s.mouseY s.mouseX false
          hc.2.2.1 hlt' hc.1 hc.2.1
        refine ⟨{ s with walkabilityGrid := wg }, ?_, hc⟩
        rw [hw]
        rfl
      · split
        · obtain ⟨wg, hw⟩ := Array2D.writeAt_some s.walkabilityGrid s.mouseY s.mouseX true
            hc.2.2.1 hlt' hc.1 hc.2.1
          refine ⟨{ s with walkabilityGrid := wg }, ?_, hc⟩
          rw [hw]
          rfl
        · exact ⟨s, rfl, hc⟩
    · exact ⟨s, rfl, hc⟩
  | other => exact ⟨s, rfl, hc⟩

theorem HandleInput_some (pending : Option INPUT_RECORD) (s : State) (hc : cursorInScreen s)
    (hp : inScreen pending) :
    ∃ s', HandleInput pending s = .ok s' ∧ cursorInScreen s' := by
  cases pending with
  | none => exact ⟨s, rfl, hc⟩
  | some e =>
    cases hm : s.editorMode with
    | tiles =>
      cases e with
      | MOUSE_EVENT p b =>
        rw [HandleInput_mouse_tiles s p b hm]
        exact HandleInputTileMode_some _ _ hp
      | KEY_EVENT d k =>
        obtain ⟨s', h, hc'⟩ := HandleInputTileMode_some (.KEY_EVENT d k) s hc
        refine ⟨s', ?_, hc'⟩
        unfold HandleInput
        simp only []
        rw [hm]
        exact h
      | other =>
        obtain ⟨s', h, hc'⟩ := HandleInputTileMode_some .other s hc
        refine ⟨s', ?_, hc'⟩
        unfold HandleInput
        simp only []
        rw [hm]
        exact h
    | walkability =>
      cases e with
      | MOUSE_EVENT p b =>
        rw [HandleInput_mouse_walkability s p b hm]
        exact HandleInputWalkabilityMode_some _ _ hp
      | KEY_EVENT d k =>
        obtain ⟨s', h, hc'⟩ := HandleInputWalkabilityMode_some (.KEY_EVENT d k) s hc
        refine ⟨s', ?_, hc'⟩
        unfold HandleInput
        simp only []
        rw [hm]
        exact h
      | other =>
        obtain ⟨s', h, hc'⟩ := HandleInputWalkabilityMode_some .other s hc
        refine ⟨s', ?_, hc'⟩
        unfold HandleInput
        simp only []
        rw [hm]
        exact h

theorem Draw_tiles (s : State) (hm : s.editorMode = .tiles) : Draw s = DrawTileMode s := by
  unfold Draw
  rw [hm]

theorem Draw_walkability (s : State) (hm : s.editorMode = .walkability) :
    Draw s = DrawWalkabilityMode s := by
  unfold Draw
  rw [hm]

theorem Draw_some (s : State) (hc : cursorInScreen s) :
    ∃ sb, Draw s = .ok { s with screenBuffer := sb } := by
  by_cases hm : s.editorMode = .tiles
  · obtain ⟨h1, h2, h3, _⟩ := hc
    obtain ⟨x, hx⟩ := Int.eq_ofNat_of_zero_le h1
    obtain ⟨y, hy⟩ := Int.eq_ofNat_of_zero_le h3
    have hx' : x < 80 := by
      rw [hx] at h2
      have : (x : Int) < (80 : Nat) := h2
      omega
    obtain ⟨sb, h, _⟩ := DrawTileMode_spec s x y hx hy hx'
    refine ⟨sb, ?_⟩
    rw [Draw_tiles s hm]
    exact h
  · have hm' : s.editorMode = .walkability := by
      cases h : s.editorMode with
      | tiles => exact absurd h hm
      | walkability => rfl
    obtain ⟨sb, h, _⟩ := DrawWalkabilityMode_spec s
    refine ⟨sb, ?_⟩
    rw [Draw_walkability s hm']
    exact h

theorem frame_some (pending : Option INPUT_RECORD) (s : State) (hc : cursorInScreen s)
    (hp : inScreen pending) :
    ∃ s', frame s pending = .ok s' ∧ cursorInScreen s' := by
  obtain ⟨t, ht, hct⟩ := HandleInput_some pending s hc hp
  obtain ⟨sb, hd⟩ := Draw_some t hct
  refine ⟨{ t with screenBuffer := sb }, ?_, hct⟩
  unfold frame
  rw [ht]
  exact hd

theorem run_nil (s : State) : run s [] = .ok s := rfl

theorem run_cons (s : State) (e : Option INPUT_RECORD) (q : List (Option INPUT_RECORD)) :
    run s (e :: q) = frame s e >>= fun t => run t q := rfl

theorem run_some (queue : List (Option INPUT_RECORD)) (s : State) (hc : cursorInScreen s)
    (hq : ∀ e ∈ queue, inScreen e) :
    ∃ s', run s queue = .ok s' ∧ cursorInScreen s' := by
  induction queue generalizing s with
  | nil => exact ⟨s, rfl, hc⟩
  | cons e q ih =>
    obtain ⟨t, ht, hct⟩ := frame_some e s hc (hq e (List.mem_cons_self e q))
    obtain ⟨s', hs', hcs'⟩ := ih t hct (fun e' he' => hq e' (List.mem_cons_of_mem e he'))
    refine ⟨s', ?_, hcs'⟩
    rw [run_cons, ht]
    exact hs'

theorem run_mode (queue : List (Option INPUT_RECORD)) (s s' : State)
    (h : run s queue = .ok s') :
    s'.editorMode =
      if Even (queue.countP isModeSwitch) then s.editorMode else s.editorMode.flip := by
  induction queue generalizing s with
  | nil =>
    cases h
    simp
  | cons e q ih =>
    rw [run_cons] at h
    cases ht : frame s e with
    | error err => rw [ht] at h; cases h
    | ok t =>
      rw [ht] at h
      have h1 := ih t h
      have h2 := frame_mode e s t ht
      rw [h1, h2, List.countP_cons]
      cases hsw : isModeSwitch e with
      | false => simp
      | true =>
        simp only [if_true]
        by_cases hev : Even (List.countP isModeSwitch q)
        · have : ¬ Even (List.countP isModeSwitch q + 1) := by
            rw [Nat.even_add_one]; exact not_not.mpr hev
          rw [if_pos hev, if_neg this]
        · have : Even (List.countP isModeSwitch q + 1) := by
            rw [Nat.even_add_one]; exact hev
          rw [if_neg hev, if_pos this]
          cases s.editorMode <;> rfl


theorem forLoop_preserve {σ β : Type} (f : σ → β) (n : Nat)
    (body : Nat → σ → Except Fault σ) (s s' : σ)
    (hb : ∀ i acc acc', body i acc = .ok acc' → f acc' = f acc)
    (h : forLoop n body s = .ok s') : f s' = f s := by
  induction n generalizing s' with
  | zero =>
    cases h
    rfl
  | succ k ih =>
    change (forLoop k body s >>= body k) = .ok s' at h
    cases hk : forLoop k body s with
    | error e => rw [hk] at h; cases h
    | ok t =>
      rw [hk] at h
      rw [hb k t s' h, ih t hk]

theorem InitWalkabilityGrid_frame (s s' : State) (h : InitWalkabilityGrid s = .ok s') :
    (s'.editorMode, s'.mouseX, s'.mouseY) = (s.editorMode, s.mouseX, s.mouseY) := by
  refine forLoop_preserve (fun t : State => (t.editorMode, t.mouseX, t.mouseY)) _ _ s s' ?_ h
  intro y acc acc' hy
  refine forLoop_preserve (fun t : State => (t.editorMode, t.mouseX, t.mouseY)) _ _ acc acc' ?_ hy
  intro x a a' hx
  simp only [bind, Except.bind] at hx
  split at hx
  · cases hx
  · cases hx
    rfl

theorem initPaletteCell_frame (y x : Nat) (s s' : State) (h : initPaletteCell y x s = .ok s') :
    (s'.editorMode, s'.mouseX, s'.mouseY) = (s.editorMode, s.mouseX, s.mouseY) := by
  unfold initPaletteCell at h
  simp only [bind, Except.bind] at h
  repeat' split at h
  all_goals first
    | (cases h; done)
    | (cases h; rfl)

theorem InitPalette_frame (s s' : State) (h : InitPalette s = .ok s') :
    (s'.editorMode, s'.mouseX, s'.mouseY) = (s.editorMode, s.mouseX, s.mouseY) := by
  unfold InitPalette at h
  have := forLoop_preserve (fun t : State => (t.editorMode, t.mouseX, t.mouseY)) _ _ _ s' ?_ h
  · exact this
  · intro y acc acc' hy
    refine forLoop_preserve (fun t : State => (t.editorMode, t.mouseX, t.mouseY)) _ _ acc acc' ?_ hy
    intro x a a' hx
    exact initPaletteCell_frame y x a a' hx

theorem Load_frame (s s' : State) (h : Load s = .ok s') :
    (s'.editorMode, s'.mouseX, s'.mouseY) = (s.editorMode, s.mouseX, s.mouseY) := by
  unfold Load at h
  split at h
  · cases h
  · simp only [bind, Except.bind] at h
    split at h
    · cases h
    · cases h
      rfl

theorem startup_frame (file : Option (List Nat)) (s : State) (h : startup file = .ok s) :
    s.editorMode = .tiles ∧ s.mouseX = 0 ∧ s.mouseY = 0 := by
  unfold startup at h
  cases h1 : InitWalkabilityGrid (initialState file) with
  | error e =>
    rw [h1] at h
    simp only [bind, Except.bind] at h
    cases h
  | ok t1 =>
    rw [h1] at h
    simp only [bind, Except.bind] at h
    cases h2 : InitPalette t1 with
    | error e =>
      rw [h2] at h
      cases h
    | ok t2 =>
      rw [h2] at h
      simp only [] at h
      have e3 := Load_frame t2 s h
      have e2 := InitPalette_frame t1 t2 h2
      have e1 := InitWalkabilityGrid_frame _ t1 h1
      rw [e2, e1] at e3
      simp only [Prod.mk.injEq] at e3
      exact e3


theorem InitWalkabilityGrid_some (s : State) : ∃ s', InitWalkabilityGrid s = .ok s' := by
  obtain ⟨s', h, _⟩ := forLoop_inv (fun _ (_ : State) => True) mapPanelHeight
    (fun y s =>
      forLoop mapPanelWidth (fun x s => do
        let wg ← s.walkabilityGrid.write y x true
        pure { s with walkabilityGrid := wg }) s) s trivial
    (by
      intro y acc hy _
      obtain ⟨t, ht, _⟩ := forLoop_inv (fun _ (_ : State) => True) mapPanelWidth
        (fun x s => do
          let wg ← s.walkabilityGrid.write y x true
          pure { s with walkabilityGrid := wg }) acc trivial
        (by
          intro x a hx _
          obtain ⟨wg, hw, _⟩ := Array2D.write_ok a.walkabilityGrid y x true hy hx
          refine ⟨{ a with walkabilityGrid := wg }, ?_, trivial⟩
          show (a.walkabilityGrid.write y x true >>= fun wg => pure _) = _
          rw [hw]
          rfl)
      exact ⟨t, ht, trivial⟩)
  exact ⟨s', h⟩

theorem initPaletteCell_some (y x : Nat) (hy : y < 7) (hx : x < 80) (s : State) :
    ∃ s', initPaletteCell y x s = .ok s' := by
  unfold initPaletteCell
  simp only []
  split
  · obtain ⟨sb1, h1, _⟩ := Array2D.modify_ok s.screenBuffer (mapPanelHeight + y) x
      (fun c => { c with AsciiChar := intToChar (x + y * palettePanelWidth) })
      (by show 25 + y < 32; omega) (by show x < 80; omega)
    obtain ⟨sb2, h2, _⟩ := Array2D.modify_ok sb1 (mapPanelHeight + y) x
      (fun c => { c with Attributes := defaultPaletteAttributes })
      (by show 25 + y < 32; omega) (by show x < 80; omega)
    refine ⟨{ s with screenBuffer := sb2 }, ?_⟩
    simp only [bind, Except.bind, h1, h2]
    rfl
  · split
    · obtain ⟨sb1, h1, _⟩ := Array2D.modify_ok s.screenBuffer (mapPanelHeight + y) x
        (fun c => { c with AsciiChar := 36 })
        (by show 25 + y < 32; omega) (by show x < 80; omega)
      obtain ⟨sb2, h2, _⟩ := Array2D.modify_ok sb1 (mapPanelHeight + y) x
        (fun c => { c with
          Attributes := charToWORD (intToChar ((x + y * palettePanelWidth) % 256)) })
        (by show 25 + y < 32; omega) (by show x < 80; omega)
      refine ⟨{ s with screenBuffer := sb2 }, ?_⟩
      simp only [bind, Except.bind, h1, h2]
      rfl
    · exact ⟨s, rfl⟩

theorem InitPalette_some (s : State) : ∃ s', InitPalette s = .ok s' := by
  unfold InitPalette
  obtain ⟨s', h, _⟩ := forLoop_inv (fun _ (_ : State) => True) palettePanelHeight
    (fun y s => forLoop palettePanelWidth (fun x s => initPaletteCell y x s) s)
    { s with selection := { s.selection with Attributes := defaultPaletteAttributes } } trivial
    (by
      intro y acc hy _
      obtain ⟨t, ht, _⟩ := forLoop_inv (fun _ (_ : State) => True) palettePanelWidth
        (fun x s => initPaletteCell y x s) acc trivial
        (by
          intro x a hx _
          obtain ⟨a', ha⟩ := initPaletteCell_some y x hy hx a
          exact ⟨a', ha, trivial⟩)
      exact ⟨t, ht, trivial⟩)
  exact ⟨s', h⟩

theorem InitWalkabilityGrid_file (s s' : State) (h : InitWalkabilityGrid s = .ok s') :
    s'.mapFile = s.mapFile := by
  refine forLoop_preserve (fun t : State => t.mapFile) _ _ s s' ?_ h
  intro y acc acc' hy
  refine forLoop_preserve (fun t : State => t.mapFile) _ _ acc acc' ?_ hy
  intro x a a' hx
  simp only [bind, Except.bind] at hx
  split at hx
  · cases hx
  · cases hx
    rfl

theorem InitPalette_file (s s' : State) (h : InitPalette s = .ok s') :
    s'.mapFile = s.mapFile := by
  unfold InitPalette at h
  have := forLoop_preserve (fun t : State => t.mapFile) _ _ _ s' ?_ h
  · exact this
  · intro y acc acc' hy
    refine forLoop_preserve (fun t : State => t.mapFile) _ _ acc acc' ?_ hy
    intro x a a' hx
    unfold initPaletteCell at hx
    simp only [bind, Except.bind] at hx
    repeat' split at hx
    all_goals first
      | (cases hx; done)
      | (cases hx; rfl)

theorem startup_some (data : List Nat) (hd : 6000 ≤ data.length) :
    ∃ s, startup (some data) = .ok s := by
  obtain ⟨t1, h1⟩ := InitWalkabilityGrid_some (initialState (some data))
  obtain ⟨t2, h2⟩ := InitPalette_some t1
  have hf : t2.mapFile = some data := by
    rw [InitPalette_file t1 t2 h2, InitWalkabilityGrid_file _ t1 h1]
    rfl
  obtain ⟨g, h3, _⟩ := Load_spec t2 data hf hd
  refine ⟨{ t2 with mapBuffer := g.1, walkabilityGrid := g.2 }, ?_⟩
  unfold startup
  rw [h1]
  simp only [bind, Except.bind]
  rw [h2]
  exact h3


/-! ## Coordinates and modes -/

/-- C6 (as amended): when the stored cursor lies on the screen and the head of the
input queue is no mouse event or a mouse event whose position lies on the screen
(`0 ≤ x < 80`, `0 ≤ y < 32`), handling it and rendering afterwards both succeed,
that is every array access they make is inside the array, and the stored cursor
still lies on the screen. -/
theorem C6_in_screen_input_stays_in_bounds (s : State) (pending : Option INPUT_RECORD)
    (hc : cursorInScreen s) (hp : inScreen pending) :
    ∃ s' s'', HandleInput pending s = .ok s' ∧ Draw s' = .ok s'' ∧ cursorInScreen s'' := by
  obtain ⟨s', h, hc'⟩ := HandleInput_some pending s hc hp
  obtain ⟨sb, hd⟩ := Draw_some s' hc'
  exact ⟨s', _, h, hd, hc'⟩

theorem cursorInScreen_initialState (file : Option (List Nat)) :
    cursorInScreen (initialState file) := by
  show (0 : Int) ≤ 0 ∧ (0 : Int) < (screenWidth : Nat) ∧ (0 : Int) ≤ 0 ∧
    (0 : Int) < (screenHeight : Nat)
  decide

/-- Witness of C6 (as amended): the blank editor and a left press at `(23, 28)`. -/
theorem C6_in_screen_input_stays_in_bounds_witness :
    (cursorInScreen (initialState none) ∧
      inScreen (some (.MOUSE_EVENT ⟨23, 28⟩ FROM_LEFT_1ST_BUTTON_PRESSED))) ∧
    ∃ s' s'', HandleInput (some (.MOUSE_EVENT ⟨23, 28⟩ FROM_LEFT_1ST_BUTTON_PRESSED))
        (initialState none) = .ok s' ∧ Draw s' = .ok s'' ∧ cursorInScreen s'' :=
  ⟨⟨cursorInScreen_initialState none, by decide, by decide, by decide, by decide⟩,
    C6_in_screen_input_stays_in_bounds (initialState none)
      (some (.MOUSE_EVENT ⟨23, 28⟩ FROM_LEFT_1ST_BUTTON_PRESSED))
      (cursorInScreen_initialState none) ⟨by decide, by decide, by decide, by decide⟩⟩

/-- C6 fails as stated: in Tile mode a left press at column 5, row 40 makes
`selectFromPalette` read `screenBuffer[40][5]`, and in Walkability mode a left press
at column 100, row 5 makes the handler write `walkabilityGrid[5][100]`; neither
position is checked against the dimensions first. -/
theorem C6_position_not_validated :
    HandleInput (some (.MOUSE_EVENT ⟨5, 40⟩ FROM_LEFT_1ST_BUTTON_PRESSED)) (initialState none)
      = .error .outOfBounds ∧
    HandleInput (some (.MOUSE_EVENT ⟨100, 5⟩ FROM_LEFT_1ST_BUTTON_PRESSED)) walkabilityState
      = .error .outOfBounds :=
  ⟨rfl, rfl⟩

/-- C9: the editor starts in Tile mode, before and after the start of `main`;
handling an input record, whenever it returns, leaves the mode flipped if the record
is a key-down of Tab and unchanged otherwise, and it returns for every record that
carries no position outside the screen; after any run of the main loop from the
start the mode is Tile exactly when the number of Tab key-downs handled is even,
and the run returns when no record carries a position outside the screen. -/
theorem C9_mode_state_machine (file : Option (List Nat)) (s : State)
    (pending : Option INPUT_RECORD) (queue : List (Option INPUT_RECORD)) :
    (initialState file).editorMode = .tiles ∧
    (∀ s0, startup file = .ok s0 → s0.editorMode = .tiles) ∧
    (∀ data, file = some data → mapPanelWidth * mapPanelHeight * 3 ≤ data.length →
      ∃ s0, startup file = .ok s0) ∧
    (∀ s', HandleInput pending s = .ok s' →
      s'.editorMode = if isModeSwitch pending then s.editorMode.flip else s.editorMode) ∧
    (cursorInScreen s → inScreen pending → ∃ s', HandleInput pending s = .ok s') ∧
    (∀ s0 s', startup file = .ok s0 → run s0 queue = .ok s' →
      (s'.editorMode = .tiles ↔ Even (queue.countP isModeSwitch))) ∧
    (∀ s0, startup file = .ok s0 → (∀ e ∈ queue, inScreen e) → ∃ s', run s0 queue = .ok s') := by
  refine ⟨rfl, fun s0 h => (startup_frame file s0 h).1, ?_, fun s' h => HandleInput_mode pending s s' h,
    ?_, ?_, ?_⟩
  · rintro data rfl hd
    exact startup_some data hd
  · intro hc hp
    obtain ⟨s', h, _⟩ := HandleInput_some pending s hc hp
    exact ⟨s', h⟩
  · intro s0 s' h0 hr
    have hm := run_mode queue s0 s' hr
    rw [(startup_frame file s0 h0).1] at hm
    rw [hm]
    by_cases hev : Even (List.countP isModeSwitch queue)
    · rw [if_pos hev]
      exact ⟨fun _ => hev, fun _ => rfl⟩
    · rw [if_neg hev]
      exact ⟨fun h => (by cases h), fun h => absurd h hev⟩
  · intro s0 h0 hq
    obtain ⟨hm, hx, hy⟩ := startup_frame file s0 h0
    have hc : cursorInScreen s0 := by
      unfold cursorInScreen
      rw [hx, hy]
      exact ⟨by decide, by decide, by decide, by decide⟩
    obtain ⟨s', h, _⟩ := run_some queue s0 hc hq
    exact ⟨s', h⟩

theorem sampleQueue_inScreen : ∀ e ∈ sampleQueue, inScreen e := by
  intro e he
  simp only [sampleQueue, List.mem_cons, List.mem_singleton, List.not_mem_nil, or_false] at he
  rcases he with rfl | rfl | rfl | rfl
  · trivial
  · trivial
  · trivial
  · exact ⟨by decide, by decide, by decide, by decide⟩

/-- Witness of C9: from the start on the file `fileAttr200` the run over `sampleQueue`,
which holds two Tab key-downs, returns in Tile mode. -/
theorem C9_mode_state_machine_witness :
    ∃ s0 s', startup (some fileAttr200) = .ok s0 ∧ s0.editorMode = .tiles ∧
      run s0 sampleQueue = .ok s' ∧ s'.editorMode = .tiles ∧
      sampleQueue.countP isModeSwitch = 2 := by
  obtain ⟨_, h1, h2, _, _, h5, h6⟩ := C9_mode_state_machine (some fileAttr200)
    (initialState none) none sampleQueue
  obtain ⟨s0, hs0⟩ := h2 fileAttr200 rfl (le_of_eq fileAttr200_length.symm)
  obtain ⟨s', hs'⟩ := h6 s0 hs0 sampleQueue_inScreen
  have hc : sampleQueue.countP isModeSwitch = 2 := by decide
  refine ⟨s0, s', hs0, h1 s0 hs0, hs', ?_, hc⟩
  rw [h5 s0 s' hs0 hs', hc]
  decide


/-! ## What one turn of the loop changes -/

theorem Array2D.readAt_inv {α : Type} [Inhabited α] {rows cols : Nat} (a : Array2D α rows cols)
    (y x : Int) (v : α) (h : a.readAt y x = .ok v) :
    ∃ r c, y = (r : Nat) ∧ x = (c : Nat) ∧ r < rows ∧ c < cols ∧ v = a.cell r c := by
  unfold Array2D.readAt at h
  split at h
  · rename_i h0
    unfold Array2D.read at h
    split at h
    · rename_i h1
      cases h
      exact ⟨y.toNat, x.toNat, (Int.toNat_of_nonneg h0.1).symm, (Int.toNat_of_nonneg h0.2).symm,
        h1.1, h1.2, rfl⟩
    · cases h
  · cases h

theorem Array2D.writeAt_inv {α : Type} [Inhabited α] {rows cols : Nat} (a a' : Array2D α rows cols)
    (y x : Int) (v : α) (h : a.writeAt y x v = .ok a') :
    ∃ r c, y = (r : Nat) ∧ x = (c : Nat) ∧ r < rows ∧ c < cols ∧
      ∀ r' c', a'.cell r' c' = if r' = r ∧ c' = c then v else a.cell r' c' := by
  unfold Array2D.writeAt at h
  split at h
  · rename_i h0
    by_cases h1 : y.toNat < rows ∧ x.toNat < cols
    · obtain ⟨a'', hw, hc⟩ := Array2D.write_ok a y.toNat x.toNat v h1.1 h1.2
      rw [hw] at h
      cases h
      exact ⟨y.toNat, x.toNat, (Int.toNat_of_nonneg h0.1).symm, (Int.toNat_of_nonneg h0.2).symm,
        h1.1, h1.2, hc⟩
    · unfold Array2D.write Array2D.modify at h
      rw [if_neg h1] at h
      cases h
  · cases h

theorem InputEffect_refl (pending : Option INPUT_RECORD) (s : State) : InputEffect pending s s :=
  ⟨fun _ => rfl, fun _ => rfl, fun _ => rfl, fun _ _ => Or.inl rfl, Or.inl rfl,
    fun _ _ => ⟨rfl, Or.inl rfl⟩⟩

theorem selectFromPalette_effect (pending : Option INPUT_RECORD) (s s' : State)
    (hy : s.mouseY ≥ (mapPanelHeight : Nat)) (h : selectFromPalette s = .ok s') :
    InputEffect pending s s' := by
  unfold selectFromPalette at h
  simp only [] at h
  cases hr : s.screenBuffer.readAt s.mouseY s.mouseX with
  | error e => simp [hr, bind, Except.bind] at h
  | ok v =>
    obtain ⟨r, c, hY, hX, hr', hc', hv⟩ := Array2D.readAt_inv _ _ _ _ hr
    have hr1 : r < 32 := hr'
    have hc1 : c < 80 := hc'
    have hr2 : 25 ≤ r := by
      rw [hY] at hy
      have : (r : Int) ≥ (25 : Nat) := hy
      omega
    simp only [hr, bind, Except.bind] at h
    split at h
    · obtain ⟨sb, hs, hcell⟩ := SetPaletteAttributes_spec v.Attributes
        { s with hasSelection := true, selection := { s.selection with Attributes := v.Attributes } }
      rw [hs] at h
      cases h
      refine ⟨fun _ => rfl, fun _ => rfl, fun _ => rfl, fun _ _ => Or.inl rfl, ?_, ?_⟩
      · right
        refine ⟨r, c, hr2, hr1, hc1, Or.inr ?_⟩
        rw [hv]
      · intro r0 c0
        show (sb.cell r0 c0).AsciiChar = _ ∧ ((sb.cell r0 c0).Attributes = _ ∨ _)
        rw [hcell r0 c0]
        by_cases hb : 25 ≤ r0 ∧ c0 < 80 ∧ c0 + 80 * (r0 - 25) < 256
        · rw [if_pos hb]
          exact ⟨rfl, Or.inr ⟨hb.1, hb.2.1, hb.2.2, Or.inl rfl⟩⟩
        · rw [if_neg hb]
          exact ⟨rfl, Or.inl rfl⟩
    · cases h
      refine ⟨fun _ => rfl, fun _ => rfl, fun _ => rfl, fun _ _ => Or.inl rfl, ?_,
        fun _ _ => ⟨rfl, Or.inl rfl⟩⟩
      right
      refine ⟨r, c, hr2, hr1, hc1, Or.inl ?_⟩
      rw [hv]

theorem HandleInputTileMode_effect (e : INPUT_RECORD) (s s' : State)
    (hm : s.editorMode = .tiles) (h : HandleInputTileMode e s = .ok s') :
    InputEffect (some e) s s' := by
  cases e with
  | KEY_EVENT d k =>
    cases d with
    | false =>
      cases h
      exact InputEffect_refl _ s
    | true =>
      by_cases hk : k = VK_TAB
      · subst hk
        cases h
        exact ⟨fun _ => rfl, fun _ => rfl, fun _ => rfl, fun _ _ => Or.inl rfl, Or.inl rfl,
          fun _ _ => ⟨rfl, Or.inl rfl⟩⟩
      · by_cases hS : k = VK_S
        · subst hS
          obtain ⟨b, hb, _⟩ := Save_spec s
          have h' : Save s = .ok s' := h
          rw [hb] at h'
          cases h'
          exact ⟨fun _ => rfl, fun _ => rfl, fun _ => rfl, fun _ _ => Or.inl rfl, Or.inl rfl,
            fun _ _ => ⟨rfl, Or.inl rfl⟩⟩
        · have h' : (if k = VK_TAB then pure { s with editorMode := .walkability }
              else if k = VK_S then Save s else pure s) = Except.ok s' := h
          rw [if_neg hk, if_neg hS] at h'
          cases h'
          exact InputEffect_refl _ s
  | MOUSE_EVENT p b =>
    by_cases hb : b = FROM_LEFT_1ST_BUTTON_PRESSED
    · subst hb
      rw [HandleInputTileMode_left] at h
      split at h
      · rename_i hy
        exact selectFromPalette_effect _ s s' hy h
      · split at h
        · cases hw : s.mapBuffer.writeAt s.mouseY s.mouseX s.selection with
          | error e => rw [hw] at h; cases h
          | ok mb =>
            rw [hw] at h
            cases h
            obtain ⟨r, c, _, _, _, _, hc⟩ := Array2D.writeAt_inv _ _ _ _ _ hw
            refine ⟨fun _ => rfl, ?_, ?_, ?_, Or.inl rfl, fun _ _ => ⟨rfl, Or.inl rfl⟩⟩
            · intro hw'
              rw [hm] at hw'
              cases hw'
            · intro hl
              cases hl
            · intro r0 c0
              show mb.cell r0 c0 = _ ∨ mb.cell r0 c0 = _
              rw [hc r0 c0]
              by_cases h1 : r0 = r ∧ c0 = c
              · rw [if_pos h1]
                exact Or.inr rfl
              · rw [if_neg h1]
                exact Or.inl rfl
        · cases h
          exact InputEffect_refl _ s
    · by_cases hb2 : b = RIGHTMOST_BUTTON_PRESSED
      · subst hb2
        obtain ⟨sb, hs, hcell⟩ := SetPaletteAttributes_spec defaultPaletteAttributes
          { s with hasSelection := false }
        have h' : SetPaletteAttributes defaultPaletteAttributes { s with hasSelection := false }
            = .ok s' := h
        rw [hs] at h'
        cases h'
        refine ⟨fun _ => rfl, fun _ => rfl, fun _ => rfl, fun _ _ => Or.inl rfl, Or.inl rfl, ?_⟩
        intro r0 c0
        show (sb.cell r0 c0).AsciiChar = _ ∧ ((sb.cell r0 c0).Attributes = _ ∨ _)
        rw [hcell r0 c0]
        by_cases hb : 25 ≤ r0 ∧ c0 < 80 ∧ c0 + 80 * (r0 - 25) < 256
        · rw [if_pos hb]
          exact ⟨rfl, Or.inr ⟨hb.1, hb.2.1, hb.2.2, Or.inr rfl⟩⟩
        · rw [if_neg hb]
          exact ⟨rfl, Or.inl rfl⟩
      · have h' : (if b = FROM_LEFT_1ST_BUTTON_PRESSED then
              (if s.mouseY ≥ mapPanelHeight then selectFromPalette s
              else if s.hasSelection then
                (s.mapBuffer.writeAt s.mouseY s.mouseX s.selection) >>= fun mb =>
                  pure { s with mapBuffer := mb }
              else pure s)
            else if b = RIGHTMOST_BUTTON_PRESSED then
              SetPaletteAttributes defaultPaletteAttributes { s with hasSelection := false }
            else pure s) = Except.ok s' := h
        rw [if_neg hb, if_neg hb2] at h'
        cases h'
        exact InputEffect_refl _ s
  | other =>
    cases h
    exact InputEffect_refl _ s

theorem HandleInputWalkabilityMode_effect (e : INPUT_RECORD) (s s' : State)
    (hm : s.editorMode = .walkability) (h : HandleInputWalkabilityMode e s = .ok s') :
    InputEffect (some e) s s' := by
  have hno : ∀ wg : Array2D Bool mapPanelHeight mapPanelWidth,
      InputEffect (some e) s { s with walkabilityGrid := wg } := fun wg =>
    ⟨fun ht => (by rw [hm] at ht; cases ht), fun _ => rfl, fun _ => rfl, fun _ _ => Or.inl rfl,
      Or.inl rfl, fun _ _ => ⟨rfl, Or.inl rfl⟩⟩
  cases e with
  | KEY_EVENT d k =>
    cases d with
    | false =>
      cases h
      exact InputEffect_refl _ s
    | true =>
      by_cases hk : k = VK_TAB
      · subst hk
        cases h
        exact ⟨fun _ => rfl, fun _ => rfl, fun _ => rfl, fun _ _ => Or.inl rfl, Or.inl rfl,
          fun _ _ => ⟨rfl, Or.inl rfl⟩⟩
      · by_cases hS : k = VK_S
        · subst hS
          obtain ⟨b, hb, _⟩ := Save_spec s
          have h' : Save s = .ok s' := h
          rw [hb] at h'
          cases h'
          exact ⟨fun _ => rfl, fun _ => rfl, fun _ => rfl, fun _ _ => Or.inl rfl, Or.inl rfl,
            fun _ _ => ⟨rfl, Or.inl rfl⟩⟩
        · have h' : (if k = VK_TAB then pure { s with editorMode := .tiles }
              else if k = VK_S then Save s else pure s) = Except.ok s' := h
          rw [if_neg hk, if_neg hS] at h'
          cases h'
          exact InputEffect_refl _ s
  | MOUSE_EVENT p b =>
    rw [HandleInputWalkabilityMode_mouse] at h
    split at h
    · split at h
      · cases hw : s.walkabilityGrid.writeAt s.mouseY s.mouseX false with
        | error e => rw [hw] at h; cases h
        | ok wg => rw [hw] at h; cases h; exact hno wg
      · split at h
        · cases hw : s.walkabilityGrid.writeAt s.mouseY s.mouseX true with
          | error e => rw [hw] at h; cases h
          | ok wg => rw [hw] at h; cases h; exact hno wg
        · cases h
          exact InputEffect_refl _ s
    · cases h
      exact InputEffect_refl _ s
  | other =>
    cases h
    exact InputEffect_refl _ s

theorem InputEffect_cursor (pending : Option INPUT_RECORD) (s s' : State) (mx my : Int)
    (h : InputEffect pending { s with mouseX := mx, mouseY := my } s') :
    InputEffect pending s s' := h

theorem HandleInput_effect (pending : Option INPUT_RECORD) (s s' : State)
    (h : HandleInput pending s = .ok s') : InputEffect pending s s' := by
  cases pending with
  | none =>
    cases h
    exact InputEffect_refl _ s
  | some e =>
    cases hm : s.editorMode with
    | tiles =>
      cases e with
      | MOUSE_EVENT p b =>
        rw [HandleInput_mouse_tiles s p b hm] at h
        exact InputEffect_cursor _ s s' p.X p.Y
          (HandleInputTileMode_effect _ { s with mouseX := p.X, mouseY := p.Y } s' hm h)
      | KEY_EVENT d k =>
        have h' : HandleInputTileMode (.KEY_EVENT d k) s = .ok s' := by
          unfold HandleInput at h
          simp only [] at h
          rw [hm] at h
          exact h
        exact HandleInputTileMode_effect _ s s' hm h'
      | other =>
        have h' : HandleInputTileMode .other s = .ok s' := by
          unfold HandleInput at h
          simp only [] at h
          rw [hm] at h
          exact h
        exact HandleInputTileMode_effect _ s s' hm h'
    | walkability =>
      cases e with
      | MOUSE_EVENT p b =>
        rw [HandleInput_mouse_walkability s p b hm] at h
        exact InputEffect_cursor _ s s' p.X p.Y
          (HandleInputWalkabilityMode_effect _ { s with mouseX := p.X, mouseY := p.Y } s' hm h)
      | KEY_EVENT d k =>
        have h' : HandleInputWalkabilityMode (.KEY_EVENT d k) s = .ok s' := by
          unfold HandleInput at h
          simp only [] at h
          rw [hm] at h
          exact h
        exact HandleInputWalkabilityMode_effect _ s s' hm h'
      | other =>
        have h' : HandleInputWalkabilityMode .other s = .ok s' := by
          unfold HandleInput at h
          simp only [] at h
          rw [hm] at h
          exact h
        exact HandleInputWalkabilityMode_effect _ s s' hm h'

theorem Draw_effect (s s' : State) (h : Draw s = .ok s') :
    ∃ sb, s' = { s with screenBuffer := sb } ∧
      ∀ r c, 25 ≤ r → sb.cell r c = s.screenBuffer.cell r c := by
  by_cases hm : s.editorMode = .tiles
  · rw [Draw_tiles s hm] at h
    unfold DrawTileMode at h
    obtain ⟨sb, hs, hc⟩ := copyMap_spec s
    rw [hs] at h
    simp only [bind, Except.bind] at h
    have hsb : ∀ r c, 25 ≤ r → sb.cell r c = s.screenBuffer.cell r c := by
      intro r c hr
      rw [hc r c]
      have : ¬ (r < 25 ∧ c < 80) := by omega
      rw [if_neg this]
    split at h
    · rename_i hov
      cases hw : sb.writeAt s.mouseY s.mouseX s.selection with
      | error e => rw [hw] at h; cases h
      | ok sb' =>
        rw [hw] at h
        cases h
        obtain ⟨r0, c0, hY, _, _, _, hc'⟩ := Array2D.writeAt_inv _ _ _ _ _ hw
        refine ⟨sb', rfl, ?_⟩
        intro r c hr
        rw [hc' r c]
        have hlt : r0 < 25 := by
          have := hov.2
          rw [hY] at this
          have h' : (r0 : Int) < (25 : Nat) := this
          omega
        have : ¬ (r = r0 ∧ c = c0) := by omega
        rw [if_neg this]
        exact hsb r c hr
    · cases h
      exact ⟨sb, rfl, hsb⟩
  · have hm' : s.editorMode = .walkability := by
      cases h' : s.editorMode with
      | tiles => exact absurd h' hm
      | walkability => rfl
    rw [Draw_walkability s hm'] at h
    obtain ⟨sb, hs, hc⟩ := DrawWalkabilityMode_spec s
    rw [hs] at h
    cases h
    refine ⟨sb, rfl, ?_⟩
    intro r c hr
    rw [hc r c]
    have : ¬ (r < 25 ∧ c < 80) := by omega
    rw [if_neg this]

theorem frame_effect (pending : Option INPUT_RECORD) (s s' : State)
    (h : frame s pending = .ok s') :
    ∃ t sb, HandleInput pending s = .ok t ∧ InputEffect pending s t ∧
      s' = { t with screenBuffer := sb } ∧
      ∀ r c, 25 ≤ r → sb.cell r c = t.screenBuffer.cell r c := by
  unfold frame at h
  cases h1 : HandleInput pending s with
  | error e => rw [h1] at h; cases h
  | ok t =>
    rw [h1] at h
    obtain ⟨sb, hs, hc⟩ := Draw_effect t s' h
    exact ⟨t, sb, rfl, HandleInput_effect pending s t h1, hs, hc⟩

theorem initPaletteCell_spec (y x : Nat) (hy : y < 7) (hx : x < 80) (s : State) :
    ∃ sb, initPaletteCell y x s = .ok { s with screenBuffer := sb } ∧
      ∀ r c, sb.cell r c =
        if r = 25 + y ∧ c = x then paletteCell (s.screenBuffer.cell r c) (x + y * 80)
        else s.screenBuffer.cell r c := by
  unfold initPaletteCell
  simp only []
  by_cases h1 : x + y * palettePanelWidth < 256
  · rw [if_pos h1]
    obtain ⟨sb1, e1, c1⟩ := Array2D.modify_ok s.screenBuffer (mapPanelHeight + y) x
      (fun c => { c with AsciiChar := intToChar (x + y * palettePanelWidth) })
      (by show 25 + y < 32; omega) (by show x < 80; omega)
    obtain ⟨sb2, e2, c2⟩ := Array2D.modify_ok sb1 (mapPanelHeight + y) x
      (fun c => { c with Attributes := defaultPaletteAttributes })
      (by show 25 + y < 32; omega) (by show x < 80; omega)
    refine ⟨sb2, ?_, ?_⟩
    · simp only [bind, Except.bind, e1, e2]
      rfl
    · intro r c
      rw [c2 r c, c1 r c]
      by_cases hrc : r = mapPanelHeight + y ∧ c = x
      · have hrc' : r = 25 + y ∧ c = x := hrc
        have h1' : x + y * 80 < 256 := h1
        rw [if_pos hrc, if_pos hrc, if_pos hrc']
        unfold paletteCell
        rw [if_pos h1']
      · have hrc' : ¬ (r = 25 + y ∧ c = x) := hrc
        rw [if_neg hrc, if_neg hrc, if_neg hrc']
  · rw [if_neg h1]
    have h1' : ¬ (x + y * 80 < 256) := h1
    by_cases h2 : x + y * palettePanelWidth < 512
    · rw [if_pos h2]
      obtain ⟨sb1, e1, c1⟩ := Array2D.modify_ok s.screenBuffer (mapPanelHeight + y) x
        (fun c => { c with AsciiChar := 36 })
        (by show 25 + y < 32; omega) (by show x < 80; omega)
      obtain ⟨sb2, e2, c2⟩ := Array2D.modify_ok sb1 (mapPanelHeight + y) x
        (fun c => { c with
          Attributes := charToWORD (intToChar ((x + y * palettePanelWidth) % 256)) })
        (by show 25 + y < 32; omega) (by show x < 80; omega)
      refine ⟨sb2, ?_, ?_⟩
      · simp only [bind, Except.bind, e1, e2]
        rfl
      · intro r c
        rw [c2 r c, c1 r c]
        by_cases hrc : r = mapPanelHeight + y ∧ c = x
        · have hrc' : r = 25 + y ∧ c = x := hrc
          have h2' : x + y * 80 < 512 := h2
          rw [if_pos hrc, if_pos hrc, if_pos hrc']
          unfold paletteCell
          rw [if_neg h1', if_pos h2']
        · have hrc' : ¬ (r = 25 + y ∧ c = x) := hrc
          rw [if_neg hrc, if_neg hrc, if_neg hrc']
    · rw [if_neg h2]
      have h2' : ¬ (x + y * 80 < 512) := h2
      refine ⟨s.screenBuffer, rfl, ?_⟩
      intro r c
      by_cases hrc' : r = 25 + y ∧ c = x
      · rw [if_pos hrc']
        unfold paletteCell
        rw [if_neg h1', if_neg h2']
      · rw [if_neg hrc']

theorem InitPalette_spec (s : State) :
    ∃ sb, InitPalette s = .ok { s with
        selection := { s.selection with Attributes := defaultPaletteAttributes }
        screenBuffer := sb } ∧
      ∀ r c, sb.cell r c =
        if 25 ≤ r ∧ r < 32 ∧ c < 80 then paletteCell (s.screenBuffer.cell r c) (c + 80 * (r - 25))
        else s.screenBuffer.cell r c := by
  unfold InitPalette
  obtain ⟨t, ht, sb, hsb, hc⟩ := forLoop_inv
    (fun n (t : State) => ∃ sb, t = { s with
        selection := { s.selection with Attributes := defaultPaletteAttributes }
        screenBuffer := sb } ∧
      ∀ r c, sb.cell r c =
        if 25 ≤ r ∧ r < 25 + n ∧ c < 80 then
          paletteCell (s.screenBuffer.cell r c) (c + 80 * (r - 25))
        else s.screenBuffer.cell r c)
    palettePanelHeight
    (fun y s => forLoop palettePanelWidth (fun x s => initPaletteCell y x s) s)
    { s with selection := { s.selection with Attributes := defaultPaletteAttributes } }
    ⟨s.screenBuffer, rfl, fun r c => by
      have : ¬ (25 ≤ r ∧ r < 25 + 0 ∧ c < 80) := by omega
      rw [if_neg this]⟩
    (by
      rintro y acc hy ⟨sb, rfl, hc⟩
      have hy' : y < 7 := hy
      obtain ⟨t, ht, sb', hsb', hc'⟩ := forLoop_inv
        (fun n (t : State) => ∃ sb', t = { s with
            selection := { s.selection with Attributes := defaultPaletteAttributes }
            screenBuffer := sb' } ∧
          ∀ r c, sb'.cell r c =
            if (25 ≤ r ∧ r < 25 + y ∧ c < 80) ∨ (r = 25 + y ∧ c < n) then
              paletteCell (s.screenBuffer.cell r c) (c + 80 * (r - 25))
            else s.screenBuffer.cell r c)
        palettePanelWidth (fun x s => initPaletteCell y x s)
        { s with
          selection := { s.selection with Attributes := defaultPaletteAttributes }
          screenBuffer := sb }
        ⟨sb, rfl, fun r c => by
          rw [hc r c]
          by_cases h : 25 ≤ r ∧ r < 25 + y ∧ c < 80
          · rw [if_pos h, if_pos (Or.inl h)]
          · have : ¬ ((25 ≤ r ∧ r < 25 + y ∧ c < 80) ∨ (r = 25 + y ∧ c < 0)) := by omega
            rw [if_neg h, if_neg this]⟩
        (by
          rintro x acc hx ⟨sb1, rfl, hc1⟩
          have hx' : x < 80 := hx
          obtain ⟨sb2, e2, c2⟩ := initPaletteCell_spec y x hy' hx'
            { s with
              selection := { s.selection with Attributes := defaultPaletteAttributes }
              screenBuffer := sb1 }
          refine ⟨_, e2, sb2, rfl, ?_⟩
          intro r c
          rw [c2 r c]
          show (if r = 25 + y ∧ c = x then paletteCell (sb1.cell r c) (x + y * 80)
            else sb1.cell r c) = _
          rw [hc1 r c]
          by_cases h1 : r = 25 + y ∧ c = x
          · have h2 : (25 ≤ r ∧ r < 25 + y ∧ c < 80) ∨ (r = 25 + y ∧ c < x + 1) := by omega
            have h3 : ¬ ((25 ≤ r ∧ r < 25 + y ∧ c < 80) ∨ (r = 25 + y ∧ c < x)) := by omega
            have h4 : x + y * 80 = c + 80 * (r - 25) := by omega
            rw [if_pos h1, if_pos h2, if_neg h3, h4]
          · rw [if_neg h1]
            by_cases h3 : (25 ≤ r ∧ r < 25 + y ∧ c < 80) ∨ (r = 25 + y ∧ c < x)
            · have h2 : (25 ≤ r ∧ r < 25 + y ∧ c < 80) ∨ (r = 25 + y ∧ c < x + 1) := by omega
              rw [if_pos h3, if_pos h2]
            · have h2 : ¬ ((25 ≤ r ∧ r < 25 + y ∧ c < 80) ∨ (r = 25 + y ∧ c < x + 1)) := by
                omega
              rw [if_neg h3, if_neg h2])
      subst hsb'
      refine ⟨_, ht, sb', rfl, ?_⟩
      intro r c
      rw [hc' r c]
      by_cases h3 : (25 ≤ r ∧ r < 25 + y ∧ c < 80) ∨ (r = 25 + y ∧ c < palettePanelWidth)
      · have h3' : (25 ≤ r ∧ r < 25 + y ∧ c < 80) ∨ (r = 25 + y ∧ c < 80) := h3
        have h2 : 25 ≤ r ∧ r < 25 + (y + 1) ∧ c < 80 := by omega
        rw [if_pos h3, if_pos h2]
      · have h3' : ¬ ((25 ≤ r ∧ r < 25 + y ∧ c < 80) ∨ (r = 25 + y ∧ c < 80)) := h3
        have h2 : ¬ (25 ≤ r ∧ r < 25 + (y + 1) ∧ c < 80) := by omega
        rw [if_neg h3, if_neg h2])
  subst hsb
  refine ⟨sb, ht, ?_⟩
  intro r c
  rw [hc r c]
  by_cases h : 25 ≤ r ∧ r < 25 + palettePanelHeight ∧ c < 80
  · have h' : 25 ≤ r ∧ r < 32 ∧ c < 80 := h
    rw [if_pos h, if_pos h']
  · have h' : ¬ (25 ≤ r ∧ r < 32 ∧ c < 80) := h
    rw [if_neg h, if_neg h']

/-! ## States the editor can reach -/

theorem wordOK_charToWORD (b : Nat) : wordOK (charToWORD b) := by
  unfold wordOK charToWORD
  split <;> omega

theorem wordOK_default : wordOK defaultPaletteAttributes := Or.inl (by decide)

theorem paletteStable_input (pending : Option INPUT_RECORD) (s t : State)
    (h : InputEffect pending s t) (hp : paletteStable s) : paletteStable t := by
  intro r c hr hr' hc
  obtain ⟨hg, ha⟩ := hp r c hr hr' hc
  obtain ⟨_, _, _, _, _, hscr⟩ := h
  obtain ⟨h1, h2⟩ := hscr r c
  refine ⟨by rw [h1]; exact hg, fun hi => ?_⟩
  rcases h2 with h2 | h2
  · rw [h2]
    exact ha hi
  · omega

theorem attributesOK_input (pending : Option INPUT_RECORD) (s t : State)
    (h : InputEffect pending s t) (ha : attributesOK s) : attributesOK t := by
  obtain ⟨hmap, hsel, hscr⟩ := ha
  obtain ⟨_, _, _, emap, esel, escr⟩ := h
  have hsel' : wordOK t.selection.Attributes := by
    rcases esel with e | ⟨r, c, hr, hr', hc, e | e⟩
    · rw [e]; exact hsel
    · rw [e]; exact hsel
    · rw [e]; exact hscr r c hr hr' hc
  refine ⟨?_, hsel', ?_⟩
  · intro r c hr hc
    rcases emap r c with e | e
    · rw [e]; exact hmap r c hr hc
    · rw [e]; exact hsel
  · intro r c hr hr' hc
    rcases (escr r c).2 with e | ⟨_, _, _, e | e⟩
    · rw [e]; exact hscr r c hr hr' hc
    · rw [e]; exact hsel'
    · rw [e]; exact wordOK_default

theorem frame_invariants (pending : Option INPUT_RECORD) (s s' : State)
    (h : frame s pending = .ok s') (hp : paletteStable s) (ha : attributesOK s) :
    paletteStable s' ∧ attributesOK s' := by
  obtain ⟨t, sb, _, he, rfl, hsb⟩ := frame_effect pending s s' h
  have hp' := paletteStable_input pending s t he hp
  have ha' := attributesOK_input pending s t he ha
  refine ⟨?_, ha'.1, ha'.2.1, ?_⟩
  · intro r c hr hr' hc
    show (sb.cell r c).AsciiChar = _ ∧ (_ → (sb.cell r c).Attributes = _)
    rw [hsb r c hr]
    exact hp' r c hr hr' hc
  · intro r c hr hr' hc
    show wordOK (sb.cell r c).Attributes
    rw [hsb r c hr]
    exact ha'.2.2 r c hr hr' hc

theorem run_invariants (queue : List (Option INPUT_RECORD)) (s s' : State)
    (h : run s queue = .ok s') (hp : paletteStable s) (ha : attributesOK s) :
    paletteStable s' ∧ attributesOK s' := by
  induction queue generalizing s with
  | nil =>
    cases h
    exact ⟨hp, ha⟩
  | cons e q ih =>
    rw [run_cons] at h
    cases ht : frame s e with
    | error err => rw [ht] at h; cases h
    | ok t =>
      rw [ht] at h
      obtain ⟨hp', ha'⟩ := frame_invariants e s t ht hp ha
      exact ih t h hp' ha'

theorem InitWalkabilityGrid_keeps (s s' : State) (h : InitWalkabilityGrid s = .ok s') :
    (s'.mapBuffer, s'.screenBuffer, s'.selection, s'.hasSelection) =
      (s.mapBuffer, s.screenBuffer, s.selection, s.hasSelection) := by
  refine forLoop_preserve
    (fun t : State => (t.mapBuffer, t.screenBuffer, t.selection, t.hasSelection)) _ _ s s' ?_ h
  intro y acc acc' hy
  refine forLoop_preserve
    (fun t : State => (t.mapBuffer, t.screenBuffer, t.selection, t.hasSelection)) _ _ acc acc' ?_ hy
  intro x a a' hx
  simp only [bind, Except.bind] at hx
  split at hx
  · cases hx
  · cases hx
    rfl

theorem Load_inv (s s' : State) (h : Load s = .ok s') :
    ∃ data g, s.mapFile = some data ∧ 6000 ≤ data.length ∧
      s' = { s with mapBuffer := g.1, walkabilityGrid := g.2 } ∧
      ∀ y x, y < 25 → x < 80 → decodedOK data g y x := by
  cases hf : s.mapFile with
  | none =>
    unfold Load at h
    rw [hf] at h
    cases h
  | some data =>
    by_cases hd : 6000 ≤ data.length
    · obtain ⟨g, hg, hc⟩ := Load_spec s data hf hd
      rw [hg] at h
      cases h
      exact ⟨data, g, rfl, hd, by rw [hf], hc⟩
    · rw [Load_short s data hf (by omega)] at h
      cases h

theorem paletteCell_zero_wordOK (i : Nat) : wordOK (paletteCell ⟨0, 0⟩ i).Attributes := by
  unfold paletteCell
  split
  · exact wordOK_default
  · split
    · exact wordOK_charToWORD _
    · exact Or.inl (by decide)

theorem boot_invariants (file : Option (List Nat)) (s0 : State)
    (h : (InitWalkabilityGrid (initialState file) >>= InitPalette) = .ok s0) :
    paletteStable s0 ∧ attributesOK s0 := by
  cases h1 : InitWalkabilityGrid (initialState file) with
  | error e =>
    rw [h1] at h
    simp only [bind, Except.bind] at h
    cases h
  | ok t1 =>
    rw [h1] at h
    have hk := InitWalkabilityGrid_keeps _ t1 h1
    simp only [Prod.mk.injEq] at hk
    obtain ⟨hmap, hscr, hsel, _⟩ := hk
    obtain ⟨sb, hs, hc⟩ := InitPalette_spec t1
    simp only [bind, Except.bind] at h
    rw [hs] at h
    cases h
    have hzero : ∀ r c, r < 32 → c < 80 → t1.screenBuffer.cell r c = ⟨0, 0⟩ := by
      intro r c hr hc
      rw [hscr]
      exact Array2D.cell_fill _ r c hr hc
    have hcell : ∀ r c, 25 ≤ r → r < 32 → c < 80 →
        sb.cell r c = paletteCell ⟨0, 0⟩ (c + 80 * (r - 25)) := by
      intro r c hr hr' hc'
      rw [hc r c, if_pos ⟨hr, hr', hc'⟩, hzero r c hr' hc']
    refine ⟨?_, ?_, wordOK_default, ?_⟩
    · intro r c hr hr' hc'
      show (sb.cell r c).AsciiChar = _ ∧ (_ → (sb.cell r c).Attributes = _)
      rw [hcell r c hr hr' hc']
      exact ⟨rfl, fun _ => rfl⟩
    · intro r c hr hc'
      show wordOK (t1.mapBuffer.cell r c).Attributes
      rw [hmap]
      have : (initialState file).mapBuffer.cell r c = ⟨0, 0⟩ :=
        Array2D.cell_fill _ r c hr hc'
      rw [this]
      exact Or.inl (by decide)
    · intro r c hr hr' hc'
      show wordOK (sb.cell r c).Attributes
      rw [hcell r c hr hr' hc']
      exact paletteCell_zero_wordOK _

theorem Load_invariants (s s' : State) (h : Load s = .ok s') (hp : paletteStable s)
    (ha : attributesOK s) : paletteStable s' ∧ attributesOK s' := by
  obtain ⟨data, g, _, _, rfl, hc⟩ := Load_inv s s' h
  refine ⟨hp, ?_, ha.2.1, ha.2.2⟩
  intro r c hr hc'
  show wordOK (g.1.cell r c).Attributes
  rw [(hc r c hr hc').1]
  exact wordOK_charToWORD _

theorem startup_boot (file : Option (List Nat)) (s : State) (h : startup file = .ok s) :
    ∃ s0, (InitWalkabilityGrid (initialState file) >>= InitPalette) = .ok s0 ∧
      Load s0 = .ok s := by
  unfold startup at h
  cases h0 : (InitWalkabilityGrid (initialState file) >>= InitPalette) with
  | error e =>
    rw [h0] at h
    cases h
  | ok s0 =>
    rw [h0] at h
    exact ⟨s0, rfl, h⟩

theorem startup_invariants (file : Option (List Nat)) (s : State) (h : startup file = .ok s) :
    paletteStable s ∧ attributesOK s := by
  obtain ⟨s0, h0, hl⟩ := startup_boot file s h
  obtain ⟨hp, ha⟩ := boot_invariants file s0 h0
  exact Load_invariants s0 s hl hp ha

/-! ## Independence of the map and the walkable flags -/

/-- C11: whenever handling an input record returns, in Tile mode it has left the
whole walkability grid as it was and in Walkability mode it has left the whole map
buffer, glyphs and attributes, as it was; and handling returns for every record
that carries no position outside the screen. -/
theorem C11_walkability_independence (s : State) (pending : Option INPUT_RECORD) :
    (∀ s', HandleInput pending s = .ok s' →
      (s.editorMode = .tiles → s'.walkabilityGrid = s.walkabilityGrid) ∧
      (s.editorMode = .walkability → s'.mapBuffer = s.mapBuffer)) ∧
    (cursorInScreen s → inScreen pending → ∃ s', HandleInput pending s = .ok s') := by
  refine ⟨fun s' h => ?_, fun hc hp => ?_⟩
  · obtain ⟨h1, h2, _⟩ := HandleInput_effect pending s s' h
    exact ⟨h1, h2⟩
  · obtain ⟨s', h, _⟩ := HandleInput_some pending s hc hp
    exact ⟨s', h⟩

theorem cursorInScreen_brushState : cursorInScreen brushState := by
  show (0 : Int) ≤ 0 ∧ (0 : Int) < (screenWidth : Nat) ∧ (0 : Int) ≤ 0 ∧
    (0 : Int) < (screenHeight : Nat)
  decide

theorem cursorInScreen_walkabilityState : cursorInScreen walkabilityState := by
  show (0 : Int) ≤ 0 ∧ (0 : Int) < (screenWidth : Nat) ∧ (0 : Int) ≤ 0 ∧
    (0 : Int) < (screenHeight : Nat)
  decide

/-- Witness of C11: a left press on the map cell `(3, 4)`, with the brush held in
Tile mode and in Walkability mode. -/
theorem C11_walkability_independence_witness :
    (∃ s', HandleInput (some (.MOUSE_EVENT ⟨3, 4⟩ FROM_LEFT_1ST_BUTTON_PRESSED)) brushState
        = .ok s' ∧ s'.walkabilityGrid = brushState.walkabilityGrid) ∧
    (∃ s', HandleInput (some (.MOUSE_EVENT ⟨3, 4⟩ FROM_LEFT_1ST_BUTTON_PRESSED))
        walkabilityState = .ok s' ∧ s'.mapBuffer = walkabilityState.mapBuffer) := by
  have hp : inScreen (some (.MOUSE_EVENT ⟨3, 4⟩ FROM_LEFT_1ST_BUTTON_PRESSED)) :=
    ⟨by decide, by decide, by decide, by decide⟩
  obtain ⟨a1, a2⟩ := C11_walkability_independence brushState
    (some (.MOUSE_EVENT ⟨3, 4⟩ FROM_LEFT_1ST_BUTTON_PRESSED))
  obtain ⟨b1, b2⟩ := C11_walkability_independence walkabilityState
    (some (.MOUSE_EVENT ⟨3, 4⟩ FROM_LEFT_1ST_BUTTON_PRESSED))
  obtain ⟨s1, h1⟩ := a2 cursorInScreen_brushState hp
  obtain ⟨s2, h2⟩ := b2 cursorInScreen_walkabilityState hp
  exact ⟨⟨s1, h1, (a1 s1 h1).1 rfl⟩, ⟨s2, h2, (b1 s2 h2).2 rfl⟩⟩

theorem frame_map_noleft (pending : Option INPUT_RECORD) (s s' : State)
    (hl : isLeftPress pending = false) (h : frame s pending = .ok s') :
    s'.mapBuffer = s.mapBuffer := by
  obtain ⟨t, sb, _, he, rfl, _⟩ := frame_effect pending s s' h
  exact he.2.2.1 hl

theorem run_map_noleft (queue : List (Option INPUT_RECORD)) (s s' : State)
    (hl : ∀ e ∈ queue, isLeftPress e = false) (h : run s queue = .ok s') :
    s'.mapBuffer = s.mapBuffer := by
  induction queue generalizing s with
  | nil =>
    cases h
    rfl
  | cons e q ih =>
    rw [run_cons] at h
    cases ht : frame s e with
    | error err => rw [ht] at h; cases h
    | ok t =>
      rw [ht] at h
      rw [ih t (fun e' he' => hl e' (List.mem_cons_of_mem e he')) h,
        frame_map_noleft e s t (hl e (List.mem_cons_self e q)) ht]

/-- C12: rendering, whenever it returns, leaves the map buffer as it was; so does
handling a record that is not a left-button press and then rendering, in Tile
mode as in any state; so does any run of the main loop over records none of which
is a left-button press; and such a run returns when no record carries a position
outside the screen. -/
theorem C12_preview_never_commits (s : State) (pending : Option INPUT_RECORD)
    (queue : List (Option INPUT_RECORD)) :
    (∀ s', Draw s = .ok s' → s'.mapBuffer = s.mapBuffer) ∧
    (∀ s', isLeftPress pending = false → frame s pending = .ok s' →
      s'.mapBuffer = s.mapBuffer) ∧
    (∀ s', (∀ e ∈ queue, isLeftPress e = false) → run s queue = .ok s' →
      s'.mapBuffer = s.mapBuffer) ∧
    (cursorInScreen s → (∀ e ∈ queue, inScreen e) → ∃ s', run s queue = .ok s') := by
  refine ⟨fun s' h => ?_, fun s' hl h => frame_map_noleft pending s s' hl h,
    fun s' hl h => run_map_noleft queue s s' hl h, fun hc hq => ?_⟩
  · obtain ⟨sb, rfl, _⟩ := Draw_effect s s' h
    rfl
  · obtain ⟨s', h, _⟩ := run_some queue s hc hq
    exact ⟨s', h⟩


theorem hoverQueue_inScreen : ∀ e ∈ hoverQueue, inScreen e := by
  intro e he
  simp only [hoverQueue, List.mem_cons, List.mem_singleton, List.not_mem_nil, or_false] at he
  rcases he with rfl | rfl | rfl | rfl
  · exact ⟨by decide, by decide, by decide, by decide⟩
  · exact ⟨by decide, by decide, by decide, by decide⟩
  · trivial
  · trivial

/-- Witness of C12: with the brush held, the run over `hoverQueue`, which moves the
mouse over the map and presses the right button, returns with the map as it was. -/
theorem C12_preview_never_commits_witness :
    ∃ s', run brushState hoverQueue = .ok s' ∧ s'.mapBuffer = brushState.mapBuffer := by
  obtain ⟨_, _, h3, h4⟩ := C12_preview_never_commits brushState none hoverQueue
  obtain ⟨s', h⟩ := h4 cursorInScreen_brushState hoverQueue_inScreen
  exact ⟨s', h, h3 s' (by decide) h⟩

/-! ## The palette the editor starts with -/

theorem charToWORD_inj (a b : Nat) (ha : a < 256) (hb : b < 256)
    (h : charToWORD a = charToWORD b) : a = b := by
  unfold charToWORD at h
  split_ifs at h <;> omega

theorem paletteCell_zero (i : Nat) :
    paletteCell ⟨0, 0⟩ i =
      if i < 256 then ⟨i, defaultPaletteAttributes⟩
      else if i < 512 then ⟨36, charToWORD (i % 256)⟩
      else ⟨0, 0⟩ := by
  unfold paletteCell
  by_cases h1 : i < 256
  · rw [if_pos h1, if_pos h1]
    show (⟨i % 256, _⟩ : CHAR_INFO) = _
    rw [Nat.mod_eq_of_lt h1]
  · rw [if_neg h1, if_neg h1]
    by_cases h2 : i < 512
    · rw [if_pos h2, if_pos h2]
      show (⟨36, charToWORD (i % 256 % 256)⟩ : CHAR_INFO) = _
      rw [Nat.mod_mod]
    · rw [if_neg h2, if_neg h2]

theorem InitPalette_initialState (file : Option (List Nat)) :
    ∃ s', InitPalette (initialState file) = .ok s' ∧
      ∀ r x, r < 7 → x < 80 →
        s'.screenBuffer.cell (25 + r) x = paletteCell ⟨0, 0⟩ (x + 80 * r) := by
  obtain ⟨sb, h, hc⟩ := InitPalette_spec (initialState file)
  refine ⟨_, h, fun r x hr hx => ?_⟩
  show sb.cell (25 + r) x = _
  rw [hc, if_pos ⟨by omega, by omega, hx⟩]
  have h0 : (initialState file).screenBuffer.cell (25 + r) x = ⟨0, 0⟩ :=
    Array2D.cell_fill _ _ _ (by show 25 + r < 32; omega) (by show x < 80; exact hx)
  rw [h0]
  have : 25 + r - 25 = r := by omega
  rw [this]

/-- C13, amended: after `InitPalette` on the initial, zeroed screen buffer the
palette cell of index `i = x + 80 * r` shows the glyph code `i` with the default
attributes when `i < 256`, the glyph `'$'` with the attributes word
`charToWORD (i % 256)`, the sign extension of the byte `i mod 256`, when
`256 ≤ i < 512`, and is still zero from 512 on; the attributes word is `i mod 256`
itself exactly when that byte is below 128; two glyph swatches of different index
show different glyph codes and two colour swatches of different index carry
different attributes. -/
theorem C13_palette_generation (file : Option (List Nat)) (x r x' r' : Nat)
    (hx : x < 80) (hr : r < 7) (hx' : x' < 80) (hr' : r' < 7) :
    ∃ s', InitPalette (initialState file) = .ok s' ∧
      s'.screenBuffer.cell (25 + r) x =
        (if x + 80 * r < 256 then ⟨x + 80 * r, defaultPaletteAttributes⟩
         else if x + 80 * r < 512 then ⟨36, charToWORD ((x + 80 * r) % 256)⟩
         else ⟨0, 0⟩) ∧
      (charToWORD ((x + 80 * r) % 256) = (x + 80 * r) % 256 ↔ (x + 80 * r) % 256 < 128) ∧
      (x + 80 * r < 256 → x' + 80 * r' < 256 → x + 80 * r ≠ x' + 80 * r' →
        (s'.screenBuffer.cell (25 + r) x).AsciiChar ≠
          (s'.screenBuffer.cell (25 + r') x').AsciiChar) ∧
      (256 ≤ x + 80 * r → x + 80 * r < 512 → 256 ≤ x' + 80 * r' → x' + 80 * r' < 512 →
        x + 80 * r ≠ x' + 80 * r' →
        (s'.screenBuffer.cell (25 + r) x).Attributes ≠
          (s'.screenBuffer.cell (25 + r') x').Attributes) := by
  obtain ⟨s', h, hc⟩ := InitPalette_initialState file
  refine ⟨s', h, ?_, ?_, ?_, ?_⟩
  · rw [hc r x hr hx, paletteCell_zero]
  · unfold charToWORD
    split_ifs <;> omega
  · intro h1 h2 hne
    rw [hc r x hr hx, hc r' x' hr' hx', paletteCell_zero, paletteCell_zero, if_pos h1, if_pos h2]
    exact hne
  · intro h1 h2 h3 h4 hne
    rw [hc r x hr hx, hc r' x' hr' hx', paletteCell_zero, paletteCell_zero,
      if_neg (by omega), if_pos h2, if_neg (by omega), if_pos h4]
    intro he
    have := charToWORD_inj _ _ (Nat.mod_lt _ (by decide)) (Nat.mod_lt _ (by decide)) he
    omega

/-- Witness of C13: the glyph swatch of index 65 at `(65, 25)` and the colour swatch
of index 384 at `(64, 29)`. -/
theorem C13_palette_generation_witness :
    ∃ s', InitPalette (initialState none) = .ok s' ∧
      s'.screenBuffer.cell 25 65 = ⟨65, defaultPaletteAttributes⟩ ∧
      s'.screenBuffer.cell 29 64 = ⟨36, 65408⟩ := by
  obtain ⟨s', h, h1, _⟩ := C13_palette_generation none 65 0 64 4
    (by decide) (by decide) (by decide) (by decide)
  obtain ⟨s'', h', h2, _⟩ := C13_palette_generation none 64 4 65 0
    (by decide) (by decide) (by decide) (by decide)
  rw [h] at h'
  cases h'
  exact ⟨s', h, h1, h2⟩

set_option maxRecDepth 100000 in
/-- C13, as stated, fails: the colour swatch of index 384, at column 64 of screen row
29, carries the attributes word 65408 after `InitPalette`, while `384 mod 256` is 128. -/
theorem C13_colour_attribute_sign_extended :
    Except.map (fun s => s.screenBuffer.cell 29 64) (InitPalette (initialState none))
      = .ok ⟨36, 65408⟩ ∧
    (64 + 80 * 4) % 256 = 128 ∧ (65408 : Nat) ≠ (64 + 80 * 4) % 256 :=
  ⟨rfl, rfl, by decide⟩


/-! ## What rendering shows -/

/-- C14: rendering in Tile mode, with the cursor at column `x < 80` of row `y`,
returns and changes the screen buffer only; afterwards every screen cell of the
map region equals the map cell of the same place, except the cell at the cursor
when a brush is held, which equals the brush (a cursor row `y ≥ 25` is the row of
no map cell, so nothing is overlaid then); every screen cell of rows 25 and up is
as before. -/
theorem C14_tile_mode_composition (s : State) (x y : Nat) (hm : s.editorMode = .tiles)
    (hX : s.mouseX = x) (hY : s.mouseY = y) (hx : x < 80) :
    ∃ sb, Draw s = .ok { s with screenBuffer := sb } ∧
      (∀ r c, r < 25 → c < 80 → sb.cell r c =
        if s.hasSelection = true ∧ r = y ∧ c = x then s.selection else s.mapBuffer.cell r c) ∧
      (∀ r c, 25 ≤ r → sb.cell r c = s.screenBuffer.cell r c) := by
  obtain ⟨sb, h, hc⟩ := DrawTileMode_spec s x y hX hY hx
  refine ⟨sb, ?_, fun r c hr hcc => ?_, fun r c hr => ?_⟩
  · rw [Draw_tiles s hm]
    exact h
  · rw [hc r c]
    by_cases ho : s.hasSelection = true ∧ r = y ∧ c = x
    · rw [if_pos ho, if_pos ⟨ho.1, by omega, ho.2.1, ho.2.2⟩]
    · rw [if_neg ho, if_neg (fun h' => ho ⟨h'.1, h'.2.2.1, h'.2.2.2⟩), if_pos ⟨hr, hcc⟩]
  · rw [hc r c, if_neg (by omega), if_neg (by omega)]

/-- Witness of C14: the brush `'A'` with attributes 7 held over the map cell
`(0, 0)` of the blank map. -/
theorem C14_tile_mode_composition_witness :
    ∃ sb, Draw brushState = .ok { brushState with screenBuffer := sb } ∧
      sb.cell 0 0 = ⟨65, 7⟩ ∧ sb.cell 0 1 = ⟨0, 0⟩ := by
  obtain ⟨sb, h, h1, _⟩ := C14_tile_mode_composition brushState 0 0 rfl rfl rfl (by decide)
  refine ⟨sb, h, ?_, ?_⟩
  · rw [h1 0 0 (by decide) (by decide)]
    rfl
  · rw [h1 0 1 (by decide) (by decide)]
    rfl

/-- C15: rendering in Walkability mode returns from every state and changes the
screen buffer only; afterwards every screen cell of the map region has the glyph of
the map cell of the same place and the attributes `BACKGROUND_INTENSITY |
BACKGROUND_GREEN`, which is 160, when the cell is walkable and
`BACKGROUND_INTENSITY | BACKGROUND_RED`, which is 192, when it is not; every screen
cell of rows 25 and up is as before. -/
theorem C15_walkability_mode_composition (s : State) (hm : s.editorMode = .walkability) :
    ∃ sb, Draw s = .ok { s with screenBuffer := sb } ∧
      (∀ r c, r < 25 → c < 80 → sb.cell r c =
        ⟨(s.mapBuffer.cell r c).AsciiChar,
          if s.walkabilityGrid.cell r c = true then BACKGROUND_INTENSITY ||| BACKGROUND_GREEN
          else BACKGROUND_INTENSITY ||| BACKGROUND_RED⟩) ∧
      (∀ r c, 25 ≤ r → sb.cell r c = s.screenBuffer.cell r c) ∧
      BACKGROUND_INTENSITY ||| BACKGROUND_GREEN = 160 ∧
      BACKGROUND_INTENSITY ||| BACKGROUND_RED = 192 := by
  obtain ⟨sb, h, hc⟩ := DrawWalkabilityMode_spec s
  refine ⟨sb, ?_, fun r c hr hcc => ?_, fun r c hr => ?_, by decide, by decide⟩
  · rw [Draw_walkability s hm]
    exact h
  · rw [hc r c, if_pos ⟨hr, hcc⟩]
    by_cases hw : s.walkabilityGrid.cell r c = true
    · rw [hw, if_pos rfl, if_pos rfl]
    · have hw' : s.walkabilityGrid.cell r c = false := by
        cases hv : s.walkabilityGrid.cell r c
        · rfl
        · exact absurd hv hw
      rw [hw', if_neg (by decide), if_neg (by decide)]
  · rw [hc r c, if_neg (by omega)]

/-- Witness of C15: the blank editor in Walkability mode, whose flags are all
false, shows the blocked colour 192 at the map cell `(0, 0)`. -/
theorem C15_walkability_mode_composition_witness :
    ∃ sb, Draw walkabilityState = .ok { walkabilityState with screenBuffer := sb } ∧
      sb.cell 0 0 = ⟨0, 192⟩ := by
  obtain ⟨sb, h, h1, _⟩ := C15_walkability_mode_composition walkabilityState rfl
  refine ⟨sb, h, ?_⟩
  rw [h1 0 0 (by decide) (by decide)]
  rfl

theorem cursor_nat (s : State) (hc : cursorInScreen s) :
    ∃ x y : Nat, s.mouseX = x ∧ s.mouseY = y ∧ x < 80 ∧ y < 32 := by
  obtain ⟨h1, h2, h3, h4⟩ := hc
  obtain ⟨x, hx⟩ := Int.eq_ofNat_of_zero_le h1
  obtain ⟨y, hy⟩ := Int.eq_ofNat_of_zero_le h3
  refine ⟨x, y, hx, hy, ?_, ?_⟩
  · rw [hx] at h2
    have : (x : Int) < (80 : Nat) := h2
    omega
  · rw [hy] at h4
    have : (y : Int) < (32 : Nat) := h4
    omega

/-- C16: from a state whose cursor lies on the screen, in either mode and with or
without a brush, rendering returns a state that differs from the first in the
screen buffer only, and rendering that state again returns a state that differs
from it in the screen buffer only and whose screen buffer reads the same at every
cell. -/
theorem C16_render_idempotent (s : State) (hc : cursorInScreen s) :
    ∃ sb sb', Draw s = .ok { s with screenBuffer := sb } ∧
      Draw { s with screenBuffer := sb } = .ok { s with screenBuffer := sb' } ∧
      ∀ r c, sb'.cell r c = sb.cell r c := by
  by_cases hm : s.editorMode = .tiles
  · obtain ⟨x, y, hX, hY, hx, _⟩ := cursor_nat s hc
    obtain ⟨sb, h, hcell⟩ := DrawTileMode_spec s x y hX hY hx
    obtain ⟨sb', h', hcell'⟩ := DrawTileMode_spec { s with screenBuffer := sb } x y hX hY hx
    refine ⟨sb, sb', ?_, ?_, fun r c => ?_⟩
    · rw [Draw_tiles s hm]
      exact h
    · rw [Draw_tiles { s with screenBuffer := sb } hm]
      exact h'
    · rw [hcell' r c, hcell r c]
      show (if s.hasSelection = true ∧ y < 25 ∧ r = y ∧ c = x then s.selection
        else if r < 25 ∧ c < 80 then s.mapBuffer.cell r c
        else
          if s.hasSelection = true ∧ y < 25 ∧ r = y ∧ c = x then s.selection
          else if r < 25 ∧ c < 80 then s.mapBuffer.cell r c else s.screenBuffer.cell r c) = _
      split_ifs <;> rfl
  · have hm' : s.editorMode = .walkability := by
      cases hv : s.editorMode
      · exact absurd hv hm
      · rfl
    obtain ⟨sb, h, hcell⟩ := DrawWalkabilityMode_spec s
    obtain ⟨sb', h', hcell'⟩ := DrawWalkabilityMode_spec { s with screenBuffer := sb }
    refine ⟨sb, sb', ?_, ?_, fun r c => ?_⟩
    · rw [Draw_walkability s hm']
      exact h
    · rw [Draw_walkability { s with screenBuffer := sb } hm']
      exact h'
    · rw [hcell' r c, hcell r c]
      show (if r < 25 ∧ c < 80 then
          (⟨(s.mapBuffer.cell r c).AsciiChar,
            BACKGROUND_INTENSITY |||
              (if s.walkabilityGrid.cell r c then BACKGROUND_GREEN else BACKGROUND_RED)⟩ :
            CHAR_INFO)
        else
          if r < 25 ∧ c < 80 then
            ⟨(s.mapBuffer.cell r c).AsciiChar,
              BACKGROUND_INTENSITY |||
                (if s.walkabilityGrid.cell r c then BACKGROUND_GREEN else BACKGROUND_RED)⟩
          else s.screenBuffer.cell r c) = _
      split_ifs <;> rfl

/-- Witness of C16: the brush held over the map cell `(0, 0)` in Tile mode. -/
theorem C16_render_idempotent_witness :
    cursorInScreen brushState ∧
    ∃ sb sb', Draw brushState = .ok { brushState with screenBuffer := sb } ∧
      Draw { brushState with screenBuffer := sb } = .ok { brushState with screenBuffer := sb' } ∧
      ∀ r c, sb'.cell r c = sb.cell r c :=
  ⟨cursorInScreen_brushState, C16_render_idempotent brushState cursorInScreen_brushState⟩


/-! ## Saving what the editor can hold -/

theorem boot_some (file : Option (List Nat)) :
    ∃ s0, (InitWalkabilityGrid (initialState file) >>= InitPalette) = .ok s0 := by
  obtain ⟨t1, h1⟩ := InitWalkabilityGrid_some (initialState file)
  obtain ⟨t2, h2⟩ := InitPalette_some t1
  refine ⟨t2, ?_⟩
  rw [h1]
  simp only [bind, Except.bind]
  rw [h2]

theorem boot_frame (file : Option (List Nat)) (s0 : State)
    (h : (InitWalkabilityGrid (initialState file) >>= InitPalette) = .ok s0) :
    s0.editorMode = .tiles ∧ s0.mouseX = 0 ∧ s0.mouseY = 0 := by
  cases h1 : InitWalkabilityGrid (initialState file) with
  | error e =>
    rw [h1] at h
    simp only [bind, Except.bind] at h
    cases h
  | ok t1 =>
    rw [h1] at h
    simp only [bind, Except.bind] at h
    have e2 := InitPalette_frame t1 s0 h
    have e1 := InitWalkabilityGrid_frame _ t1 h1
    rw [e1] at e2
    simp only [Prod.mk.injEq] at e2
    exact ⟨e2.1, e2.2.1, e2.2.2⟩

theorem cursorInScreen_origin (s : State) (hX : s.mouseX = 0) (hY : s.mouseY = 0) :
    cursorInScreen s := by
  unfold cursorInScreen
  rw [hX, hY]
  decide

theorem started_facts (file : Option (List Nat)) (s0 : State) (h : started file s0) :
    s0.editorMode = .tiles ∧ cursorInScreen s0 ∧ paletteStable s0 ∧ attributesOK s0 := by
  rcases h with h | h
  · obtain ⟨hm, hX, hY⟩ := boot_frame file s0 h
    obtain ⟨hp, ha⟩ := boot_invariants file s0 h
    exact ⟨hm, cursorInScreen_origin s0 hX hY, hp, ha⟩
  · obtain ⟨hm, hX, hY⟩ := startup_frame file s0 h
    obtain ⟨hp, ha⟩ := startup_invariants file s0 h
    exact ⟨hm, cursorInScreen_origin s0 hX hY, hp, ha⟩

theorem wordOK_fix (a : Nat) (h : wordOK a) : charToWORD (a % 256) = a :=
  (charToWORD_fix a).2 h

/-- C17: from a state the loop can start in, a run of the loop over records none of
which carries a position outside the screen returns; in the state it returns,
every attributes word of a map cell is the sign extension of its own low byte,
so it is what `Load` makes of the byte `Save` writes for it; `Save` returns,
`Load` of the bytes it wrote returns from any state, and every map cell, glyph and
attributes, and every walkable flag it gives is the one that was saved; and the
colour swatch at column 64 of row 29 still offers the attributes word 65408,
which is no byte. -/
theorem C17_reachable_round_trip (file : Option (List Nat)) (s0 t : State)
    (queue : List (Option INPUT_RECORD)) (hstart : started file s0)
    (hq : ∀ e ∈ queue, inScreen e) :
    ∃ s bytes t', run s0 queue = .ok s ∧
      Save s = .ok { s with mapFile := some bytes } ∧
      Load { t with mapFile := some bytes } = .ok t' ∧
      (∀ y x, y < 25 → x < 80 →
        charToWORD ((s.mapBuffer.cell y x).Attributes % 256) = (s.mapBuffer.cell y x).Attributes ∧
        t'.mapBuffer.cell y x = s.mapBuffer.cell y x ∧
        t'.walkabilityGrid.cell y x = s.walkabilityGrid.cell y x) ∧
      (s.screenBuffer.cell 29 64).Attributes = 65408 := by
  obtain ⟨_, hc, hp, ha⟩ := started_facts file s0 hstart
  obtain ⟨s, hrun, _⟩ := run_some queue s0 hc hq
  obtain ⟨hp', ha'⟩ := run_invariants queue s0 s hrun hp ha
  obtain ⟨bytes, hS, hlen, _⟩ := Save_spec s
  obtain ⟨g, hL, _⟩ := Load_spec { t with mapFile := some bytes } bytes rfl (by omega)
  refine ⟨s, bytes, _, hrun, hS, hL, fun y x hy hx => ?_, ?_⟩
  · have hfix := wordOK_fix _ (ha'.1 y x hy hx)
    obtain ⟨b2, t2, hS2, hL2, hcell, hw⟩ := roundTrip_cell s t x y hx hy
    have hb : some bytes = some b2 :=
      congrArg (fun r : Except Fault State =>
        match r with
        | .ok u => u.mapFile
        | .error _ => none) (hS.symm.trans hS2)
    cases hb
    rw [hL] at hL2
    cases hL2
    refine ⟨hfix, ?_, hw⟩
    rw [hcell, hfix]
  · exact (hp' 29 64 (by decide) (by decide) (by decide)).2 (by decide)

/-- Witness of C17: from the start without a file, the run over `paintQueue`, which
picks the colour swatch of attributes 65408 and paints the map cell `(3, 4)`. -/
theorem C17_reachable_round_trip_witness :
    ∃ s0 s bytes t', started none s0 ∧ run s0 paintQueue = .ok s ∧
      Save s = .ok { s with mapFile := some bytes } ∧
      Load { initialState none with mapFile := some bytes } = .ok t' ∧
      t'.mapBuffer.cell 4 3 = s.mapBuffer.cell 4 3 ∧
      t'.walkabilityGrid.cell 4 3 = s.walkabilityGrid.cell 4 3 := by
  obtain ⟨s0, h0⟩ := boot_some none
  have hq : ∀ e ∈ paintQueue, inScreen e := by
    intro e he
    simp only [paintQueue, List.mem_cons, List.mem_singleton, List.not_mem_nil, or_false] at he
    rcases he with rfl | rfl
    · exact ⟨by decide, by decide, by decide, by decide⟩
    · exact ⟨by decide, by decide, by decide, by decide⟩
  obtain ⟨s, bytes, t', h1, h2, h3, h4, _⟩ :=
    C17_reachable_round_trip none s0 (initialState none) paintQueue (Or.inl h0) hq
  exact ⟨s0, s, bytes, t', Or.inl h0, h1, h2, h3, (h4 4 3 (by decide) (by decide)).2⟩


/-! ## Loading and saving again -/

theorem charToWORD_mod (c : Nat) : charToWORD c % 256 = c % 256 := by
  unfold charToWORD
  split_ifs <;> omega

theorem getD_lt_of_bytes (f : List Nat) (hbyte : ∀ b ∈ f, b < 256) (k : Nat) :
    f.getD k 0 < 256 := by
  rw [List.getD_eq_getElem?_getD]
  by_cases hk : k < f.length
  · rw [List.getElem?_eq_getElem hk]
    exact hbyte _ (List.getElem_mem hk)
  · rw [List.getElem?_eq_none (by omega)]
    decide

theorem cycle_record (s : State) (f b : List Nat)
    (g : Array2D CHAR_INFO mapPanelHeight mapPanelWidth ×
      Array2D Bool mapPanelHeight mapPanelWidth)
    (y x : Nat) (hd : decodedOK f g y x)
    (hr : recordOK { s with mapBuffer := g.1, walkabilityGrid := g.2 } b y x) :
    b[(x + y * 80) * 3]? = some (f.getD ((x + y * 80) * 3) 0) ∧
    b[(x + y * 80) * 3 + 1]? = some (f.getD ((x + y * 80) * 3 + 1) 0 % 256) ∧
    b[(x + y * 80) * 3 + 2]? = some (if f.getD ((x + y * 80) * 3 + 2) 0 = 0 then 0 else 1) := by
  obtain ⟨d1, d2⟩ := hd
  obtain ⟨r1, r2, r3⟩ := hr
  have r1' : b[(x + y * 80) * 3]? = some (g.1.cell y x).AsciiChar := r1
  have r2' : b[(x + y * 80) * 3 + 1]? = some ((g.1.cell y x).Attributes % 256) := r2
  have r3' : b[(x + y * 80) * 3 + 2]? = some (if g.2.cell y x then 1 else 0) := r3
  rw [d1] at r1' r2'
  rw [d2] at r3'
  refine ⟨r1', ?_, ?_⟩
  · rw [r2']
    show some (charToWORD (f.getD ((x + y * 80) * 3 + 1) 0) % 256) = _
    rw [charToWORD_mod]
  · rw [r3']
    by_cases h0 : f.getD ((x + y * 80) * 3 + 2) 0 = 0
    · rw [if_pos h0, if_pos h0]
      rfl
    · rw [if_neg h0, if_neg h0]
      rfl

/-- C18: for every sequence `f` of exactly 6000 bytes, `Load` of `f` returns and
`Save` of the state it gives returns and writes 6000 bytes, which are those of `f`
with every non-zero byte at an offset `3 i + 2` replaced by 1; they are `f` itself
when every byte of `f` at an offset `3 i + 2` is 0 or 1. -/
theorem C18_load_save_cycle (s : State) (f : List Nat) (hlen : f.length = 6000)
    (hbyte : ∀ b ∈ f, b < 256) :
    ∃ s1 bytes, Load { s with mapFile := some f } = .ok s1 ∧
      Save s1 = .ok { s1 with mapFile := some bytes } ∧
      bytes.length = 6000 ∧
      (∀ k, k < 6000 →
        bytes.getD k 0 = if k % 3 = 2 ∧ f.getD k 0 ≠ 0 then 1 else f.getD k 0) ∧
      ((∀ k, k < 6000 → k % 3 = 2 → f.getD k 0 ≤ 1) → bytes = f) := by
  obtain ⟨g, hL, hd⟩ := Load_spec { s with mapFile := some f } f rfl (by omega)
  obtain ⟨bytes, hS, hbl, hr⟩ := Save_spec
    { s with mapFile := some f, mapBuffer := g.1, walkabilityGrid := g.2 }
  have hpoint : ∀ k, k < 6000 →
      bytes.getD k 0 = if k % 3 = 2 ∧ f.getD k 0 ≠ 0 then 1 else f.getD k 0 := by
    intro k hk
    have hy : k / 3 / 80 < 25 := by omega
    have hx : k / 3 % 80 < 80 := by omega
    have hi : k / 3 % 80 + k / 3 / 80 * 80 = k / 3 := by omega
    obtain ⟨c1, c2, c3⟩ := cycle_record { s with mapFile := some f } f bytes g
      (k / 3 / 80) (k / 3 % 80) (hd _ _ hy hx) (hr _ _ hy hx)
    rw [hi] at c1 c2 c3
    rw [List.getD_eq_getElem?_getD]
    have h3 : k % 3 = 0 ∨ k % 3 = 1 ∨ k % 3 = 2 := by omega
    rcases h3 with h3 | h3 | h3
    · have hk0 : k / 3 * 3 = k := by omega
      rw [hk0] at c1
      rw [c1, if_neg (by omega)]
      rfl
    · have hk1 : k / 3 * 3 + 1 = k := by omega
      rw [hk1] at c2
      rw [c2, if_neg (by omega), Nat.mod_eq_of_lt (getD_lt_of_bytes f hbyte k)]
      rfl
    · have hk2 : k / 3 * 3 + 2 = k := by omega
      rw [hk2] at c3
      rw [c3]
      by_cases h0 : f.getD k 0 = 0
      · rw [if_pos h0, if_neg (fun h => h.2 h0), h0]
        rfl
      · rw [if_neg h0, if_pos ⟨h3, h0⟩]
        rfl
  refine ⟨_, bytes, hL, hS, hbl, hpoint, fun hw => ?_⟩
  refine List.ext_getElem (hbl.trans hlen.symm) (fun k h1 h2 => ?_)
  have hk : k < 6000 := by omega
  have e1 : bytes.getD k 0 = bytes[k] := by
    rw [List.getD_eq_getElem?_getD, List.getElem?_eq_getElem h1]
    rfl
  have e2 : f.getD k 0 = f[k] := by
    rw [List.getD_eq_getElem?_getD, List.getElem?_eq_getElem h2]
    rfl
  rw [← e1, ← e2, hpoint k hk]
  by_cases hc : k % 3 = 2 ∧ f.getD k 0 ≠ 0
  · rw [if_pos hc]
    have := hw k hk hc.1
    have := hc.2
    omega
  · rw [if_neg hc]

theorem fileAttr200_bytes : ∀ b ∈ fileAttr200, b < 256 := by
  intro b hb
  simp only [fileAttr200, List.mem_cons, List.mem_replicate] at hb
  rcases hb with rfl | rfl | rfl | ⟨_, rfl⟩ <;> decide

theorem fileAttr200_walkable (k : Nat) : fileAttr200.getD k 0 ≤ 1 ∨ k < 2 := by
  match k with
  | 0 => exact Or.inr (by decide)
  | 1 => exact Or.inr (by decide)
  | 2 => exact Or.inl (le_refl 1)
  | k + 3 =>
    left
    show (List.replicate 5997 0).getD k 0 ≤ 1
    rw [List.getD_eq_getElem?_getD, List.getElem?_replicate]
    split_ifs <;> decide

/-- Witness of C18: the file `fileAttr200`, whose first record holds the attributes
byte 200, comes back byte for byte. -/
theorem C18_load_save_cycle_witness :
    ∃ s1, Load { initialState none with mapFile := some fileAttr200 } = .ok s1 ∧
      Save s1 = .ok { s1 with mapFile := some fileAttr200 } := by
  obtain ⟨s1, bytes, h1, h2, _, _, h5⟩ := C18_load_save_cycle (initialState none) fileAttr200
    fileAttr200_length fileAttr200_bytes
  have hb : bytes = fileAttr200 := h5 (fun k _ hk3 => by
    rcases fileAttr200_walkable k with h | h
    · exact h
    · omega)
  rw [hb] at h2
  exact ⟨s1, h1, h2⟩


/-! ## Picks and the palette over a run -/

theorem HandleInput_pick_glyph (s : State) (x r : Nat) (hm : s.editorMode = .tiles)
    (hx : x < 80) (hr : r < 7) (hi : x + 80 * r < 256) :
    HandleInput (some (.MOUSE_EVENT ⟨(x : Int), ((25 + r : Nat) : Int)⟩
        FROM_LEFT_1ST_BUTTON_PRESSED)) s = .ok { s with
      mouseX := (x : Int)
      mouseY := ((25 + r : Nat) : Int)
      hasSelection := true
      selection := { s.selection with AsciiChar := (s.screenBuffer.cell (25 + r) x).AsciiChar } } := by
  rw [HandleInput_mouse_tiles s _ _ hm, HandleInputTileMode_left]
  have hge : ((25 + r : Nat) : Int) ≥ (mapPanelHeight : Nat) := by
    show ((25 + r : Nat) : Int) ≥ (25 : Nat); omega
  simp only [hge, if_true]
  exact selectFromPalette_glyph
    { s with mouseX := (x : Int), mouseY := ((25 + r : Nat) : Int) } x (25 + r) rfl rfl
    hx (by omega) (by omega)

theorem HandleInput_pick_colour (s : State) (x r : Nat) (hm : s.editorMode = .tiles)
    (hx : x < 80) (hr : r < 7) (hi : 256 ≤ x + 80 * r) :
    ∃ sb, HandleInput (some (.MOUSE_EVENT ⟨(x : Int), ((25 + r : Nat) : Int)⟩
        FROM_LEFT_1ST_BUTTON_PRESSED)) s = .ok { s with
        mouseX := (x : Int)
        mouseY := ((25 + r : Nat) : Int)
        hasSelection := true
        selection := { s.selection with Attributes := (s.screenBuffer.cell (25 + r) x).Attributes }
        screenBuffer := sb } ∧
      ∀ r' c, sb.cell r' c =
        if 25 ≤ r' ∧ c < 80 ∧ c + 80 * (r' - 25) < 256 then
          { s.screenBuffer.cell r' c with
            Attributes := (s.screenBuffer.cell (25 + r) x).Attributes }
        else s.screenBuffer.cell r' c := by
  rw [HandleInput_mouse_tiles s _ _ hm, HandleInputTileMode_left]
  have hge : ((25 + r : Nat) : Int) ≥ (mapPanelHeight : Nat) := by
    show ((25 + r : Nat) : Int) ≥ (25 : Nat); omega
  simp only [hge, if_true]
  exact selectFromPalette_colour
    { s with mouseX := (x : Int), mouseY := ((25 + r : Nat) : Int) } x (25 + r) rfl rfl
    hx (by omega) (by omega)

theorem paletteStable_cell (s : State) (hp : paletteStable s) (r x : Nat) (hr : r < 7)
    (hx : x < 80) :
    (s.screenBuffer.cell (25 + r) x).AsciiChar =
      (if x + 80 * r < 256 then x + 80 * r else if x + 80 * r < 512 then 36 else 0) ∧
    (256 ≤ x + 80 * r →
      (s.screenBuffer.cell (25 + r) x).Attributes =
        if x + 80 * r < 512 then charToWORD ((x + 80 * r) % 256) else 0) := by
  obtain ⟨h1, h2⟩ := hp (25 + r) x (by omega) (by omega) hx
  have e : 25 + r - 25 = r := by omega
  rw [e, paletteCell_zero] at h1 h2
  refine ⟨?_, fun h256 => ?_⟩
  · rw [h1]
    split_ifs <;> rfl
  · rw [h2 h256, if_neg (by omega)]
    split_ifs <;> rfl

/-- C19: from a state the loop can start in, a run of the loop over records none of
which carries a position outside the screen returns a state in which the palette
cell of index `i = x + 80 * r` still shows the glyph code `i` when `i < 256`, is
still the glyph `'$'` with the attributes `charToWORD (i % 256)` that `InitPalette`
gave it when `256 ≤ i < 512`, and is still zero from 512 on; so in Tile mode a left
press on a glyph swatch gives the brush the glyph code `i` and a left press on a
colour swatch gives the brush the attributes `charToWORD (i % 256)`, whatever the
run was. -/
theorem C19_palette_swatches_stable (file : Option (List Nat)) (s0 : State)
    (queue : List (Option INPUT_RECORD)) (hstart : started file s0)
    (hq : ∀ e ∈ queue, inScreen e) :
    ∃ s, run s0 queue = .ok s ∧
      (∀ r x : Nat, r < 7 → x < 80 →
        (x + 80 * r < 256 → (s.screenBuffer.cell (25 + r) x).AsciiChar = x + 80 * r) ∧
        (256 ≤ x + 80 * r → x + 80 * r < 512 →
          s.screenBuffer.cell (25 + r) x = ⟨36, charToWORD ((x + 80 * r) % 256)⟩) ∧
        (512 ≤ x + 80 * r → s.screenBuffer.cell (25 + r) x = ⟨0, 0⟩)) ∧
      (s.editorMode = .tiles → ∀ r x : Nat, r < 7 → x < 80 →
        ∃ s', HandleInput (some (.MOUSE_EVENT ⟨(x : Int), ((25 + r : Nat) : Int)⟩
            FROM_LEFT_1ST_BUTTON_PRESSED)) s = .ok s' ∧
          s'.hasSelection = true ∧
          (x + 80 * r < 256 → s'.selection = ⟨x + 80 * r, s.selection.Attributes⟩) ∧
          (256 ≤ x + 80 * r → x + 80 * r < 512 →
            s'.selection = ⟨s.selection.AsciiChar, charToWORD ((x + 80 * r) % 256)⟩)) := by
  obtain ⟨_, hc, hp, ha⟩ := started_facts file s0 hstart
  obtain ⟨s, hrun, _⟩ := run_some queue s0 hc hq
  obtain ⟨hp', _⟩ := run_invariants queue s0 s hrun hp ha
  refine ⟨s, hrun, fun r x hr hx => ?_, fun hm r x hr hx => ?_⟩
  · obtain ⟨h1, h2⟩ := paletteStable_cell s hp' r x hr hx
    refine ⟨fun hi => ?_, fun hi hi' => ?_, fun hi => ?_⟩
    · rw [h1, if_pos hi]
    · have h2' := h2 hi
      rw [if_pos hi'] at h2'
      rw [if_neg (by omega), if_pos hi'] at h1
      cases hcell : s.screenBuffer.cell (25 + r) x with
      | mk g a =>
        rw [hcell] at h1 h2'
        show CHAR_INFO.mk g a = _
        have h1' : g = 36 := h1
        have h2'' : a = charToWORD ((x + 80 * r) % 256) := h2'
        rw [h1', h2'']
    · have h2' := h2 (by omega)
      rw [if_neg (by omega)] at h2'
      rw [if_neg (by omega), if_neg (by omega)] at h1
      cases hcell : s.screenBuffer.cell (25 + r) x with
      | mk g a =>
        rw [hcell] at h1 h2'
        show CHAR_INFO.mk g a = _
        have h1' : g = 0 := h1
        have h2'' : a = 0 := h2'
        rw [h1', h2'']
  · obtain ⟨h1, h2⟩ := paletteStable_cell s hp' r x hr hx
    by_cases hi : x + 80 * r < 256
    · refine ⟨_, HandleInput_pick_glyph s x r hm hx hr hi, rfl, fun _ => ?_, fun h => ?_⟩
      · show CHAR_INFO.mk (s.screenBuffer.cell (25 + r) x).AsciiChar s.selection.Attributes = _
        rw [h1, if_pos hi]
      · omega
    · obtain ⟨sb, h, _⟩ := HandleInput_pick_colour s x r hm hx hr (by omega)
      refine ⟨_, h, rfl, fun h' => absurd h' hi, fun _ hi' => ?_⟩
      show CHAR_INFO.mk s.selection.AsciiChar (s.screenBuffer.cell (25 + r) x).Attributes = _
      rw [h2 (by omega), if_pos hi']

/-- Witness of C19: from the start without a file, after the run over `paintQueue`
the glyph swatch at `(65, 25)` still shows the glyph code 65 and the colour swatch
at `(64, 29)` is still `'$'` with the attributes 65408. -/
theorem C19_palette_swatches_stable_witness :
    ∃ s0 s, started none s0 ∧ run s0 paintQueue = .ok s ∧
      (s.screenBuffer.cell 25 65).AsciiChar = 65 ∧
      s.screenBuffer.cell 29 64 = ⟨36, 65408⟩ := by
  obtain ⟨s0, h0⟩ := boot_some none
  have hq : ∀ e ∈ paintQueue, inScreen e := by
    intro e he
    simp only [paintQueue, List.mem_cons, List.mem_singleton, List.not_mem_nil, or_false] at he
    rcases he with rfl | rfl
    · exact ⟨by decide, by decide, by decide, by decide⟩
    · exact ⟨by decide, by decide, by decide, by decide⟩
  obtain ⟨s, h1, h2, _⟩ := C19_palette_swatches_stable none s0 paintQueue (Or.inl h0) hq
  exact ⟨s0, s, Or.inl h0, h1, (h2 0 65 (by decide) (by decide)).1 (by decide),
    (h2 4 64 (by decide) (by decide)).2.1 (by decide) (by decide)⟩


/-! ## Clearing the brush -/

theorem HandleInputTileMode_right (s : State) (p : COORD) :
    HandleInputTileMode (.MOUSE_EVENT p RIGHTMOST_BUTTON_PRESSED) s =
      SetPaletteAttributes defaultPaletteAttributes { s with hasSelection := false } := rfl

theorem HandleInput_right (s : State) (p : COORD) (hm : s.editorMode = .tiles) :
    ∃ sb, HandleInput (some (.MOUSE_EVENT p RIGHTMOST_BUTTON_PRESSED)) s = .ok { s with
        mouseX := p.X
        mouseY := p.Y
        hasSelection := false
        screenBuffer := sb } ∧
      ∀ r c, sb.cell r c =
        if 25 ≤ r ∧ c < 80 ∧ c + 80 * (r - 25) < 256 then
          { s.screenBuffer.cell r c with Attributes := defaultPaletteAttributes }
        else s.screenBuffer.cell r c := by
  rw [HandleInput_mouse_tiles s _ _ hm, HandleInputTileMode_right]
  exact SetPaletteAttributes_spec defaultPaletteAttributes
    { s with mouseX := p.X, mouseY := p.Y, hasSelection := false }

theorem HandleInput_paint (s : State) (x y : Nat) (hm : s.editorMode = .tiles)
    (hx : x < 80) (hy : y < 25) (hsel : s.hasSelection = true) :
    ∃ mb, HandleInput (some (.MOUSE_EVENT ⟨(x : Int), (y : Int)⟩
        FROM_LEFT_1ST_BUTTON_PRESSED)) s = .ok { s with
        mouseX := (x : Int)
        mouseY := (y : Int)
        mapBuffer := mb } ∧
      mb.cell y x = s.selection := by
  rw [HandleInput_mouse_tiles s _ _ hm, HandleInputTileMode_left]
  have hlt : ¬ ((y : Int) ≥ (mapPanelHeight : Nat)) := by
    show ¬ ((y : Int) ≥ (25 : Nat)); omega
  simp only [hlt, if_false]
  rw [if_pos hsel]
  obtain ⟨mb, hw, hcell⟩ := Array2D.writeAt_ok s.mapBuffer y x s.selection hy hx
  refine ⟨mb, ?_, ?_⟩
  · show (s.mapBuffer.writeAt (y : Int) (x : Int) s.selection >>= _) = _
    rw [hw]
    rfl
  · rw [hcell y x, if_pos ⟨rfl, rfl⟩]

theorem frame_of (e : Option INPUT_RECORD) (s t : State) (h : HandleInput e s = .ok t)
    (hc : cursorInScreen t) :
    ∃ sb, frame s e = .ok { t with screenBuffer := sb } ∧
      ∀ r c, 25 ≤ r → sb.cell r c = t.screenBuffer.cell r c := by
  obtain ⟨sb, hd⟩ := Draw_some t hc
  obtain ⟨sb2, he, hcell⟩ := Draw_effect t _ hd
  have hsb : sb = sb2 := congrArg State.screenBuffer he
  refine ⟨sb, ?_, ?_⟩
  · unfold frame
    rw [h]
    exact hd
  · rw [hsb]
    exact hcell

theorem cursorInScreen_of_nat (s : State) (x y : Nat) (hX : s.mouseX = x) (hY : s.mouseY = y)
    (hx : x < 80) (hy : y < 32) : cursorInScreen s := by
  unfold cursorInScreen
  rw [hX, hY]
  show (0 : Int) ≤ x ∧ (x : Int) < (80 : Nat) ∧ (0 : Int) ≤ y ∧ (y : Int) < (32 : Nat)
  omega

theorem frame_pick_colour (s : State) (x r : Nat) (hm : s.editorMode = .tiles)
    (hx : x < 80) (hr : r < 7) (hi : 256 ≤ x + 80 * r) :
    ∃ s', frame s (some (.MOUSE_EVENT ⟨(x : Int), ((25 + r : Nat) : Int)⟩
        FROM_LEFT_1ST_BUTTON_PRESSED)) = .ok s' ∧
      s'.editorMode = .tiles ∧
      s'.selection = ⟨s.selection.AsciiChar, (s.screenBuffer.cell (25 + r) x).Attributes⟩ ∧
      ∀ r' c, 25 ≤ r' →
        (s'.screenBuffer.cell r' c).AsciiChar = (s.screenBuffer.cell r' c).AsciiChar := by
  obtain ⟨sb, h, hcell⟩ := HandleInput_pick_colour s x r hm hx hr hi
  obtain ⟨sb', hf, hcell'⟩ := frame_of _ s _ h
    (cursorInScreen_of_nat _ x (25 + r) rfl rfl hx (by omega))
  refine ⟨_, hf, hm, rfl, fun r' c hr' => ?_⟩
  show (sb'.cell r' c).AsciiChar = _
  rw [hcell' r' c hr']
  show (sb.cell r' c).AsciiChar = _
  rw [hcell r' c]
  split_ifs <;> rfl

theorem frame_right (s : State) (p : COORD) (hm : s.editorMode = .tiles)
    (hp : inScreen (some (.MOUSE_EVENT p RIGHTMOST_BUTTON_PRESSED))) :
    ∃ s', frame s (some (.MOUSE_EVENT p RIGHTMOST_BUTTON_PRESSED)) = .ok s' ∧
      s'.editorMode = .tiles ∧ s'.selection = s.selection ∧
      ∀ r' c, 25 ≤ r' →
        (s'.screenBuffer.cell r' c).AsciiChar = (s.screenBuffer.cell r' c).AsciiChar := by
  obtain ⟨sb, h, hcell⟩ := HandleInput_right s p hm
  obtain ⟨sb', hf, hcell'⟩ := frame_of _ s _ h hp
  refine ⟨_, hf, hm, rfl, fun r' c hr' => ?_⟩
  show (sb'.cell r' c).AsciiChar = _
  rw [hcell' r' c hr']
  show (sb.cell r' c).AsciiChar = _
  rw [hcell r' c]
  split_ifs <;> rfl

theorem frame_pick_glyph (s : State) (x r : Nat) (hm : s.editorMode = .tiles)
    (hx : x < 80) (hr : r < 7) (hi : x + 80 * r < 256) :
    ∃ s', frame s (some (.MOUSE_EVENT ⟨(x : Int), ((25 + r : Nat) : Int)⟩
        FROM_LEFT_1ST_BUTTON_PRESSED)) = .ok s' ∧
      s'.editorMode = .tiles ∧ s'.hasSelection = true ∧
      s'.selection = ⟨(s.screenBuffer.cell (25 + r) x).AsciiChar, s.selection.Attributes⟩ := by
  have h := HandleInput_pick_glyph s x r hm hx hr hi
  obtain ⟨sb', hf, _⟩ := frame_of _ s _ h
    (cursorInScreen_of_nat _ x (25 + r) rfl rfl hx (by omega))
  exact ⟨_, hf, hm, rfl, rfl⟩

theorem frame_paint (s : State) (x y : Nat) (hm : s.editorMode = .tiles)
    (hx : x < 80) (hy : y < 25) (hsel : s.hasSelection = true) :
    ∃ s', frame s (some (.MOUSE_EVENT ⟨(x : Int), (y : Int)⟩
        FROM_LEFT_1ST_BUTTON_PRESSED)) = .ok s' ∧
      s'.mapBuffer.cell y x = s.selection := by
  obtain ⟨mb, h, hcell⟩ := HandleInput_paint s x y hm hx hy hsel
  obtain ⟨sb', hf, _⟩ := frame_of _ s _ h
    (cursorInScreen_of_nat _ x y rfl rfl hx (by omega))
  exact ⟨_, hf, hcell⟩

/-- C20: in Tile mode a right-button press returns a state that differs from the
one before in the cursor, in `hasSelection`, which is false, and in the screen
buffer, where the attributes of the palette cells 0 to 255 are the default and all
else is as before; so the brush glyph and attributes, the map and the walkable
flags are as before.  And the run of the loop over a left press on a colour swatch,
a right press anywhere on the screen, a left press on a glyph swatch and a left
press on the map cell `(x, y)` returns a state whose map cell `(x, y)` has the glyph
of the glyph swatch and the attributes of the colour swatch, which is not the
glyph with the default attributes unless the swatch carries them. -/
theorem C20_clear_keeps_colour (s : State) (p : COORD) (cx cr gx gr x y : Nat)
    (hm : s.editorMode = .tiles)
    (hcx : cx < 80) (hcr : cr < 7) (hci : 256 ≤ cx + 80 * cr)
    (hgx : gx < 80) (hgr : gr < 7) (hgi : gx + 80 * gr < 256)
    (hp : inScreen (some (.MOUSE_EVENT p RIGHTMOST_BUTTON_PRESSED)))
    (hx : x < 80) (hy : y < 25) :
    (∃ sb, HandleInput (some (.MOUSE_EVENT p RIGHTMOST_BUTTON_PRESSED)) s = .ok { s with
        mouseX := p.X
        mouseY := p.Y
        hasSelection := false
        screenBuffer := sb } ∧
      ∀ r c, sb.cell r c =
        if 25 ≤ r ∧ c < 80 ∧ c + 80 * (r - 25) < 256 then
          { s.screenBuffer.cell r c with Attributes := defaultPaletteAttributes }
        else s.screenBuffer.cell r c) ∧
    ∃ s', run s
        [some (.MOUSE_EVENT ⟨(cx : Int), ((25 + cr : Nat) : Int)⟩ FROM_LEFT_1ST_BUTTON_PRESSED),
          some (.MOUSE_EVENT p RIGHTMOST_BUTTON_PRESSED),
          some (.MOUSE_EVENT ⟨(gx : Int), ((25 + gr : Nat) : Int)⟩ FROM_LEFT_1ST_BUTTON_PRESSED),
          some (.MOUSE_EVENT ⟨(x : Int), (y : Int)⟩ FROM_LEFT_1ST_BUTTON_PRESSED)] = .ok s' ∧
      s'.mapBuffer.cell y x =
        ⟨(s.screenBuffer.cell (25 + gr) gx).AsciiChar,
          (s.screenBuffer.cell (25 + cr) cx).Attributes⟩ ∧
      ((s.screenBuffer.cell (25 + cr) cx).Attributes ≠ defaultPaletteAttributes →
        s'.mapBuffer.cell y x ≠
          ⟨(s.screenBuffer.cell (25 + gr) gx).AsciiChar, defaultPaletteAttributes⟩) := by
  refine ⟨HandleInput_right s p hm, ?_⟩
  obtain ⟨s1, h1, m1, sel1, g1⟩ := frame_pick_colour s cx cr hm hcx hcr hci
  obtain ⟨s2, h2, m2, sel2, g2⟩ := frame_right s1 p m1 hp
  obtain ⟨s3, h3, m3, hs3, sel3⟩ := frame_pick_glyph s2 gx gr m2 hgx hgr hgi
  obtain ⟨s4, h4, hcell⟩ := frame_paint s3 x y m3 hx hy hs3
  have hval : s4.mapBuffer.cell y x =
      ⟨(s.screenBuffer.cell (25 + gr) gx).AsciiChar,
        (s.screenBuffer.cell (25 + cr) cx).Attributes⟩ := by
    rw [hcell, sel3, sel2, sel1, g2 (25 + gr) gx (by omega), g1 (25 + gr) gx (by omega)]
  refine ⟨s4, ?_, hval, fun hne heq => ?_⟩
  · rw [run_cons, h1]
    simp only [bind, Except.bind]
    rw [run_cons, h2]
    simp only [bind, Except.bind]
    rw [run_cons, h3]
    simp only [bind, Except.bind]
    rw [run_cons, h4]
    simp only [bind, Except.bind]
    rfl
  · rw [hval] at heq
    exact hne (congrArg CHAR_INFO.Attributes heq)


/-- Witness of C20: on the screen whose every cell is `'$'` with attributes 7, the
colour swatch at `(64, 29)`, a right press at `(5, 5)`, the glyph swatch at
`(65, 25)` and a left press on the map cell `(3, 4)` leave that cell `'$'` with
attributes 7. -/
theorem C20_clear_keeps_colour_witness :
    ∃ s', run dollarState
        [some (.MOUSE_EVENT ⟨((64 : Nat) : Int), ((25 + 4 : Nat) : Int)⟩
            FROM_LEFT_1ST_BUTTON_PRESSED),
          some (.MOUSE_EVENT ⟨5, 5⟩ RIGHTMOST_BUTTON_PRESSED),
          some (.MOUSE_EVENT ⟨((65 : Nat) : Int), ((25 + 0 : Nat) : Int)⟩
            FROM_LEFT_1ST_BUTTON_PRESSED),
          some (.MOUSE_EVENT ⟨((3 : Nat) : Int), ((4 : Nat) : Int)⟩
            FROM_LEFT_1ST_BUTTON_PRESSED)] = .ok s' ∧
      s'.mapBuffer.cell 4 3 = ⟨36, 7⟩ := by
  obtain ⟨_, s', h, hcell, _⟩ := C20_clear_keeps_colour dollarState ⟨5, 5⟩ 64 4 65 0 3 4 rfl
    (by decide) (by decide) (by decide) (by decide) (by decide) (by decide)
    ⟨by decide, by decide, by decide, by decide⟩ (by decide) (by decide)
  refine ⟨s', h, ?_⟩
  rw [hcell, dollarState_cell 25 65 (by decide) (by decide),
    dollarState_cell 29 64 (by decide) (by decide)]


end MapEditor
